import Mathlib

/-!
Marketplace chaincode: ledger model and settlement engine.

A shallow embedding of the Go chaincode (`main.go`, `asset.go`, `owner.go`,
`transaction.go`, `utils/`).

Conventions of the embedding.

* Go `int` / `int64` is `Int`.  The asset methods come twice: with sums and
  differences of quantities taken in `ℤ` (`addOwner`, `transactAsset`, ...),
  which is what the machine computes as long as no result leaves the range of a
  64-bit `int`, and with every sum and difference reduced by `int64` to the
  value the 64-bit `int` holds (`addOwner64`, `transactAsset64`, ...).  The two
  return the same errors (`transactAsset64_err`); the postconditions of a trade
  and of an approval, and the sign of the stored holder records, are stated on
  the 64-bit ones.
* A Go `float64` value is the rational number it denotes (`ℚ`); comparisons of
  such values are comparisons of rationals.  The results of `float64`
  arithmetic are rounded by the machine: the operations `*`, `+`, `-`, `/` and
  the conversion `float64(int)` are fields of `Env`, with four facts of IEEE 754
  arithmetic, so nothing below depends on how a result is rounded.  Infinities
  and NaN are left out.
* A Go slice is a `List`; a nil slice and an empty slice are both `[]`.
* A Go `map[string]OwnedBy` is a function `String → Option OwnedBy`; reading a
  missing key yields the zero record, as in Go.
* The ledger store is a function from keys to stored documents.  A stored
  document is the JSON image of one of the four values the chaincode ever
  marshals: an owner, an asset, a transaction or a list of ids.  Marshalling is
  the constructor of `Doc`; `json.Unmarshal` is supplied by the environment
  together with the fact that it inverts marshalling.
* `PutState` and `GetState` never fail by themselves: every property below is
  about runs in which store writes succeed.
* Everything the chaincode takes from outside the repository sources (the
  `strconv` parsers, the clock, the hash, the HTTP fetch) is a field of `Env`.
* Logging calls (`utils.Print...`) have no effect on the ledger and are dropped.
-/

namespace Marketplace

/-! ## Data model (`owner.go`, `asset.go`, `transaction.go`) -/

/-- Go struct `OwnerInfo`. -/
structure OwnerInfo where
  Description : String
  Logo : String
  Background : String
  deriving DecidableEq, Repr

/-- Go struct `Owner`. -/
structure Owner where
  OwnerId : String
  Name : String
  Information : OwnerInfo
  Balance : ℚ
  Validated : Bool
  Tag : String
  EscrowBalance : ℚ
  Assets : List String
  Issued : List String
  Transactions : List String
  deriving DecidableEq, Repr

/-- Go struct `AssetInfo`. -/
structure AssetInfo where
  Description : String
  Logo : String
  deriving DecidableEq, Repr

/-- Go struct `OwnedBy`: one holder record of an asset. -/
structure OwnedBy where
  OwnerId : String
  Quantity : Int
  EscrowQty : Int
  deriving DecidableEq, Repr

/-- Go struct `Trigger`. -/
structure Trigger where
  Approval : Bool
  ApprovalQty : Int
  deriving DecidableEq, Repr

/-- Go struct `API`: the price-fixing contract of an asset. -/
structure API where
  URL : String
  Keys : List String
  Condition : String
  Value : String
  Discount : ℚ
  deriving DecidableEq, Repr

/-- Go struct `Asset`. -/
structure Asset where
  Id : String
  Name : String
  Information : AssetInfo
  Tag : String
  Quantity : Int
  Price : ℚ
  Issuer : String
  IssuedTS : Int
  IssuedQty : Int
  Owners : List String
  OwnedBy : String → Option OwnedBy
  Triggers : Trigger
  Contract : API

/-- Go struct `Transaction`. -/
structure Transaction where
  Id : String
  AssetId : String
  SellerId : String
  BuyerId : String
  Quantity : Int
  Price : ℚ
  Discount : ℚ
  Created : Int
  Status : String
  APIFixing : String
  deriving DecidableEq, Repr

/-- A stored document: the marshalled form of an owner, an asset, a transaction
or a registry (a list of ids). -/
inductive Doc where
  | owner (o : Owner)
  | asset (a : Asset)
  | transaction (t : Transaction)
  | strings (l : List String)

/-- The ledger store: `GetState` returns nil bytes (`none`) for an absent key. -/
abbrev Store := String → Option Doc

/-- The effect of `stub.PutState(key, bytes)`. -/
def PutState (st : Store) (key : String) (d : Doc) : Store :=
  fun k => if k = key then some d else st k

/-- The errors the chaincode returns, one constructor per `errors.New` site or
library failure. -/
inductive Err where
  | incorrectArgs (fn : String)
  | strconv
  | stateMissing (key : String) (fn : String)
  | unmarshal
  | notValidated (ownerId : String) (fn : String)
  | ownershipIssues
  | insufficientBalance
  | insufficientQuantity
  | priceMismatch
  | nonPending (txId : String)
  | alreadyExists (id : String)
  deriving DecidableEq, Repr

/-- What an invocation leaves behind: the returned error (`none` for nil) and
the store after the call. -/
structure Result where
  err : Option Err
  store : Store

/-- A decoded JSON document as Go's `interface{}` holds it. -/
inductive JSON where
  | null
  | bool (b : Bool)
  | num (x : ℚ)
  | str (s : String)
  | arr (xs : List JSON)
  | obj (kvs : List (String × JSON))

/-- Everything taken from outside the repository sources. -/
structure Env where
  /-- The function `strconv.Atoi`. -/
  Atoi : String → Option Int
  /-- The function `strconv.ParseFloat(_, 64)`. -/
  ParseFloat : String → Option ℚ
  /-- The function `strconv.ParseBool`. -/
  ParseBool : String → Option Bool
  /-- The function `strconv.Itoa`. -/
  Itoa : Int → String
  /-- The function `strconv.FormatFloat(_, 'f', 6, 64)`. -/
  FormatFloat : ℚ → String
  /-- The value of `time.Now().Unix()` during the call. -/
  Now : Int
  /-- The function `utils.HashSHA256`, which is not among the sources: any
  function from strings to strings. -/
  HashSHA256 : String → String
  /-- The function `utils.GetJSONFromURL`; `none` when it returns an error. -/
  GetJSONFromURL : String → Option JSON
  /-- Go's `float64` product `a * b`: the product as the machine rounds it. -/
  mulFloat : ℚ → ℚ → ℚ
  /-- Go's `float64` sum `a + b`: the sum as the machine rounds it. -/
  addFloat : ℚ → ℚ → ℚ
  /-- Go's `float64` difference `a - b`: the difference as the machine rounds
  it. -/
  subFloat : ℚ → ℚ → ℚ
  /-- Go's `float64` quotient `a / b`: the quotient as the machine rounds it. -/
  divFloat : ℚ → ℚ → ℚ
  /-- Go's conversion `float64(n)` of an `int`. -/
  floatOfInt : Int → ℚ
  /-- The function `json.Unmarshal` into an `Owner`. -/
  unmarshalOwner : Doc → Option Owner
  /-- The function `json.Unmarshal` into an `Asset`. -/
  unmarshalAsset : Doc → Option Asset
  /-- The function `json.Unmarshal` into a `Transaction`. -/
  unmarshalTransaction : Doc → Option Transaction
  /-- The function `json.Unmarshal` into a `[]string`. -/
  unmarshalStrings : Doc → Option (List String)
  owner_roundtrip : ∀ o, unmarshalOwner (Doc.owner o) = some o
  asset_roundtrip : ∀ a, unmarshalAsset (Doc.asset a) = some a
  transaction_roundtrip : ∀ t, unmarshalTransaction (Doc.transaction t) = some t
  strings_roundtrip : ∀ l, unmarshalStrings (Doc.strings l) = some l
  /-- IEEE 754: a parsed `float64` times `1.0` is itself. -/
  mulFloat_one : ∀ s x, ParseFloat s = some x → mulFloat x 1 = x
  /-- IEEE 754: `1.0 - 0.0` is `1.0`. -/
  subFloat_one_zero : subFloat 1 0 = 1
  /-- IEEE 754: `0.0 / 100.0` is `0.0`. -/
  zero_divFloat : divFloat 0 100 = 0
  /-- IEEE 754: rounding is monotone and `0.0` is a `float64`, so `a - b` is not
  negative when `b <= a`. -/
  subFloat_nonneg : ∀ a b, b ≤ a → 0 ≤ subFloat a b

/-- The four registry names of `main.go`. -/
def PRIMARYKEY : List String := ["Owners", "Assets", "Transactions", "PendingTransactions"]

/-- The registry name `PRIMARYKEY[0]`. -/
def PRIMARYKEY0 : String := "Owners"
/-- The registry name `PRIMARYKEY[1]`. -/
def PRIMARYKEY1 : String := "Assets"
/-- The registry name `PRIMARYKEY[2]`. -/
def PRIMARYKEY2 : String := "Transactions"
/-- The registry name `PRIMARYKEY[3]`. -/
def PRIMARYKEY3 : String := "PendingTransactions"

/-! ## `utils` helpers -/

/-- Modelled from the spec: `utils.IsElementInSlice` is not among the sources;
the spec describes it as the membership test of an id list. -/
def IsElementInSlice (slice : List String) (element : String) : Bool :=
  slice.contains element

/-- Modelled from the spec: `utils.DeleteElementFromSlice` is not among the
sources; the spec describes it as removing one id from an id list, a no-op when
the id is absent. -/
def DeleteElementFromSlice (slice : List String) (element : String) : List String :=
  slice.filter (fun e => e != element)

/-- Go `ReflectInterface` (`utils/reflection.go`). -/
def ReflectInterface (interFace : JSON) (key : String) : JSON :=
  match interFace with
  | JSON.obj kvs =>
    match kvs.find? (fun kv => kv.1 == key) with
    | some kv => kv.2
    | none => interFace
  | _ => interFace

/-- Go `GetEndpoint` (`utils/api.go`). -/
def GetEndpoint (E : Env) (url : String) (keys : List String) : String :=
  let data := (E.GetJSONFromURL url).getD JSON.null
  let data := keys.foldl ReflectInterface data
  match data with
  | JSON.num x => E.FormatFloat x
  | JSON.str s => s
  | JSON.null => "<invalid Value>"
  | JSON.bool _ => "<bool Value>"
  | JSON.arr _ => "<[]interface \x7b\x7d Value>"
  | JSON.obj _ => "<map[string]interface \x7b\x7d Value>"

/-! ## Asset methods (`asset.go`) -/

/-- The Go map read `a.OwnedBy[ownerId]`: the zero record for a missing key. -/
def Asset.ownedBy (a : Asset) (ownerId : String) : Marketplace.OwnedBy :=
  (a.OwnedBy ownerId).getD ⟨"", 0, 0⟩

/-- The Go map write `a.OwnedBy[ownerId] = ownedBy`. -/
def Asset.setOwnedBy (a : Asset) (ownerId : String) (ownedBy : Marketplace.OwnedBy) : Asset :=
  { a with OwnedBy := fun k => if k = ownerId then some ownedBy else a.OwnedBy k }

/-- Go `(a *Asset) save`. -/
def Asset.save (a : Asset) (st : Store) : Store :=
  PutState st a.Id (Doc.asset a)

/-- Go `(a *Asset) addOwner`. -/
def Asset.addOwner (a : Asset) (ownerId : String) (quantity : Int) : Asset :=
  if IsElementInSlice a.Owners ownerId then
    let ownedBy := a.ownedBy ownerId
    a.setOwnedBy ownerId { ownedBy with Quantity := ownedBy.Quantity + quantity }
  else
    ({ a with Owners := a.Owners ++ [ownerId] }).setOwnedBy ownerId ⟨ownerId, quantity, 0⟩

/-- Go `(a *Asset) subtractOwner`. -/
def Asset.subtractOwner (a : Asset) (ownerId : String) (quantity : Int) (isPending : Bool) : Asset :=
  let ownedBy := a.ownedBy ownerId
  if isPending then
    a.setOwnedBy ownerId { ownedBy with EscrowQty := ownedBy.EscrowQty - quantity }
  else
    a.setOwnedBy ownerId { ownedBy with Quantity := ownedBy.Quantity - quantity }

/-- Go `(a *Asset) deleteOwner`. -/
def Asset.deleteOwner (a : Asset) (ownerId : String) : Asset :=
  { a with
    Owners := DeleteElementFromSlice a.Owners ownerId
    OwnedBy := fun k => if k = ownerId then none else a.OwnedBy k }

/-- Go `(a *Asset) removeOwner`. -/
def Asset.removeOwner (a : Asset) (ownerId : String) (quantity : Int) (isPending : Bool) : Asset :=
  let ownedBy := a.ownedBy ownerId
  if isPending then
    if ownedBy.Quantity = 0 ∧ ownedBy.EscrowQty = quantity then
      a.deleteOwner ownerId
    else
      a.subtractOwner ownerId quantity isPending
  else
    if ownedBy.Quantity = quantity ∧ ownedBy.EscrowQty = 0 then
      a.deleteOwner ownerId
    else
      a.subtractOwner ownerId quantity isPending

/-- Go `(a *Asset) escrowOwner`. -/
def Asset.escrowOwner (a : Asset) (ownerId : String) (quantity : Int) : Asset :=
  let ownedBy := a.ownedBy ownerId
  a.setOwnedBy ownerId
    { ownedBy with
      Quantity := ownedBy.Quantity - quantity
      EscrowQty := ownedBy.EscrowQty + quantity }

/-- Go `(a *Asset) rollbackTransaction`: it passes `quantity` to `escrowOwner`
as it received it. -/
def Asset.rollbackTransaction (a : Asset) (ownerId : String) (quantity : Int) : Asset :=
  let a := a.escrowOwner ownerId quantity
  if ownerId = a.Issuer then { a with Quantity := a.Quantity + quantity } else a

/-- Go `(a *Asset) verifyHoldings`. -/
def Asset.verifyHoldings (a : Asset) (ownerId : String) (quantity : Int) : Option Err :=
  if (a.ownedBy ownerId).Quantity < quantity then some Err.insufficientQuantity else none

/-- Go `(a *Asset) verifyPrice`. -/
def Asset.verifyPrice (a : Asset) (price : ℚ) : Option Err :=
  if a.Price ≠ price then some Err.priceMismatch else none

/-! ## Owner methods (`owner.go`) -/

/-- Go `(o *Owner) save`. -/
def Owner.save (o : Owner) (st : Store) : Store :=
  PutState st o.OwnerId (Doc.owner o)

/-- Go `(o *Owner) addAsset`. -/
def Owner.addAsset (o : Owner) (assetId : String) : Owner :=
  if IsElementInSlice o.Assets assetId = false then
    { o with Assets := o.Assets ++ [assetId] }
  else o

/-- Go `(o *Owner) deleteAsset`. -/
def Owner.deleteAsset (o : Owner) (assetId : String) : Owner :=
  { o with Assets := DeleteElementFromSlice o.Assets assetId }

/-- Go `(o *Owner) removeAsset`. -/
def Owner.removeAsset (o : Owner) (asset : Asset) (quantity : Int) : Owner :=
  let ownsQuantity := (asset.ownedBy o.OwnerId).Quantity
  if ownsQuantity = quantity then o.deleteAsset asset.Id else o

/-- Go `(o *Owner) addTransaction`. -/
def Owner.addTransaction (o : Owner) (transactionId : String) : Owner :=
  { o with Transactions := o.Transactions ++ [transactionId] }

/-- Go `(o *Owner) approveBuyTransaction`. -/
def Owner.approveBuyTransaction (E : Env) (o : Owner) (assetId : String) (amount : ℚ) : Owner :=
  let o := o.addAsset assetId
  { o with EscrowBalance := E.subFloat o.EscrowBalance amount }

/-- Go `(o *Owner) approveSellTransaction`. -/
def Owner.approveSellTransaction (E : Env) (o : Owner) (asset : Asset) (amount : ℚ)
    (quantity : Int) : Owner :=
  let o :=
    if (asset.ownedBy o.OwnerId).EscrowQty = quantity ∧ (asset.ownedBy o.OwnerId).Quantity = 0 then
      o.deleteAsset asset.Id
    else o
  { o with Balance := E.addFloat o.Balance amount }

/-- Go `(o *Owner) rollbackBuyTransaction`. -/
def Owner.rollbackBuyTransaction (E : Env) (o : Owner) (amount : ℚ) : Owner :=
  { o with
    EscrowBalance := E.subFloat o.EscrowBalance amount
    Balance := E.addFloat o.Balance amount }

/-- Go `(o *Owner) verifyBalance`. -/
def Owner.verifyBalance (o : Owner) (amount : ℚ) : Option Err :=
  if o.Balance < amount then some Err.insufficientBalance else none

/-- Go `(o *Owner) isValidated`. -/
def Owner.isValidated (o : Owner) (fn : String) : Option Err :=
  if o.Validated = false then some (Err.notValidated o.OwnerId fn) else none

/-- Go `(o *Owner) toggleValidation`. -/
def Owner.toggleValidation (o : Owner) : Owner :=
  if o.Validated = true then { o with Validated := false } else { o with Validated := true }

/-! ## Registry access (`main.go`) -/

/-- Go `(dcc) getDataArrayStrings`. -/
def getDataArrayStrings (E : Env) (st : Store) (dataKey : String) (args : List String) :
    Except Err (List String) :=
  match args with
  | [] =>
    match st dataKey with
    | none => Except.error Err.unmarshal
    | some arrayBytes =>
      match E.unmarshalStrings arrayBytes with
      | none => Except.error Err.unmarshal
      | some outputArray => Except.ok outputArray
  | _ => Except.error (Err.incorrectArgs "getDataArrayStrings")

/-- Go `(dcc) saveLedger`. -/
def saveLedger (st : Store) (dataKey : String) (ledger : List String) : Store :=
  PutState st dataKey (Doc.strings ledger)

/-- Go `(dcc) saveStringToDataArray`. -/
def saveStringToDataArray (st : Store) (dataKey : String) (addString : String)
    (ledger : List String) : Store :=
  saveLedger st dataKey (ledger ++ [addString])

/-! ## Entity access (`owner.go`, `asset.go`, `transaction.go`) -/

/-- Go `(dcc) getOwner`. -/
def getOwner (E : Env) (st : Store) (args : List String) : Except Err Owner :=
  match args with
  | [ownerId] =>
    match st ownerId with
    | none => Except.error (Err.stateMissing ownerId "getOwner")
    | some ownerBytes =>
      match E.unmarshalOwner ownerBytes with
      | none => Except.error Err.unmarshal
      | some owner => Except.ok owner
  | _ => Except.error (Err.incorrectArgs "getOwner")

/-- Go `(dcc) getAsset`. -/
def getAsset (E : Env) (st : Store) (args : List String) : Except Err Asset :=
  match args with
  | [assetId] =>
    match st assetId with
    | none => Except.error (Err.stateMissing assetId "getAsset")
    | some assetBytes =>
      match E.unmarshalAsset assetBytes with
      | none => Except.error Err.unmarshal
      | some asset => Except.ok asset
  | _ => Except.error (Err.incorrectArgs "getAsset")

/-- Go `(dcc) getTransaction`. -/
def getTransaction (E : Env) (st : Store) (args : List String) : Except Err Transaction :=
  match args with
  | [transactionId] =>
    match st transactionId with
    | none => Except.error (Err.stateMissing transactionId "getTransaction")
    | some transactionBytes =>
      match E.unmarshalTransaction transactionBytes with
      | none => Except.error Err.unmarshal
      | some transaction => Except.ok transaction
  | _ => Except.error (Err.incorrectArgs "getTransaction")

/-! ## Transaction methods (`transaction.go`) -/

/-- Go `(tx *Transaction) save`. -/
def Transaction.save (tx : Transaction) (st : Store) : Store :=
  PutState st tx.Id (Doc.transaction tx)

/-- What `approve` and `rollback` leave behind: the returned error, the
transaction as the receiver holds it afterwards, and the store. -/
structure TxResult where
  err : Option Err
  tx : Transaction
  store : Store

/-- Go `(tx *Transaction) approve`. -/
def Transaction.approve (E : Env) (st : Store) (tx : Transaction) : TxResult :=
  if tx.Status ≠ "Pending" then ⟨some (Err.nonPending tx.Id), tx, st⟩ else
  match getOwner E st [tx.BuyerId] with
  | Except.error e => ⟨some e, tx, st⟩
  | Except.ok buyer =>
  match getOwner E st [tx.SellerId] with
  | Except.error e => ⟨some e, tx, st⟩
  | Except.ok seller =>
  match getAsset E st [tx.AssetId] with
  | Except.error e => ⟨some e, tx, st⟩
  | Except.ok asset =>
  let buyer := buyer.approveBuyTransaction E tx.AssetId
    (E.mulFloat tx.Price (E.floatOfInt tx.Quantity))
  let st := buyer.save st
  let seller := seller.approveSellTransaction E asset
    (E.mulFloat tx.Price (E.floatOfInt tx.Quantity)) tx.Quantity
  let st := seller.save st
  let asset := asset.addOwner tx.BuyerId tx.Quantity
  let asset := asset.removeOwner tx.SellerId tx.Quantity true
  let st := asset.save st
  ⟨none, { tx with Status := "Approved" }, st⟩

/-- Go `(tx *Transaction) rollback`. -/
def Transaction.rollback (E : Env) (st : Store) (tx : Transaction) : TxResult :=
  if tx.Status ≠ "Pending" then ⟨some (Err.nonPending tx.Id), tx, st⟩ else
  match getOwner E st [tx.BuyerId] with
  | Except.error e => ⟨some e, tx, st⟩
  | Except.ok buyer =>
  let buyer := buyer.rollbackBuyTransaction E (E.mulFloat tx.Price (E.floatOfInt tx.Quantity))
  let st := buyer.save st
  match getAsset E st [tx.AssetId] with
  | Except.error e => ⟨some e, tx, st⟩
  | Except.ok asset =>
  let asset := asset.rollbackTransaction tx.SellerId tx.Quantity
  let st := asset.save st
  ⟨none, { tx with Status := "Declined" }, st⟩

/-- Go `(tx *Transaction) removeFromPendingLedger`: the error of the read is
overwritten, so a failed read continues with the empty list. -/
def Transaction.removeFromPendingLedger (E : Env) (st : Store) (tx : Transaction) : Store :=
  let pendingTransactionsLedger :=
    match getDataArrayStrings E st PRIMARYKEY3 [] with
    | Except.ok l => l
    | Except.error _ => []
  let pendingTransactionsLedger := DeleteElementFromSlice pendingTransactionsLedger tx.Id
  saveLedger st PRIMARYKEY3 pendingTransactionsLedger

/-- The local `transactionId` of Go `createTransaction`: the hash of
`assetId-sellerId-buyerId-timestamp`. -/
def newTransactionId (E : Env) (assetId sellerId buyerId : String) (timestamp : Int) : String :=
  E.HashSHA256 (assetId ++ "-" ++ sellerId ++ "-" ++ buyerId ++ "-" ++ E.Itoa timestamp)

/-- Go `(dcc) createTransaction`. -/
def createTransaction (E : Env) (quantity : Int) (price : ℚ) (args : List String) :
    Except Err Transaction :=
  match args with
  | [assetId, sellerId, buyerId] =>
    let timestamp := E.Now
    let transactionId := newTransactionId E assetId sellerId buyerId timestamp
    Except.ok
      { Id := transactionId
        AssetId := assetId
        SellerId := sellerId
        BuyerId := buyerId
        Quantity := quantity
        Price := price
        Discount := 0
        Created := timestamp
        Status := "Pending"
        APIFixing := "" }
  | _ => Except.error (Err.incorrectArgs "createTransaction")

/-! ## Trade execution (`transaction.go`, `transactAsset`) -/

/-- The block "Check the requirements for trading" of Go `transactAsset`: the
first failing check decides the error. -/
def tradingRequirements (fn : String) (asset : Asset) (seller buyer : Owner) (sellerId : String)
    (quantity : Int) (price forAmount : ℚ) : Option Err :=
  match seller.isValidated fn with
  | some e => some e
  | none =>
  match buyer.isValidated fn with
  | some e => some e
  | none =>
  let checkAsset := IsElementInSlice asset.Owners sellerId
  let checkOwner := IsElementInSlice seller.Assets asset.Id
  if checkAsset = false ∨ checkOwner = false then some Err.ownershipIssues else
  match buyer.verifyBalance forAmount with
  | some e => some e
  | none =>
  match asset.verifyHoldings sellerId quantity with
  | some e => some e
  | none => asset.verifyPrice price

/-- The `switch` on the contract condition in Go `transactAsset`. -/
def contractDiscount (asset : Asset) (transaction : Transaction) (fix val : ℚ) : Transaction :=
  if asset.Contract.Condition = "less" then
    if fix < val then { transaction with Discount := asset.Contract.Discount } else transaction
  else if asset.Contract.Condition = "more" then
    if fix > val then { transaction with Discount := asset.Contract.Discount } else transaction
  else if asset.Contract.Condition = "equal" then
    if fix = val then { transaction with Discount := asset.Contract.Discount } else transaction
  else transaction

/-- The block "Get the API fixing if needed" of Go `transactAsset`.  The local
`price` it updates is read afterwards only through `transaction.Price`;
`forAmount` is not recomputed. -/
def apiFixing (E : Env) (asset : Asset) (transaction : Transaction) (price : ℚ) :
    Except Err Transaction :=
  if asset.Contract.URL ≠ "" then
    let fixing := GetEndpoint E asset.Contract.URL asset.Contract.Keys
    let transaction := { transaction with APIFixing := fixing }
    match E.ParseFloat asset.Contract.Value with
    | none => Except.error Err.strconv
    | some val =>
    match E.ParseFloat fixing with
    | none => Except.error Err.strconv
    | some fix =>
    let transaction := contractDiscount asset transaction fix val
    let price := E.mulFloat price (E.subFloat 1 (E.divFloat transaction.Discount 100))
    Except.ok { transaction with Price := price }
  else Except.ok transaction

/-- The block "Save the owners, asset, transaction and the general transaction
ledger" of Go `transactAsset`. -/
def persistTrade (st : Store) (buyer seller : Owner) (asset : Asset) (transaction : Transaction)
    (transactionsLedger : List String) : Result :=
  let st := buyer.save st
  let st := seller.save st
  let st := asset.save st
  let st := transaction.save st
  let st := saveStringToDataArray st PRIMARYKEY2 transaction.Id transactionsLedger
  ⟨none, st⟩

/-- The mutation part of Go `transactAsset`: the unconditional updates, the
escrow or direct branch, and the saves. -/
def settleTrade (E : Env) (st : Store) (asset : Asset) (seller buyer : Owner)
    (transaction : Transaction) (transactionsLedger : List String)
    (assetId sellerId buyerId : String) (quantity : Int) (forAmount : ℚ)
    (approvalRequired : String) : Result :=
  let buyer := { buyer with Balance := E.subFloat buyer.Balance forAmount }
  let buyer := buyer.addTransaction transaction.Id
  let seller := seller.addTransaction transaction.Id
  let asset :=
    if sellerId = asset.Issuer then { asset with Quantity := asset.Quantity - quantity } else asset
  if approvalRequired = "TRUE" then
    let buyer := { buyer with EscrowBalance := E.addFloat buyer.EscrowBalance forAmount }
    let asset := asset.escrowOwner sellerId quantity
    match getDataArrayStrings E st PRIMARYKEY3 [] with
    | Except.error e => ⟨some e, st⟩
    | Except.ok pendingTransactionsLedger =>
    let st := saveStringToDataArray st PRIMARYKEY3 transaction.Id pendingTransactionsLedger
    let transaction := { transaction with Status := "Pending" }
    persistTrade st buyer seller asset transaction transactionsLedger
  else
    let seller := seller.removeAsset asset quantity
    let seller := { seller with Balance := E.addFloat seller.Balance forAmount }
    let buyer := buyer.addAsset assetId
    let asset := asset.addOwner buyerId quantity
    let asset := asset.removeOwner sellerId quantity false
    let transaction := { transaction with Status := "Validated" }
    persistTrade st buyer seller asset transaction transactionsLedger

/-- Go `(dcc) transactAsset`. -/
def transactAsset (E : Env) (st : Store) (fn : String) (args : List String) : Result :=
  match args with
  | [assetId, sellerId, buyerId, arg3, arg4, arg5] =>
    match E.Atoi arg3 with
    | none => ⟨some Err.strconv, st⟩
    | some quantity =>
    match E.ParseFloat arg4 with
    | none => ⟨some Err.strconv, st⟩
    | some price =>
    let forAmount := E.mulFloat price (E.floatOfInt quantity)
    match getAsset E st [assetId] with
    | Except.error e => ⟨some e, st⟩
    | Except.ok asset =>
    match getOwner E st [sellerId] with
    | Except.error e => ⟨some e, st⟩
    | Except.ok seller =>
    match getOwner E st [buyerId] with
    | Except.error e => ⟨some e, st⟩
    | Except.ok buyer =>
    let approvalRequired :=
      if asset.Triggers.Approval = true ∧ quantity > asset.Triggers.ApprovalQty then "TRUE"
      else arg5
    match tradingRequirements fn asset seller buyer sellerId quantity price forAmount with
    | some e => ⟨some e, st⟩
    | none =>
    match createTransaction E quantity price [assetId, sellerId, buyerId] with
    | Except.error e => ⟨some e, st⟩
    | Except.ok transaction =>
    match getDataArrayStrings E st PRIMARYKEY2 [] with
    | Except.error e => ⟨some e, st⟩
    | Except.ok transactionsLedger =>
    match apiFixing E asset transaction price with
    | Except.error e => ⟨some e, st⟩
    | Except.ok transaction =>
    settleTrade E st asset seller buyer transaction transactionsLedger
      assetId sellerId buyerId quantity forAmount approvalRequired
  | _ => ⟨some (Err.incorrectArgs fn), st⟩

/-- Go `(dcc) approveTransaction`. -/
def approveTransaction (E : Env) (st : Store) (fn : String) (args : List String) : Result :=
  match args with
  | [transactionId] =>
    match getTransaction E st [transactionId] with
    | Except.error e => ⟨some e, st⟩
    | Except.ok transaction =>
    match transaction.approve E st with
    | ⟨some e, _, st⟩ => ⟨some e, st⟩
    | ⟨none, transaction, st⟩ =>
    let st := transaction.save st
    let st := transaction.removeFromPendingLedger E st
    ⟨none, st⟩
  | _ => ⟨some (Err.incorrectArgs fn), st⟩

/-- Go `(dcc) declineTransaction`. -/
def declineTransaction (E : Env) (st : Store) (fn : String) (args : List String) : Result :=
  match args with
  | [transactionId] =>
    match getTransaction E st [transactionId] with
    | Except.error e => ⟨some e, st⟩
    | Except.ok transaction =>
    match transaction.rollback E st with
    | ⟨some e, _, st⟩ => ⟨some e, st⟩
    | ⟨none, transaction, st⟩ =>
    let st := transaction.save st
    let st := transaction.removeFromPendingLedger E st
    ⟨none, st⟩
  | _ => ⟨some (Err.incorrectArgs fn), st⟩

/-! ## Creation of owners and assets (`owner.go`, `asset.go`) -/

/-- Go `(dcc) createOwner`. -/
def createOwner (E : Env) (args : List String) : Except Err Owner :=
  match args with
  | [arg0, arg1, arg2, arg3, arg4, arg5] =>
    match E.ParseFloat arg2 with
    | none => Except.error Err.strconv
    | some balance =>
      Except.ok
        { OwnerId := arg0
          Name := arg1
          Information := { Description := arg3, Logo := arg4, Background := "" }
          Tag := arg5
          Balance := balance
          EscrowBalance := 0
          Assets := []
          Issued := []
          Validated := false
          Transactions := [] }
  | _ => Except.error (Err.incorrectArgs "createOwner")

/-- Go `(dcc) addOwner`. -/
def addOwner (E : Env) (st : Store) (fn : String) (args : List String) : Result :=
  match args with
  | [ownerId, arg1, arg2, arg3, arg4, arg5] =>
    match getDataArrayStrings E st PRIMARYKEY0 [] with
    | Except.error e => ⟨some e, st⟩
    | Except.ok ownersLedger =>
    let ownerExists := IsElementInSlice ownersLedger ownerId
    if ownerExists = false then
      match createOwner E [ownerId, arg1, arg2, arg3, arg4, arg5] with
      | Except.error e => ⟨some e, st⟩
      | Except.ok newOwner =>
      let st := newOwner.save st
      let st := saveStringToDataArray st PRIMARYKEY0 ownerId ownersLedger
      ⟨none, st⟩
    else ⟨some (Err.alreadyExists ownerId), st⟩
  | _ => ⟨some (Err.incorrectArgs fn), st⟩

/-- Go `(dcc) assignAssetToOwner`. -/
def assignAssetToOwner (st : Store) (assetId : String) (owner : Owner) (isIssuer : Bool) :
    Result :=
  let owner := { owner with Assets := owner.Assets ++ [assetId] }
  let owner := if isIssuer then { owner with Issued := owner.Issued ++ [assetId] } else owner
  ⟨none, owner.save st⟩

/-- Go `(dcc) createAsset`. -/
def createAsset (E : Env) (args : List String) : Except Err Asset :=
  match args with
  | [arg0, arg1, arg2, arg3, arg4, arg5, arg6, arg7, arg8, arg9] =>
    match E.Atoi arg3 with
    | none => Except.error Err.strconv
    | some quantity =>
    match E.ParseFloat arg4 with
    | none => Except.error Err.strconv
    | some price =>
    match E.ParseBool arg7 with
    | none => Except.error Err.strconv
    | some approval =>
    match E.Atoi arg8 with
    | none => Except.error Err.strconv
    | some approvalQty =>
      let timestamp := E.Now
      Except.ok
        { Id := arg0
          Name := arg1
          Information := { Description := arg5, Logo := arg6 }
          Tag := arg9
          Quantity := quantity
          Price := price
          Issuer := arg2
          IssuedTS := timestamp
          IssuedQty := quantity
          Owners := [arg2]
          OwnedBy := fun k =>
            if k = arg2 then some { OwnerId := arg2, Quantity := quantity, EscrowQty := 0 }
            else none
          Triggers := { Approval := approval, ApprovalQty := approvalQty }
          Contract := { URL := "", Keys := [], Condition := "", Value := "", Discount := 0 } }
  | _ => Except.error (Err.incorrectArgs "createAsset")

/-- Go `(dcc) addAssetString`. -/
def addAssetString (E : Env) (st : Store) (fn : String) (args : List String) : Result :=
  match args with
  | [assetId, arg1, issuerId, arg3, arg4, arg5, arg6, arg7, arg8, arg9] =>
    match getOwner E st [issuerId] with
    | Except.error e => ⟨some e, st⟩
    | Except.ok issuer =>
    if issuer.Validated = false then ⟨some (Err.notValidated issuerId fn), st⟩ else
    match getDataArrayStrings E st PRIMARYKEY1 [] with
    | Except.error e => ⟨some e, st⟩
    | Except.ok assetsLedger =>
    let assetExists := IsElementInSlice assetsLedger assetId
    if assetExists = false then
      match createAsset E [assetId, arg1, issuerId, arg3, arg4, arg5, arg6, arg7, arg8, arg9] with
      | Except.error e => ⟨some e, st⟩
      | Except.ok newAsset =>
      let st := newAsset.save st
      let st := saveStringToDataArray st PRIMARYKEY1 assetId assetsLedger
      assignAssetToOwner st assetId issuer true
    else ⟨some (Err.alreadyExists assetId), st⟩
  | _ => ⟨some (Err.incorrectArgs fn), st⟩

/-! ## Validation status and read-all operations (`owner.go`, `asset.go`, `transaction.go`) -/

/-- Go `(dcc) changeOwnerValidationStatus`. -/
def changeOwnerValidationStatus (E : Env) (st : Store) (fn : String) (args : List String) :
    Result :=
  match args with
  | [ownerId] =>
    match getOwner E st [ownerId] with
    | Except.error e => ⟨some e, st⟩
    | Except.ok owner =>
      let owner := owner.toggleValidation
      ⟨none, owner.save st⟩
  | _ => ⟨some (Err.incorrectArgs fn), st⟩

/-- The `for` loop of Go `readAllOwners`, `readAllAssets` and
`readAllTransactions`, which differ in the getter only: each id of the registry
is loaded and appended to the output slice; the first getter error is
returned. -/
def readAllLoop {α : Type} (get : List String → Except Err α) :
    List String → List α → Except Err (List α)
  | [], full => Except.ok full
  | id :: rest, full =>
    match get [id] with
    | Except.error e => Except.error e
    | Except.ok entity => readAllLoop get rest (full ++ [entity])

/-- Go `(dcc) readAllOwners`.  The returned bytes are `none` for nil and
`some l` for the marshalled slice `l`. -/
def readAllOwners (E : Env) (st : Store) (fn : String) (args : List String) :
    Except Err (Option (List Owner)) :=
  match args with
  | [] =>
    match getDataArrayStrings E st PRIMARYKEY0 [] with
    | Except.error e => Except.error e
    | Except.ok ownersLedger =>
      if ownersLedger.length > 0 then
        match readAllLoop (getOwner E st) ownersLedger [] with
        | Except.error e => Except.error e
        | Except.ok fullOwnersLedger => Except.ok (some fullOwnersLedger)
      else Except.ok none
  | _ => Except.error (Err.incorrectArgs fn)

/-- Go `(dcc) readAllAssets`.  The returned bytes are `none` for nil and
`some l` for the marshalled slice `l`. -/
def readAllAssets (E : Env) (st : Store) (fn : String) (args : List String) :
    Except Err (Option (List Asset)) :=
  match args with
  | [] =>
    match getDataArrayStrings E st PRIMARYKEY1 [] with
    | Except.error e => Except.error e
    | Except.ok assetsLedger =>
      if assetsLedger.length > 0 then
        match readAllLoop (getAsset E st) assetsLedger [] with
        | Except.error e => Except.error e
        | Except.ok fullAssetsLedger => Except.ok (some fullAssetsLedger)
      else Except.ok none
  | _ => Except.error (Err.incorrectArgs fn)

/-- Go `(dcc) readAllTransactions`.  The returned bytes are `none` for nil and
`some l` for the marshalled slice `l`. -/
def readAllTransactions (E : Env) (st : Store) (fn : String) (args : List String) :
    Except Err (Option (List Transaction)) :=
  match args with
  | [] =>
    match getDataArrayStrings E st PRIMARYKEY2 [] with
    | Except.error e => Except.error e
    | Except.ok transactionsLedger =>
      if transactionsLedger.length > 0 then
        match readAllLoop (getTransaction E st) transactionsLedger [] with
        | Except.error e => Except.error e
        | Except.ok fullTransactionsLedger => Except.ok (some fullTransactionsLedger)
      else Except.ok none
  | _ => Except.error (Err.incorrectArgs fn)

/-! ## The trade and approval paths in 64-bit integer arithmetic

The asset methods, `transactAsset` and `approveTransaction` once more, with every
sum and difference of quantities reduced to the value a 64-bit Go `int` holds.
The checks, the errors, the owner documents, the transaction documents and the
registries are those of the definitions above; the asset methods agree with the
ones above when no sum or difference leaves the 64-bit range
(`Asset.addOwner64_of_fits` and the like). -/

/-- The value a 64-bit Go `int` holds for the sum or difference `x`: `x` reduced
modulo `2^64` into the range from `-2^63` to `2^63 - 1`. -/
def int64 (x : Int) : Int :=
  (x + 9223372036854775808) % 18446744073709551616 - 9223372036854775808

/-- Go `(a *Asset) addOwner`, the sum as the machine holds it. -/
def Asset.addOwner64 (a : Asset) (ownerId : String) (quantity : Int) : Asset :=
  if IsElementInSlice a.Owners ownerId then
    let ownedBy := a.ownedBy ownerId
    a.setOwnedBy ownerId { ownedBy with Quantity := int64 (ownedBy.Quantity + quantity) }
  else
    ({ a with Owners := a.Owners ++ [ownerId] }).setOwnedBy ownerId ⟨ownerId, quantity, 0⟩

/-- Go `(a *Asset) subtractOwner`, the difference as the machine holds it. -/
def Asset.subtractOwner64 (a : Asset) (ownerId : String) (quantity : Int) (isPending : Bool) :
    Asset :=
  let ownedBy := a.ownedBy ownerId
  if isPending then
    a.setOwnedBy ownerId { ownedBy with EscrowQty := int64 (ownedBy.EscrowQty - quantity) }
  else
    a.setOwnedBy ownerId { ownedBy with Quantity := int64 (ownedBy.Quantity - quantity) }

/-- Go `(a *Asset) removeOwner`, over `subtractOwner64`. -/
def Asset.removeOwner64 (a : Asset) (ownerId : String) (quantity : Int) (isPending : Bool) :
    Asset :=
  let ownedBy := a.ownedBy ownerId
  if isPending then
    if ownedBy.Quantity = 0 ∧ ownedBy.EscrowQty = quantity then
      a.deleteOwner ownerId
    else
      a.subtractOwner64 ownerId quantity isPending
  else
    if ownedBy.Quantity = quantity ∧ ownedBy.EscrowQty = 0 then
      a.deleteOwner ownerId
    else
      a.subtractOwner64 ownerId quantity isPending

/-- Go `(a *Asset) escrowOwner`, the difference and the sum as the machine holds
them. -/
def Asset.escrowOwner64 (a : Asset) (ownerId : String) (quantity : Int) : Asset :=
  let ownedBy := a.ownedBy ownerId
  a.setOwnedBy ownerId
    { ownedBy with
      Quantity := int64 (ownedBy.Quantity - quantity)
      EscrowQty := int64 (ownedBy.EscrowQty + quantity) }

/-- The mutation part of Go `transactAsset`, the quantities as the machine holds
them. -/
def settleTrade64 (E : Env) (st : Store) (asset : Asset) (seller buyer : Owner)
    (transaction : Transaction) (transactionsLedger : List String)
    (assetId sellerId buyerId : String) (quantity : Int) (forAmount : ℚ)
    (approvalRequired : String) : Result :=
  let buyer := { buyer with Balance := E.subFloat buyer.Balance forAmount }
  let buyer := buyer.addTransaction transaction.Id
  let seller := seller.addTransaction transaction.Id
  let asset :=
    if sellerId = asset.Issuer then { asset with Quantity := int64 (asset.Quantity - quantity) }
    else asset
  if approvalRequired = "TRUE" then
    let buyer := { buyer with EscrowBalance := E.addFloat buyer.EscrowBalance forAmount }
    let asset := asset.escrowOwner64 sellerId quantity
    match getDataArrayStrings E st PRIMARYKEY3 [] with
    | Except.error e => ⟨some e, st⟩
    | Except.ok pendingTransactionsLedger =>
    let st := saveStringToDataArray st PRIMARYKEY3 transaction.Id pendingTransactionsLedger
    let transaction := { transaction with Status := "Pending" }
    persistTrade st buyer seller asset transaction transactionsLedger
  else
    let seller := seller.removeAsset asset quantity
    let seller := { seller with Balance := E.addFloat seller.Balance forAmount }
    let buyer := buyer.addAsset assetId
    let asset := asset.addOwner64 buyerId quantity
    let asset := asset.removeOwner64 sellerId quantity false
    let transaction := { transaction with Status := "Validated" }
    persistTrade st buyer seller asset transaction transactionsLedger

/-- Go `(dcc) transactAsset`, over `settleTrade64`. -/
def transactAsset64 (E : Env) (st : Store) (fn : String) (args : List String) : Result :=
  match args with
  | [assetId, sellerId, buyerId, arg3, arg4, arg5] =>
    match E.Atoi arg3 with
    | none => ⟨some Err.strconv, st⟩
    | some quantity =>
    match E.ParseFloat arg4 with
    | none => ⟨some Err.strconv, st⟩
    | some price =>
    let forAmount := E.mulFloat price (E.floatOfInt quantity)
    match getAsset E st [assetId] with
    | Except.error e => ⟨some e, st⟩
    | Except.ok asset =>
    match getOwner E st [sellerId] with
    | Except.error e => ⟨some e, st⟩
    | Except.ok seller =>
    match getOwner E st [buyerId] with
    | Except.error e => ⟨some e, st⟩
    | Except.ok buyer =>
    let approvalRequired :=
      if asset.Triggers.Approval = true ∧ quantity > asset.Triggers.ApprovalQty then "TRUE"
      else arg5
    match tradingRequirements fn asset seller buyer sellerId quantity price forAmount with
    | some e => ⟨some e, st⟩
    | none =>
    match createTransaction E quantity price [assetId, sellerId, buyerId] with
    | Except.error e => ⟨some e, st⟩
    | Except.ok transaction =>
    match getDataArrayStrings E st PRIMARYKEY2 [] with
    | Except.error e => ⟨some e, st⟩
    | Except.ok transactionsLedger =>
    match apiFixing E asset transaction price with
    | Except.error e => ⟨some e, st⟩
    | Except.ok transaction =>
    settleTrade64 E st asset seller buyer transaction transactionsLedger
      assetId sellerId buyerId quantity forAmount approvalRequired
  | _ => ⟨some (Err.incorrectArgs fn), st⟩

/-- The value of a decimal digit. -/
def digitValue (c : Char) : Option Nat :=
  if '0' ≤ c ∧ c ≤ '9' then some (c.toNat - '0'.toNat) else none

/-- Reads a non-empty run of decimal digits, most significant first. -/
def readDigits : List Char → Option Nat
  | [] => none
  | c :: cs =>
    (c :: cs).foldl
      (fun acc d => match acc, digitValue d with
        | some n, some v => some (10 * n + v)
        | _, _ => none)
      (some 0)

/-- A decimal integer reader with an optional sign: the part of `strconv.Atoi`
the scenarios use. -/
def readInt (s : String) : Option Int :=
  match s.data with
  | '-' :: cs => (readDigits cs).map (fun n => - (n : Int))
  | '+' :: cs => (readDigits cs).map (fun n => (n : Int))
  | cs => (readDigits cs).map (fun n => (n : Int))

/-- Splits a character list at the first dot. -/
def splitDot : List Char → List Char × Option (List Char)
  | [] => ([], none)
  | c :: cs =>
    if c = '.' then ([], some cs)
    else
      let r := splitDot cs
      (c :: r.1, r.2)

/-- A plain decimal reader (`12`, `12.5`, `-0.25`): the part of
`strconv.ParseFloat` the scenarios use. -/
def readDecimal (s : String) : Option ℚ :=
  let body := match s.data with
    | '-' :: cs => (true, cs)
    | cs => (false, cs)
  let parts := splitDot body.2
  let magnitude : Option ℚ :=
    match readDigits parts.1, parts.2 with
    | some n, none => some (n : ℚ)
    | some n, some frac =>
      (readDigits frac).map (fun f => (n : ℚ) + (f : ℚ) / (10 : ℚ) ^ frac.length)
    | none, _ => none
  magnitude.map (fun m => if body.1 then - m else m)

/-- A concrete environment: decimal readers for the parsers, decoders that
accept exactly the documents of their own shape, a tagging function in the
place of the hash, and unrounded arithmetic, which gives the amounts `float64`
arithmetic gives in the scenarios (whole numbers of a few digits). -/
def scenarioEnv (now : Int) : Env where
  Atoi := readInt
  ParseFloat := readDecimal
  ParseBool := fun s =>
    if s = "true" ∨ s = "TRUE" ∨ s = "True" ∨ s = "1" ∨ s = "t" ∨ s = "T" then some true
    else if s = "false" ∨ s = "FALSE" ∨ s = "False" ∨ s = "0" ∨ s = "f" ∨ s = "F" then some false
    else none
  Itoa := fun n => toString n
  FormatFloat := fun x => toString x.floor
  Now := now
  HashSHA256 := fun s => "#" ++ s
  GetJSONFromURL := fun _ => none
  mulFloat := fun a b => a * b
  addFloat := fun a b => a + b
  subFloat := fun a b => a - b
  divFloat := fun a b => a / b
  floatOfInt := fun n => (n : ℚ)
  unmarshalOwner := fun d => match d with
    | Doc.owner o => some o
    | _ => none
  unmarshalAsset := fun d => match d with
    | Doc.asset a => some a
    | _ => none
  unmarshalTransaction := fun d => match d with
    | Doc.transaction t => some t
    | _ => none
  unmarshalStrings := fun d => match d with
    | Doc.strings l => some l
    | _ => none
  owner_roundtrip := fun _ => rfl
  asset_roundtrip := fun _ => rfl
  transaction_roundtrip := fun _ => rfl
  strings_roundtrip := fun _ => rfl
  mulFloat_one := fun _ x _ => mul_one x
  subFloat_one_zero := sub_zero 1
  zero_divFloat := zero_div 100
  subFloat_nonneg := fun _ _ h => sub_nonneg.mpr h

/-- The issuer `ACME` of the scenarios: validated, holding and having issued
`GOLD`. -/
def acme : Owner :=
  { OwnerId := "ACME", Name := "Acme", Information := ⟨"", "", ""⟩, Balance := 0,
    Validated := true, Tag := "", EscrowBalance := 0, Assets := ["GOLD"], Issued := ["GOLD"],
    Transactions := [] }

/-- The buyer `BOB` of the scenarios: validated, balance 500. -/
def bob : Owner :=
  { OwnerId := "BOB", Name := "Bob", Information := ⟨"", "", ""⟩, Balance := 500,
    Validated := true, Tag := "", EscrowBalance := 0, Assets := [], Issued := [],
    Transactions := [] }

/-- The asset `GOLD` of the scenarios as `createAsset` builds it: issuer `ACME`,
issued quantity 100, price 10.0, empty contract. -/
def gold (triggers : Trigger) : Asset :=
  { Id := "GOLD", Name := "Gold", Information := ⟨"", ""⟩, Tag := "", Quantity := 100,
    Price := 10, Issuer := "ACME", IssuedTS := 0, IssuedQty := 100, Owners := ["ACME"],
    OwnedBy := fun k => if k = "ACME" then some ⟨"ACME", 100, 0⟩ else none,
    Triggers := triggers, Contract := ⟨"", [], "", "", 0⟩ }

/-- The ledger of the scenarios: the four registries, `ACME`, `BOB` and
`GOLD`. -/
def scenarioStore (triggers : Trigger) : Store := fun k =>
  if k = "Owners" then some (Doc.strings ["ACME", "BOB"])
  else if k = "Assets" then some (Doc.strings ["GOLD"])
  else if k = "Transactions" then some (Doc.strings [])
  else if k = "PendingTransactions" then some (Doc.strings [])
  else if k = "ACME" then some (Doc.owner acme)
  else if k = "BOB" then some (Doc.owner bob)
  else if k = "GOLD" then some (Doc.asset (gold triggers))
  else none

/-- The id of the scenario trade made at time 0. -/
def scenarioTxId : String := "#GOLD-ACME-BOB-0"

/-- Scenario A: no approval trigger. -/
def storeA : Store := scenarioStore ⟨false, 0⟩

/-- Scenario B: approval required above 5 units. -/
def storeB : Store := scenarioStore ⟨true, 5⟩

/-- The trade of the scenarios: 10 units of `GOLD` from `ACME` to `BOB` at
10.0, override unset. -/
def scenarioArgs : List String := ["GOLD", "ACME", "BOB", "10", "10.0", "FALSE"]

/-- Scenario A after the trade. -/
def storeATraded : Store :=
  (transactAsset (scenarioEnv 0) storeA "transactAsset" scenarioArgs).store

/-- Scenario B after the trade: the transaction is pending. -/
def storeBPending : Store :=
  (transactAsset (scenarioEnv 0) storeB "transactAsset" scenarioArgs).store

/-- Scenario B continued: the pending transaction approved. -/
def storeBApproved : Store :=
  (approveTransaction (scenarioEnv 0) storeBPending "approveTransaction" [scenarioTxId]).store

/-- Scenario C: the pending transaction declined. -/
def storeCDeclined : Store :=
  (declineTransaction (scenarioEnv 0) storeBPending "declineTransaction" [scenarioTxId]).store

/-- The transaction document of the scenario trade, with the given status. -/
def scenarioTx (status : String) : Transaction :=
  { Id := scenarioTxId, AssetId := "GOLD", SellerId := "ACME", BuyerId := "BOB", Quantity := 10,
    Price := 10, Discount := 0, Created := 0, Status := status, APIFixing := "" }

/-- The digits of `strconv.FormatFloat(_, 'f', 6, 64)` for the scenarios: the
value rounded to six decimals, integer part, dot, six digits. -/
def formatFixed6 (x : ℚ) : String :=
  let n : Nat := ((|x| * 1000000 + 1 / 2).floor).toNat
  let intDigits := Nat.toDigits 10 (n / 1000000)
  let fracDigits := Nat.toDigits 10 (n % 1000000)
  let padded := List.replicate (6 - fracDigits.length) '0' ++ fracDigits
  String.mk ((if x < 0 then ['-'] else []) ++ intDigits ++ ['.'] ++ padded)

/-- The environment of the contract scenario: as `scenarioEnv 0`, with the
endpoint `http://fixing` answering the JSON object with member `rate` equal to
1.5. -/
def contractEnv : Env :=
  { scenarioEnv 0 with
    FormatFloat := formatFixed6
    GetJSONFromURL := fun url =>
      if url = "http://fixing" then some (JSON.obj [("rate", JSON.num (3 / 2))]) else none }

/-- The asset `GOLD` with a contract: 10 percent discount when the fixing `rate`
is less than 2.0. -/
def goldContract : Asset :=
  { gold ⟨false, 0⟩ with
    Contract :=
      { URL := "http://fixing", Keys := ["rate"], Condition := "less", Value := "2.0",
        Discount := 10 } }

/-- The ledger of Scenario A with the contract on `GOLD`. -/
def storeContract : Store := fun k =>
  if k = "GOLD" then some (Doc.asset goldContract) else storeA k

/-- The contract scenario after the trade of 10 units at 10.0. -/
def storeContractTraded : Store :=
  (transactAsset contractEnv storeContract "transactAsset" scenarioArgs).store

/-- Scenario A after `addOwner` has registered `CAROL` with balance 50. -/
def storeCarol : Store :=
  (addOwner (scenarioEnv 0) storeA "addOwner" ["CAROL", "Carol", "50", "", "", ""]).store

/-- The owner `CAROL` as `createOwner` builds it. -/
def carol : Owner :=
  { OwnerId := "CAROL", Name := "Carol", Information := ⟨"", "", ""⟩, Balance := 50,
    Validated := false, Tag := "", EscrowBalance := 0, Assets := [], Issued := [],
    Transactions := [] }

/-- Scenario A with a buyer who can pay for the whole issue: `BOB` has balance
5000. -/
def storeRich : Store := fun k =>
  if k = "BOB" then some (Doc.owner { bob with Balance := 5000 }) else storeA k

/-- The trade of 10 units with the approval override set. -/
def escrowArgs : List String := ["GOLD", "ACME", "BOB", "10", "10.0", "TRUE"]

/-- The trade of the 90 units `ACME` still holds live after escrowing 10. -/
def remainderArgs : List String := ["GOLD", "ACME", "BOB", "90", "10.0", "FALSE"]

/-- The rich-buyer scenario after the escrowed trade of 10 units at time 0:
`ACME` holds 90 live and 10 in escrow. -/
def storeRichPending : Store :=
  (transactAsset (scenarioEnv 0) storeRich "transactAsset" escrowArgs).store

/-- The rich-buyer scenario after the direct trade, at time 1, of the 90 live
units. -/
def storeRichSold : Store :=
  (transactAsset (scenarioEnv 1) storeRichPending "transactAsset" remainderArgs).store

/-- The self-trade of the scenarios: `BOB`, holding 10 units of `GOLD` after
the trade of Scenario A, sells 5 of them to `BOB`. -/
def selfArgs : List String := ["GOLD", "BOB", "BOB", "5", "10.0", "FALSE"]

/-- Scenario A after the trade and then the self-trade at time 1. -/
def storeSelfTraded : Store :=
  (transactAsset (scenarioEnv 1) storeATraded "transactAsset" selfArgs).store

/-- The pending state of Scenario B in a ledger that has no document under
`GOLD`. -/
def storeNoAsset : Store := fun k => if k = "GOLD" then none else storeBPending k

/-- An asset whose id is the id of the existing owner `BOB`, issued by
`ACME`. -/
def clashArgs : List String :=
  ["BOB", "Bobcoin", "ACME", "50", "1.0", "", "", "false", "0", ""]

/-- An asset whose id is the id of its issuer `ACME`. -/
def issuerClashArgs : List String :=
  ["ACME", "Acmecoin", "ACME", "50", "1.0", "", "", "false", "0", ""]

/-- An owner whose id is the id of the existing asset `GOLD`. -/
def ownerClashArgs : List String := ["GOLD", "Goldman", "50", "", "", ""]

/-- The asset `GOLD` of Scenario A when `BOB` already holds 9223372036854775807
units of it, the largest value of a 64-bit `int`. -/
def goldFull : Asset :=
  { gold ⟨false, 0⟩ with
    Owners := ["ACME", "BOB"]
    OwnedBy := fun k =>
      if k = "ACME" then some ⟨"ACME", 100, 0⟩
      else if k = "BOB" then some ⟨"BOB", 9223372036854775807, 0⟩
      else none }

/-- The ledger of Scenario A with `goldFull` under `GOLD`. -/
def storeFull : Store := fun k =>
  if k = "GOLD" then some (Doc.asset goldFull) else storeA k

/-- The trade of one unit of `GOLD` from `ACME` to `BOB` at 10.0. -/
def oneUnitArgs : List String := ["GOLD", "ACME", "BOB", "1", "10.0", "FALSE"]

/-! ## The documents a trade holds in memory when it saves

Names for the values the locals `buyer`, `seller` and `asset` of Go
`transactAsset` hold when the save block is reached; `settleTrade_direct` and
`settleTrade_escrow` below show that `settleTrade` saves exactly these. -/

/-- The local `asset` after the unconditional update of the unsold supply. -/
def tradedAsset (asset : Asset) (sellerId : String) (quantity : Int) : Asset :=
  if sellerId = asset.Issuer then { asset with Quantity := asset.Quantity - quantity } else asset

/-- The local `buyer` at the save block of the direct path. -/
def directBuyer (E : Env) (buyer : Owner) (transactionId assetId : String) (forAmount : ℚ) :
    Owner :=
  (({ buyer with Balance := E.subFloat buyer.Balance forAmount }).addTransaction
    transactionId).addAsset assetId

/-- The local `seller` at the save block of the direct path. -/
def directSeller (E : Env) (seller : Owner) (asset : Asset) (transactionId sellerId : String)
    (quantity : Int) (forAmount : ℚ) : Owner :=
  let seller := (seller.addTransaction transactionId).removeAsset
    (tradedAsset asset sellerId quantity) quantity
  { seller with Balance := E.addFloat seller.Balance forAmount }

/-- The local `asset` at the save block of the direct path. -/
def directAsset (asset : Asset) (sellerId buyerId : String) (quantity : Int) : Asset :=
  ((tradedAsset asset sellerId quantity).addOwner buyerId quantity).removeOwner sellerId
    quantity false

/-- The local `buyer` at the save block of the escrow path. -/
def escrowBuyer (E : Env) (buyer : Owner) (transactionId : String) (forAmount : ℚ) : Owner :=
  let buyer :=
    ({ buyer with Balance := E.subFloat buyer.Balance forAmount }).addTransaction transactionId
  { buyer with EscrowBalance := E.addFloat buyer.EscrowBalance forAmount }

/-- The local `asset` at the save block of the escrow path. -/
def escrowAsset (asset : Asset) (sellerId : String) (quantity : Int) : Asset :=
  (tradedAsset asset sellerId quantity).escrowOwner sellerId quantity

/-- The local `asset` after the unconditional update of the unsold supply, in
64-bit arithmetic. -/
def tradedAsset64 (asset : Asset) (sellerId : String) (quantity : Int) : Asset :=
  if sellerId = asset.Issuer then { asset with Quantity := int64 (asset.Quantity - quantity) }
  else asset

/-- The local `asset` at the save block of the direct path, in 64-bit
arithmetic. -/
def directAsset64 (asset : Asset) (sellerId buyerId : String) (quantity : Int) : Asset :=
  ((tradedAsset64 asset sellerId quantity).addOwner64 buyerId quantity).removeOwner64 sellerId
    quantity false

/-- The local `asset` at the save block of the escrow path, in 64-bit
arithmetic. -/
def escrowAsset64 (asset : Asset) (sellerId : String) (quantity : Int) : Asset :=
  (tradedAsset64 asset sellerId quantity).escrowOwner64 sellerId quantity

/-- The asset `approve64` saves. -/
def approvedAsset64 (asset : Asset) (sellerId buyerId : String) (quantity : Int) : Asset :=
  (asset.addOwner64 buyerId quantity).removeOwner64 sellerId quantity true

/-! ## Statements of the specification, in its own words -/

/-- The rejection conditions of a trade request as the specification lists
them: a wrong argument count, a quantity or price that does not parse, an
entity that cannot be loaded, or a failing business check (seller validated,
buyer validated, seller id in `asset.Owners` and asset id in `seller.Assets`,
`buyer.Balance >= price*quantity` with the product as `float64` arithmetic
gives it, seller's live quantity `>= quantity`, `price == asset.Price`). -/
def TradeRejected (E : Env) (st : Store) (args : List String) : Prop :=
  args.length ≠ 6 ∨
  ∃ assetId sellerId buyerId arg3 arg4 arg5,
    args = [assetId, sellerId, buyerId, arg3, arg4, arg5] ∧
    (E.Atoi arg3 = none ∨ E.ParseFloat arg4 = none ∨
      (∃ e, getAsset E st [assetId] = Except.error e) ∨
      (∃ e, getOwner E st [sellerId] = Except.error e) ∨
      (∃ e, getOwner E st [buyerId] = Except.error e) ∨
      ∃ quantity price asset seller buyer,
        E.Atoi arg3 = some quantity ∧ E.ParseFloat arg4 = some price ∧
        getAsset E st [assetId] = Except.ok asset ∧
        getOwner E st [sellerId] = Except.ok seller ∧
        getOwner E st [buyerId] = Except.ok buyer ∧
        (seller.Validated = false ∨ buyer.Validated = false ∨
          ¬ (sellerId ∈ asset.Owners ∧ asset.Id ∈ seller.Assets) ∨
          buyer.Balance < E.mulFloat price (E.floatOfInt quantity) ∨
          (asset.ownedBy sellerId).Quantity < quantity ∨
          price ≠ asset.Price))

/-- What a holder holds of an asset: live plus escrowed quantity, 0 when the
holder has no record. -/
def Asset.held (a : Asset) (k : String) : Int :=
  (a.ownedBy k).Quantity + (a.ownedBy k).EscrowQty

/-- The statement "the sum over all holders of `Quantity + EscrowQty` is `s`":
the holders are the keys of `OwnedBy`. -/
def HoldersSum (a : Asset) (s : Int) : Prop :=
  ∃ keys : Finset String,
    (∀ k, k ∈ keys ↔ (a.OwnedBy k).isSome = true) ∧ keys.sum (fun k => a.held k) = s

/-- The statement "the `Owners` list and the key set of `OwnedBy` coincide". -/
def Asset.OwnersMatch (a : Asset) : Prop :=
  ∀ k, k ∈ a.Owners ↔ (a.OwnedBy k).isSome = true

/-- A settlement call on a transaction id, as `Invoke` dispatches it. -/
inductive SettleCall where
  | approve
  | decline
  deriving DecidableEq, Repr

/-- One settlement call on `txId`. -/
def runSettleCall (E : Env) (st : Store) (txId : String) : SettleCall → Result
  | SettleCall.approve => approveTransaction E st "approveTransaction" [txId]
  | SettleCall.decline => declineTransaction E st "declineTransaction" [txId]

/-- A sequence of settlement calls on `txId`, each on the store the previous one
left: the errors returned, in order, and the final store. -/
def runSettleCalls (E : Env) (txId : String) : Store → List SettleCall → List (Option Err) × Store
  | st, [] => ([], st)
  | st, c :: cs =>
    ((runSettleCall E st txId c).err :: (runSettleCalls E txId (runSettleCall E st txId c).store cs).1,
      (runSettleCalls E txId (runSettleCall E st txId c).store cs).2)

/-- The statement "the fixing satisfies the contract condition": the tag is
`less` and `fix < val`, or `more` and `fix > val`, or `equal` and `fix = val`. -/
def ConditionMet (condition : String) (fix val : ℚ) : Prop :=
  (condition = "less" ∧ fix < val) ∨ (condition = "more" ∧ fix > val) ∨
    (condition = "equal" ∧ fix = val)

/-- The statement "the holder has just sold its entire quantity": pending with
nothing live and the escrow equal to `qty`, or not pending with the live
quantity equal to `qty` and nothing in escrow. -/
def Asset.SoldOut (a : Asset) (ownerId : String) (qty : Int) (isPending : Bool) : Prop :=
  (isPending = true ∧ (a.ownedBy ownerId).Quantity = 0 ∧ (a.ownedBy ownerId).EscrowQty = qty) ∨
    (isPending = false ∧ (a.ownedBy ownerId).Quantity = qty ∧ (a.ownedBy ownerId).EscrowQty = 0)

/-- The statement "amounts are taken as exact numbers": the sum and the
difference of two amounts are the unrounded ones. -/
def Env.ExactAmounts (E : Env) : Prop :=
  (∀ a b, E.addFloat a b = a + b) ∧ (∀ a b, E.subFloat a b = a - b)

/-- The statement "`x` is a value of a 64-bit Go `int`". -/
def InInt64 (x : Int) : Prop :=
  -9223372036854775808 ≤ x ∧ x ≤ 9223372036854775807

/-- The statement "the holder records are values of a 64-bit `int`". -/
def Asset.Int64Records (a : Asset) : Prop :=
  ∀ k r, a.OwnedBy k = some r → InInt64 r.Quantity ∧ InInt64 r.EscrowQty

/-- The statement "the holder records are all non-negative". -/
def Asset.NonNegative (a : Asset) : Prop :=
  ∀ k r, a.OwnedBy k = some r → 0 ≤ r.Quantity ∧ 0 ≤ r.EscrowQty

/-! ## Basic facts about the store and the getters -/

theorem PutState_same (st : Store) (key : String) (d : Doc) : PutState st key d key = some d := by
  simp [PutState]

theorem PutState_other (st : Store) (key : String) (d : Doc) (k : String) (h : k ≠ key) :
    PutState st key d k = st k := by
  simp [PutState, h]

theorem getOwner_of_doc (E : Env) (st : Store) (id : String) (o : Owner)
    (h : st id = some (Doc.owner o)) : getOwner E st [id] = Except.ok o := by
  simp [getOwner, h, E.owner_roundtrip]

theorem getAsset_of_doc (E : Env) (st : Store) (id : String) (a : Asset)
    (h : st id = some (Doc.asset a)) : getAsset E st [id] = Except.ok a := by
  simp [getAsset, h, E.asset_roundtrip]

theorem getTransaction_of_doc (E : Env) (st : Store) (id : String) (t : Transaction)
    (h : st id = some (Doc.transaction t)) : getTransaction E st [id] = Except.ok t := by
  simp [getTransaction, h, E.transaction_roundtrip]

theorem getDataArrayStrings_of_doc (E : Env) (st : Store) (key : String) (l : List String)
    (h : st key = some (Doc.strings l)) : getDataArrayStrings E st key [] = Except.ok l := by
  simp [getDataArrayStrings, h, E.strings_roundtrip]

theorem getDataArrayStrings_ok_ne_none (E : Env) (st : Store) (key : String) (l : List String)
    (h : getDataArrayStrings E st key [] = Except.ok l) : st key ≠ none := by
  intro hn
  simp [getDataArrayStrings, hn] at h

theorem IsElementInSlice_iff (slice : List String) (element : String) :
    IsElementInSlice slice element = true ↔ element ∈ slice := by
  simp [IsElementInSlice]

theorem IsElementInSlice_false_iff (slice : List String) (element : String) :
    IsElementInSlice slice element = false ↔ element ∉ slice := by
  simp [IsElementInSlice]

theorem mem_DeleteElementFromSlice (slice : List String) (element x : String) :
    x ∈ DeleteElementFromSlice slice element ↔ x ∈ slice ∧ x ≠ element := by
  simp [DeleteElementFromSlice]

/-- The requirement block passes exactly when all six checks hold. -/
theorem tradingRequirements_eq_none_iff (fn : String) (asset : Asset) (seller buyer : Owner)
    (sellerId : String) (quantity : Int) (price forAmount : ℚ) :
    tradingRequirements fn asset seller buyer sellerId quantity price forAmount = none ↔
      (seller.Validated = true ∧ buyer.Validated = true ∧ sellerId ∈ asset.Owners ∧
        asset.Id ∈ seller.Assets ∧ forAmount ≤ buyer.Balance ∧
        quantity ≤ (asset.ownedBy sellerId).Quantity ∧ price = asset.Price) := by
  unfold tradingRequirements Owner.isValidated Owner.verifyBalance Asset.verifyHoldings
    Asset.verifyPrice
  by_cases h1 : seller.Validated = true
  · by_cases h2 : buyer.Validated = true
    · by_cases h3 : sellerId ∈ asset.Owners
      · by_cases h4 : asset.Id ∈ seller.Assets
        · by_cases h5 : buyer.Balance < forAmount
          · simp [h1, h2, h3, h4, h5, IsElementInSlice]
          · by_cases h6 : (asset.ownedBy sellerId).Quantity < quantity
            · simp [h1, h2, h3, h4, h5, h6, IsElementInSlice]
            · have h5b : forAmount ≤ buyer.Balance := not_lt.mp h5
              have h6b : quantity ≤ (asset.ownedBy sellerId).Quantity := not_lt.mp h6
              by_cases h7 : asset.Price = price
              · simp [h1, h2, h3, h4, h5, h6, h5b, h6b, h7, IsElementInSlice]
              · have h7b : ¬ price = asset.Price := fun h => h7 h.symm
                simp [h1, h2, h3, h4, h5, h6, h5b, h6b, h7, h7b, IsElementInSlice]
        · simp [h1, h2, h3, h4, IsElementInSlice]
      · simp [h1, h2, h3, IsElementInSlice]
    · simp [h1, h2]
  · simp [h1]

/-! ## Trade execution: rejection -/

/-- In `settleTrade` the only error, a failed read of the pending registry, is
returned before the first write. -/
theorem settleTrade_store_of_err (E : Env) (st : Store) (asset : Asset) (seller buyer : Owner)
    (transaction : Transaction) (transactionsLedger : List String)
    (assetId sellerId buyerId : String) (quantity : Int) (forAmount : ℚ)
    (approvalRequired : String)
    (h : (settleTrade E st asset seller buyer transaction transactionsLedger
      assetId sellerId buyerId quantity forAmount approvalRequired).err ≠ none) :
    (settleTrade E st asset seller buyer transaction transactionsLedger
      assetId sellerId buyerId quantity forAmount approvalRequired).store = st := by
  by_cases hA : approvalRequired = "TRUE"
  · cases hl : getDataArrayStrings E st PRIMARYKEY3 [] with
    | error e => simp [settleTrade, hA, hl]
    | ok l => simp [settleTrade, persistTrade, hA, hl] at h
  · simp [settleTrade, persistTrade, hA] at h

/-- Every error of `transactAsset` is returned before the first write. -/
theorem transactAsset_store_of_err (E : Env) (st : Store) (fn : String) (args : List String)
    (h : (transactAsset E st fn args).err ≠ none) : (transactAsset E st fn args).store = st := by
  unfold transactAsset at h ⊢
  split
  · rename_i assetId sellerId buyerId arg3 arg4 arg5
    cases hq : E.Atoi arg3 with
    | none => rfl
    | some quantity =>
    cases hp : E.ParseFloat arg4 with
    | none => rfl
    | some price =>
    cases ha : getAsset E st [assetId] with
    | error e => rfl
    | ok asset =>
    cases hs : getOwner E st [sellerId] with
    | error e => rfl
    | ok seller =>
    cases hb : getOwner E st [buyerId] with
    | error e => rfl
    | ok buyer =>
    cases hr : tradingRequirements fn asset seller buyer sellerId quantity price
        (E.mulFloat price (E.floatOfInt quantity)) with
    | some e => simp [hr]
    | none =>
    cases hc : createTransaction E quantity price [assetId, sellerId, buyerId] with
    | error e => simp [createTransaction] at hc
    | ok transaction =>
    cases hl : getDataArrayStrings E st PRIMARYKEY2 [] with
    | error e => simp [hr, hc, hl]
    | ok transactionsLedger =>
    cases hf : apiFixing E asset transaction price with
    | error e => simp [hr, hc, hl, hf]
    | ok transaction2 =>
    simp only [hq, hp, ha, hs, hb, hr, hc, hl, hf] at h
    simp only [hr, hc, hl, hf]
    exact settleTrade_store_of_err _ _ _ _ _ _ _ _ _ _ _ _ _ h
  · rfl

/-- The run of `transactAsset` once the arguments parse, the three entities load
and some requirement fails. -/
theorem transactAsset_of_failed_requirement (E : Env) (st : Store) (fn : String)
    (assetId sellerId buyerId arg3 arg4 arg5 : String) (quantity : Int) (price : ℚ)
    (asset : Asset) (seller buyer : Owner) (e : Err)
    (hq : E.Atoi arg3 = some quantity) (hp : E.ParseFloat arg4 = some price)
    (ha : getAsset E st [assetId] = Except.ok asset)
    (hs : getOwner E st [sellerId] = Except.ok seller)
    (hb : getOwner E st [buyerId] = Except.ok buyer)
    (hr : tradingRequirements fn asset seller buyer sellerId quantity price
      (E.mulFloat price (E.floatOfInt quantity)) = some e) :
    transactAsset E st fn [assetId, sellerId, buyerId, arg3, arg4, arg5] = ⟨some e, st⟩ := by
  unfold transactAsset
  simp only [hq, hp, ha, hs, hb, hr]

/-- The run of `transactAsset` once the arguments parse, the three entities
load, the requirements pass, and the registry read and the fixing block
succeed: the call is the settlement. -/
theorem transactAsset_of_passed (E : Env) (st : Store) (fn : String)
    (assetId sellerId buyerId arg3 arg4 arg5 : String) (quantity : Int) (price : ℚ)
    (asset : Asset) (seller buyer : Owner) (tx0 tx : Transaction) (ledger : List String)
    (hq : E.Atoi arg3 = some quantity) (hp : E.ParseFloat arg4 = some price)
    (ha : getAsset E st [assetId] = Except.ok asset)
    (hs : getOwner E st [sellerId] = Except.ok seller)
    (hb : getOwner E st [buyerId] = Except.ok buyer)
    (hr : tradingRequirements fn asset seller buyer sellerId quantity price
      (E.mulFloat price (E.floatOfInt quantity)) = none)
    (hc : createTransaction E quantity price [assetId, sellerId, buyerId] = Except.ok tx0)
    (hl : getDataArrayStrings E st PRIMARYKEY2 [] = Except.ok ledger)
    (hf : apiFixing E asset tx0 price = Except.ok tx) :
    transactAsset E st fn [assetId, sellerId, buyerId, arg3, arg4, arg5] =
      settleTrade E st asset seller buyer tx ledger assetId sellerId buyerId quantity
        (E.mulFloat price (E.floatOfInt quantity))
        (if asset.Triggers.Approval = true ∧ quantity > asset.Triggers.ApprovalQty then "TRUE"
          else arg5) := by
  unfold transactAsset
  simp only [hq, hp, ha, hs, hb, hr, hc, hl, hf]

/-- A rejected trade request returns an error. -/
theorem transactAsset_err_of_rejected (E : Env) (st : Store) (fn : String) (args : List String)
    (h : TradeRejected E st args) : (transactAsset E st fn args).err ≠ none := by
  rcases h with hlen | ⟨assetId, sellerId, buyerId, arg3, arg4, arg5, rfl, h⟩
  · unfold transactAsset
    split
    · simp at hlen
    · simp
  · unfold transactAsset
    simp only []
    cases hq : E.Atoi arg3 with
    | none => simp
    | some quantity =>
    cases hp : E.ParseFloat arg4 with
    | none => simp
    | some price =>
    cases ha : getAsset E st [assetId] with
    | error e => simp
    | ok asset =>
    cases hs : getOwner E st [sellerId] with
    | error e => simp
    | ok seller =>
    cases hb : getOwner E st [buyerId] with
    | error e => simp
    | ok buyer =>
    rcases h with h | h | ⟨e, h⟩ | ⟨e, h⟩ | ⟨e, h⟩ | ⟨q, p, a, s, b, hq2, hp2, ha2, hs2, hb2, hc⟩
    · simp [hq] at h
    · simp [hp] at h
    · simp [ha] at h
    · simp [hs] at h
    · simp [hb] at h
    · rw [hq] at hq2
      rw [hp] at hp2
      rw [ha] at ha2
      rw [hs] at hs2
      rw [hb] at hb2
      cases hq2
      cases hp2
      cases ha2
      cases hs2
      cases hb2
      cases hr : tradingRequirements fn asset seller buyer sellerId quantity price
          (E.mulFloat price (E.floatOfInt quantity)) with
      | some e => simp [hr]
      | none =>
        exfalso
        have hreq := (tradingRequirements_eq_none_iff fn asset seller buyer sellerId quantity price
          (E.mulFloat price (E.floatOfInt quantity))).mp hr
        obtain ⟨h1, h2, h3, h4, h5, h6, h7⟩ := hreq
        rcases hc with hc | hc | hc | hc | hc | hc
        · simp [h1] at hc
        · simp [h2] at hc
        · exact hc ⟨h3, h4⟩
        · exact absurd hc (not_lt.mpr h5)
        · exact absurd hc (not_lt.mpr h6)
        · exact hc h7

/-- C1: for every ledger state and every `transactAsset` call, if the argument
count is not 6, the quantity or price does not parse, an entity cannot be
loaded, or any of the six business checks fails (the balance check against the
product `price*quantity` as `float64` arithmetic gives it), the call returns an
error and the ledger store is exactly as it was before the call. -/
theorem transactAsset_rejected_no_write (E : Env) (st : Store) (fn : String)
    (args : List String) (h : TradeRejected E st args) :
    (transactAsset E st fn args).err ≠ none ∧ (transactAsset E st fn args).store = st :=
  ⟨transactAsset_err_of_rejected E st fn args h,
    transactAsset_store_of_err E st fn args (transactAsset_err_of_rejected E st fn args h)⟩

theorem transactAsset_rejected_no_write_witness :
    TradeRejected (scenarioEnv 0) storeA ["GOLD", "ACME", "BOB", "10", "10.5", "FALSE"] ∧
      (transactAsset (scenarioEnv 0) storeA "transactAsset"
        ["GOLD", "ACME", "BOB", "10", "10.5", "FALSE"]).err ≠ none ∧
      (transactAsset (scenarioEnv 0) storeA "transactAsset"
        ["GOLD", "ACME", "BOB", "10", "10.5", "FALSE"]).store = storeA :=
  have h : TradeRejected (scenarioEnv 0) storeA ["GOLD", "ACME", "BOB", "10", "10.5", "FALSE"] := by
    right
    refine ⟨"GOLD", "ACME", "BOB", "10", "10.5", "FALSE", rfl, ?_⟩
    right; right; right; right; right
    refine ⟨10, 21 / 2, gold ⟨false, 0⟩, acme, bob, by decide, by with_unfolding_all rfl,
      rfl, rfl, rfl, ?_⟩
    right; right; right; right; right
    show (21 / 2 : ℚ) ≠ 10
    norm_num
  ⟨h, transactAsset_rejected_no_write (scenarioEnv 0) storeA "transactAsset" _ h⟩

/-! ## Trade execution: acceptance -/

theorem createTransaction_ok (E : Env) (quantity : Int) (price : ℚ)
    (assetId sellerId buyerId : String) :
    createTransaction E quantity price [assetId, sellerId, buyerId] =
      Except.ok
        { Id := newTransactionId E assetId sellerId buyerId E.Now
          AssetId := assetId
          SellerId := sellerId
          BuyerId := buyerId
          Quantity := quantity
          Price := price
          Discount := 0
          Created := E.Now
          Status := "Pending"
          APIFixing := "" } := rfl

theorem apiFixing_no_url (E : Env) (asset : Asset) (transaction : Transaction) (price : ℚ)
    (hurl : asset.Contract.URL = "") :
    apiFixing E asset transaction price = Except.ok transaction := by
  simp [apiFixing, hurl]

/-- The settlement returns no error once the pending registry can be read. -/
theorem settleTrade_err_none (E : Env) (st : Store) (asset : Asset) (seller buyer : Owner)
    (transaction : Transaction) (transactionsLedger pending : List String)
    (assetId sellerId buyerId : String) (quantity : Int) (forAmount : ℚ)
    (approvalRequired : String)
    (hpend : getDataArrayStrings E st PRIMARYKEY3 [] = Except.ok pending) :
    (settleTrade E st asset seller buyer transaction transactionsLedger
      assetId sellerId buyerId quantity forAmount approvalRequired).err = none := by
  by_cases hA : approvalRequired = "TRUE"
  · simp [settleTrade, persistTrade, hA, hpend]
  · simp [settleTrade, persistTrade, hA]

/-- C2: in a ledger state where the asset, seller and buyer documents and the
registries exist and the asset has no contract URL, `transactAsset` succeeds if
and only if the seller and the buyer are validated, the seller id is in
`asset.Owners`, the asset id is in `seller.Assets`,
`buyer.Balance >= price*quantity` (the product of the price and the converted
quantity as `float64` arithmetic gives it),
`asset.OwnedBy[seller].Quantity >= quantity` and `price == asset.Price`. -/
theorem transactAsset_succeeds_iff (E : Env) (st : Store) (fn : String)
    (assetId sellerId buyerId arg3 arg4 arg5 : String) (quantity : Int) (price : ℚ)
    (asset : Asset) (seller buyer : Owner) (ledger pending : List String)
    (hq : E.Atoi arg3 = some quantity) (hp : E.ParseFloat arg4 = some price)
    (ha : st assetId = some (Doc.asset asset))
    (hs : st sellerId = some (Doc.owner seller))
    (hb : st buyerId = some (Doc.owner buyer))
    (hl : st PRIMARYKEY2 = some (Doc.strings ledger))
    (hpend : st PRIMARYKEY3 = some (Doc.strings pending))
    (hurl : asset.Contract.URL = "") :
    (transactAsset E st fn [assetId, sellerId, buyerId, arg3, arg4, arg5]).err = none ↔
      (seller.Validated = true ∧ buyer.Validated = true ∧ sellerId ∈ asset.Owners ∧
        asset.Id ∈ seller.Assets ∧ buyer.Balance ≥ E.mulFloat price (E.floatOfInt quantity) ∧
        (asset.ownedBy sellerId).Quantity ≥ quantity ∧ price = asset.Price) := by
  have ha2 := getAsset_of_doc E st assetId asset ha
  have hs2 := getOwner_of_doc E st sellerId seller hs
  have hb2 := getOwner_of_doc E st buyerId buyer hb
  have hl2 := getDataArrayStrings_of_doc E st PRIMARYKEY2 ledger hl
  have hpend2 := getDataArrayStrings_of_doc E st PRIMARYKEY3 pending hpend
  rw [← tradingRequirements_eq_none_iff fn asset seller buyer sellerId quantity price
    (E.mulFloat price (E.floatOfInt quantity))]
  cases hr : tradingRequirements fn asset seller buyer sellerId quantity price
      (E.mulFloat price (E.floatOfInt quantity)) with
  | some e =>
    rw [transactAsset_of_failed_requirement E st fn assetId sellerId buyerId arg3 arg4 arg5
      quantity price asset seller buyer e hq hp ha2 hs2 hb2 hr]
  | none =>
    rw [transactAsset_of_passed E st fn assetId sellerId buyerId arg3 arg4 arg5
      quantity price asset seller buyer _ _ ledger hq hp ha2 hs2 hb2 hr
      (createTransaction_ok E quantity price assetId sellerId buyerId) hl2
      (apiFixing_no_url E asset _ price hurl)]
    simp [settleTrade_err_none E st asset seller buyer _ ledger pending assetId sellerId buyerId
      quantity _ _ hpend2]

theorem transactAsset_succeeds_iff_witness :
    (transactAsset (scenarioEnv 0) storeA "transactAsset" scenarioArgs).err = none ↔
      (acme.Validated = true ∧ bob.Validated = true ∧ "ACME" ∈ (gold ⟨false, 0⟩).Owners ∧
        (gold ⟨false, 0⟩).Id ∈ acme.Assets ∧ bob.Balance ≥ 10 * ((10 : Int) : ℚ) ∧
        ((gold ⟨false, 0⟩).ownedBy "ACME").Quantity ≥ 10 ∧ (10 : ℚ) = (gold ⟨false, 0⟩).Price) :=
  transactAsset_succeeds_iff (scenarioEnv 0) storeA "transactAsset"
    "GOLD" "ACME" "BOB" "10" "10.0" "FALSE" 10 10 (gold ⟨false, 0⟩) acme bob [] []
    (by decide) (by with_unfolding_all rfl) rfl rfl rfl rfl rfl rfl

/-! ## Fields the entity methods leave alone -/

@[simp] theorem Owner.addTransaction_OwnerId (o : Owner) (t : String) :
    (o.addTransaction t).OwnerId = o.OwnerId := rfl

@[simp] theorem Owner.addTransaction_Balance (o : Owner) (t : String) :
    (o.addTransaction t).Balance = o.Balance := rfl

@[simp] theorem Owner.addTransaction_EscrowBalance (o : Owner) (t : String) :
    (o.addTransaction t).EscrowBalance = o.EscrowBalance := rfl

@[simp] theorem Owner.addTransaction_Assets (o : Owner) (t : String) :
    (o.addTransaction t).Assets = o.Assets := rfl

@[simp] theorem Owner.addAsset_OwnerId (o : Owner) (a : String) :
    (o.addAsset a).OwnerId = o.OwnerId := by
  unfold Owner.addAsset; split <;> rfl

@[simp] theorem Owner.addAsset_Balance (o : Owner) (a : String) :
    (o.addAsset a).Balance = o.Balance := by
  unfold Owner.addAsset; split <;> rfl

@[simp] theorem Owner.addAsset_EscrowBalance (o : Owner) (a : String) :
    (o.addAsset a).EscrowBalance = o.EscrowBalance := by
  unfold Owner.addAsset; split <;> rfl

theorem Owner.mem_addAsset (o : Owner) (a : String) : a ∈ (o.addAsset a).Assets := by
  unfold Owner.addAsset
  split
  · simp
  · rename_i h
    simpa [IsElementInSlice] using h

@[simp] theorem Owner.deleteAsset_OwnerId (o : Owner) (a : String) :
    (o.deleteAsset a).OwnerId = o.OwnerId := rfl

@[simp] theorem Owner.deleteAsset_Balance (o : Owner) (a : String) :
    (o.deleteAsset a).Balance = o.Balance := rfl

@[simp] theorem Owner.deleteAsset_EscrowBalance (o : Owner) (a : String) :
    (o.deleteAsset a).EscrowBalance = o.EscrowBalance := rfl

@[simp] theorem Owner.removeAsset_OwnerId (o : Owner) (a : Asset) (q : Int) :
    (o.removeAsset a q).OwnerId = o.OwnerId := by
  unfold Owner.removeAsset; simp only []; split <;> rfl

@[simp] theorem Owner.removeAsset_Balance (o : Owner) (a : Asset) (q : Int) :
    (o.removeAsset a q).Balance = o.Balance := by
  unfold Owner.removeAsset; simp only []; split <;> rfl

@[simp] theorem Owner.removeAsset_EscrowBalance (o : Owner) (a : Asset) (q : Int) :
    (o.removeAsset a q).EscrowBalance = o.EscrowBalance := by
  unfold Owner.removeAsset; simp only []; split <;> rfl

@[simp] theorem Owner.approveBuyTransaction_OwnerId (E : Env) (o : Owner) (a : String) (x : ℚ) :
    (o.approveBuyTransaction E a x).OwnerId = o.OwnerId := by
  simp [Owner.approveBuyTransaction]

@[simp] theorem Owner.approveSellTransaction_OwnerId (E : Env) (o : Owner) (a : Asset) (x : ℚ) (q : Int) :
    (o.approveSellTransaction E a x q).OwnerId = o.OwnerId := by
  unfold Owner.approveSellTransaction; simp only []; split <;> rfl

@[simp] theorem Owner.rollbackBuyTransaction_OwnerId (E : Env) (o : Owner) (x : ℚ) :
    (o.rollbackBuyTransaction E x).OwnerId = o.OwnerId := rfl

@[simp] theorem Asset.setOwnedBy_Id (a : Asset) (k : String) (r : Marketplace.OwnedBy) :
    (a.setOwnedBy k r).Id = a.Id := rfl

@[simp] theorem Asset.setOwnedBy_Quantity (a : Asset) (k : String) (r : Marketplace.OwnedBy) :
    (a.setOwnedBy k r).Quantity = a.Quantity := rfl

@[simp] theorem Asset.setOwnedBy_Owners (a : Asset) (k : String) (r : Marketplace.OwnedBy) :
    (a.setOwnedBy k r).Owners = a.Owners := rfl

@[simp] theorem Asset.setOwnedBy_Issuer (a : Asset) (k : String) (r : Marketplace.OwnedBy) :
    (a.setOwnedBy k r).Issuer = a.Issuer := rfl

@[simp] theorem Asset.setOwnedBy_OwnedBy_same (a : Asset) (k : String)
    (r : Marketplace.OwnedBy) : (a.setOwnedBy k r).OwnedBy k = some r := by
  simp [Asset.setOwnedBy]

theorem Asset.setOwnedBy_OwnedBy_other (a : Asset) (k k2 : String) (r : Marketplace.OwnedBy)
    (h : k2 ≠ k) : (a.setOwnedBy k r).OwnedBy k2 = a.OwnedBy k2 := by
  simp [Asset.setOwnedBy, h]

@[simp] theorem Asset.setOwnedBy_ownedBy_same (a : Asset) (k : String)
    (r : Marketplace.OwnedBy) : (a.setOwnedBy k r).ownedBy k = r := by
  simp [Asset.ownedBy]

theorem Asset.setOwnedBy_ownedBy_other (a : Asset) (k k2 : String) (r : Marketplace.OwnedBy)
    (h : k2 ≠ k) : (a.setOwnedBy k r).ownedBy k2 = a.ownedBy k2 := by
  simp [Asset.ownedBy, Asset.setOwnedBy_OwnedBy_other a k k2 r h]

@[simp] theorem Asset.addOwner_Id (a : Asset) (k : String) (q : Int) :
    (a.addOwner k q).Id = a.Id := by
  unfold Asset.addOwner; split <;> rfl

@[simp] theorem Asset.addOwner_Quantity (a : Asset) (k : String) (q : Int) :
    (a.addOwner k q).Quantity = a.Quantity := by
  unfold Asset.addOwner; split <;> rfl

@[simp] theorem Asset.addOwner_Issuer (a : Asset) (k : String) (q : Int) :
    (a.addOwner k q).Issuer = a.Issuer := by
  unfold Asset.addOwner; split <;> rfl

theorem Asset.addOwner_OwnedBy_other (a : Asset) (k k2 : String) (q : Int) (h : k2 ≠ k) :
    (a.addOwner k q).OwnedBy k2 = a.OwnedBy k2 := by
  unfold Asset.addOwner
  split <;> simp [Asset.setOwnedBy, h]

theorem Asset.addOwner_ownedBy_other (a : Asset) (k k2 : String) (q : Int) (h : k2 ≠ k) :
    (a.addOwner k q).ownedBy k2 = a.ownedBy k2 := by
  simp [Asset.ownedBy, Asset.addOwner_OwnedBy_other a k k2 q h]

/-- The record `addOwner` leaves for the new holder: the old live quantity (0
when the id was not in `Owners`) plus the quantity. -/
theorem Asset.addOwner_ownedBy_Quantity (a : Asset) (k : String) (q : Int) :
    ((a.addOwner k q).ownedBy k).Quantity =
      (if k ∈ a.Owners then (a.ownedBy k).Quantity else 0) + q := by
  unfold Asset.addOwner
  by_cases h : k ∈ a.Owners
  · simp [h, IsElementInSlice]
  · simp [h, IsElementInSlice]

theorem Asset.addOwner_OwnedBy_isSome (a : Asset) (k : String) (q : Int) :
    ((a.addOwner k q).OwnedBy k).isSome = true := by
  unfold Asset.addOwner
  split <;> simp

@[simp] theorem Asset.subtractOwner_Id (a : Asset) (k : String) (q : Int) (p : Bool) :
    (a.subtractOwner k q p).Id = a.Id := by
  unfold Asset.subtractOwner; simp only []; split <;> rfl

@[simp] theorem Asset.subtractOwner_Quantity (a : Asset) (k : String) (q : Int) (p : Bool) :
    (a.subtractOwner k q p).Quantity = a.Quantity := by
  unfold Asset.subtractOwner; simp only []; split <;> rfl

theorem Asset.subtractOwner_OwnedBy_other (a : Asset) (k k2 : String) (q : Int) (p : Bool)
    (h : k2 ≠ k) : (a.subtractOwner k q p).OwnedBy k2 = a.OwnedBy k2 := by
  unfold Asset.subtractOwner
  simp only []
  split <;> simp [Asset.setOwnedBy, h]

@[simp] theorem Asset.deleteOwner_Id (a : Asset) (k : String) : (a.deleteOwner k).Id = a.Id := rfl

@[simp] theorem Asset.deleteOwner_Quantity (a : Asset) (k : String) :
    (a.deleteOwner k).Quantity = a.Quantity := rfl

theorem Asset.deleteOwner_OwnedBy_other (a : Asset) (k k2 : String) (h : k2 ≠ k) :
    (a.deleteOwner k).OwnedBy k2 = a.OwnedBy k2 := by
  simp [Asset.deleteOwner, h]

@[simp] theorem Asset.removeOwner_Id (a : Asset) (k : String) (q : Int) (p : Bool) :
    (a.removeOwner k q p).Id = a.Id := by
  unfold Asset.removeOwner; simp only []; split <;> split <;> simp

@[simp] theorem Asset.removeOwner_Quantity (a : Asset) (k : String) (q : Int) (p : Bool) :
    (a.removeOwner k q p).Quantity = a.Quantity := by
  unfold Asset.removeOwner; simp only []; split <;> split <;> simp

theorem Asset.removeOwner_OwnedBy_other (a : Asset) (k k2 : String) (q : Int) (p : Bool)
    (h : k2 ≠ k) : (a.removeOwner k q p).OwnedBy k2 = a.OwnedBy k2 := by
  unfold Asset.removeOwner
  simp only []
  split <;> split <;>
    first
      | exact Asset.deleteOwner_OwnedBy_other a k k2 h
      | exact Asset.subtractOwner_OwnedBy_other a k k2 q _ h

@[simp] theorem Asset.escrowOwner_Id (a : Asset) (k : String) (q : Int) :
    (a.escrowOwner k q).Id = a.Id := rfl

@[simp] theorem Asset.escrowOwner_Quantity (a : Asset) (k : String) (q : Int) :
    (a.escrowOwner k q).Quantity = a.Quantity := rfl

@[simp] theorem Asset.escrowOwner_Issuer (a : Asset) (k : String) (q : Int) :
    (a.escrowOwner k q).Issuer = a.Issuer := rfl

@[simp] theorem Asset.escrowOwner_Owners (a : Asset) (k : String) (q : Int) :
    (a.escrowOwner k q).Owners = a.Owners := rfl

theorem Asset.escrowOwner_OwnedBy_other (a : Asset) (k k2 : String) (q : Int) (h : k2 ≠ k) :
    (a.escrowOwner k q).OwnedBy k2 = a.OwnedBy k2 := by
  simp [Asset.escrowOwner, Asset.setOwnedBy, h]

/-! ## The store after a trade -/

/-- The store `persistTrade` leaves, key by key: the last write wins. -/
theorem persistTrade_store (st : Store) (buyer seller : Owner) (asset : Asset)
    (transaction : Transaction) (transactionsLedger : List String) (k : String) :
    (persistTrade st buyer seller asset transaction transactionsLedger).store k =
      if k = PRIMARYKEY2 then some (Doc.strings (transactionsLedger ++ [transaction.Id]))
      else if k = transaction.Id then some (Doc.transaction transaction)
      else if k = asset.Id then some (Doc.asset asset)
      else if k = seller.OwnerId then some (Doc.owner seller)
      else if k = buyer.OwnerId then some (Doc.owner buyer)
      else st k := by
  simp [persistTrade, saveStringToDataArray, saveLedger, Transaction.save, Asset.save, Owner.save,
    PutState]

/-- The settlement on the direct path. -/
theorem settleTrade_direct (E : Env) (st : Store) (asset : Asset) (seller buyer : Owner)
    (transaction : Transaction) (transactionsLedger : List String)
    (assetId sellerId buyerId : String) (quantity : Int) (forAmount : ℚ)
    (approvalRequired : String) (hA : approvalRequired ≠ "TRUE") :
    settleTrade E st asset seller buyer transaction transactionsLedger
        assetId sellerId buyerId quantity forAmount approvalRequired =
      persistTrade st (directBuyer E buyer transaction.Id assetId forAmount)
        (directSeller E seller asset transaction.Id sellerId quantity forAmount)
        (directAsset asset sellerId buyerId quantity)
        { transaction with Status := "Validated" } transactionsLedger := by
  unfold settleTrade
  simp only [if_neg hA]
  rfl

/-- The settlement on the escrow path. -/
theorem settleTrade_escrow (E : Env) (st : Store) (asset : Asset) (seller buyer : Owner)
    (transaction : Transaction) (transactionsLedger pending : List String)
    (assetId sellerId buyerId : String) (quantity : Int) (forAmount : ℚ)
    (approvalRequired : String) (hA : approvalRequired = "TRUE")
    (hpend : getDataArrayStrings E st PRIMARYKEY3 [] = Except.ok pending) :
    settleTrade E st asset seller buyer transaction transactionsLedger
        assetId sellerId buyerId quantity forAmount approvalRequired =
      persistTrade (saveStringToDataArray st PRIMARYKEY3 transaction.Id pending)
        (escrowBuyer E buyer transaction.Id forAmount)
        (seller.addTransaction transaction.Id)
        (escrowAsset asset sellerId quantity)
        { transaction with Status := "Pending" } transactionsLedger := by
  unfold settleTrade
  simp only [if_pos hA, hpend]
  rfl

/-- The escrow path fails when the pending registry cannot be read. -/
theorem settleTrade_escrow_err (E : Env) (st : Store) (asset : Asset) (seller buyer : Owner)
    (transaction : Transaction) (transactionsLedger : List String)
    (assetId sellerId buyerId : String) (quantity : Int) (forAmount : ℚ)
    (approvalRequired : String) (e : Err) (hA : approvalRequired = "TRUE")
    (hpend : getDataArrayStrings E st PRIMARYKEY3 [] = Except.error e) :
    settleTrade E st asset seller buyer transaction transactionsLedger
        assetId sellerId buyerId quantity forAmount approvalRequired = ⟨some e, st⟩ := by
  unfold settleTrade
  simp only [if_pos hA, hpend]

theorem contractDiscount_fields (asset : Asset) (t : Transaction) (fix val : ℚ) :
    (contractDiscount asset t fix val).Id = t.Id ∧
      (contractDiscount asset t fix val).AssetId = t.AssetId ∧
      (contractDiscount asset t fix val).SellerId = t.SellerId ∧
      (contractDiscount asset t fix val).BuyerId = t.BuyerId ∧
      (contractDiscount asset t fix val).Quantity = t.Quantity ∧
      (contractDiscount asset t fix val).Status = t.Status ∧
      (contractDiscount asset t fix val).Created = t.Created := by
  unfold contractDiscount
  split_ifs <;> simp

/-- The fixing block changes only the fixing, the discount and the price. -/
theorem apiFixing_fields (E : Env) (asset : Asset) (tx0 tx : Transaction) (price : ℚ)
    (h : apiFixing E asset tx0 price = Except.ok tx) :
    tx.Id = tx0.Id ∧ tx.AssetId = tx0.AssetId ∧ tx.SellerId = tx0.SellerId ∧
      tx.BuyerId = tx0.BuyerId ∧ tx.Quantity = tx0.Quantity ∧ tx.Status = tx0.Status ∧
      tx.Created = tx0.Created := by
  unfold apiFixing at h
  by_cases hu : asset.Contract.URL = ""
  · simp [hu] at h
    subst h
    simp
  · cases hv : E.ParseFloat asset.Contract.Value with
    | none => simp [hu, hv] at h
    | some val =>
      cases hx : E.ParseFloat (GetEndpoint E asset.Contract.URL asset.Contract.Keys) with
      | none => simp [hu, hv, hx] at h
      | some fix =>
        simp only [hu, hv, hx, ne_eq, not_false_eq_true, if_true, Except.ok.injEq] at h
        subst h
        have hc := contractDiscount_fields asset
          { tx0 with APIFixing := GetEndpoint E asset.Contract.URL asset.Contract.Keys } fix val
        simpa using hc

/-- A successful `transactAsset` went through every step: the arguments parsed,
the entities loaded, the requirements passed, the registry was read, the fixing
block succeeded and the call is the settlement. -/
theorem transactAsset_ok_inv (E : Env) (st : Store) (fn : String)
    (assetId sellerId buyerId arg3 arg4 arg5 : String)
    (h : (transactAsset E st fn [assetId, sellerId, buyerId, arg3, arg4, arg5]).err = none) :
    ∃ quantity price asset seller buyer tx0 ledger tx,
      E.Atoi arg3 = some quantity ∧ E.ParseFloat arg4 = some price ∧
      getAsset E st [assetId] = Except.ok asset ∧
      getOwner E st [sellerId] = Except.ok seller ∧
      getOwner E st [buyerId] = Except.ok buyer ∧
      tradingRequirements fn asset seller buyer sellerId quantity price
        (E.mulFloat price (E.floatOfInt quantity)) = none ∧
      createTransaction E quantity price [assetId, sellerId, buyerId] = Except.ok tx0 ∧
      getDataArrayStrings E st PRIMARYKEY2 [] = Except.ok ledger ∧
      apiFixing E asset tx0 price = Except.ok tx ∧
      transactAsset E st fn [assetId, sellerId, buyerId, arg3, arg4, arg5] =
        settleTrade E st asset seller buyer tx ledger assetId sellerId buyerId quantity
          (E.mulFloat price (E.floatOfInt quantity))
          (if asset.Triggers.Approval = true ∧ quantity > asset.Triggers.ApprovalQty then "TRUE"
            else arg5) := by
  cases hq : E.Atoi arg3 with
  | none => simp [transactAsset, hq] at h
  | some quantity =>
  cases hp : E.ParseFloat arg4 with
  | none => simp [transactAsset, hq, hp] at h
  | some price =>
  cases ha : getAsset E st [assetId] with
  | error e => simp [transactAsset, hq, hp, ha] at h
  | ok asset =>
  cases hs : getOwner E st [sellerId] with
  | error e => simp [transactAsset, hq, hp, ha, hs] at h
  | ok seller =>
  cases hb : getOwner E st [buyerId] with
  | error e => simp [transactAsset, hq, hp, ha, hs, hb] at h
  | ok buyer =>
  cases hr : tradingRequirements fn asset seller buyer sellerId quantity price
      (E.mulFloat price (E.floatOfInt quantity)) with
  | some e =>
    rw [transactAsset_of_failed_requirement E st fn assetId sellerId buyerId arg3 arg4 arg5
      quantity price asset seller buyer e hq hp ha hs hb hr] at h
    simp at h
  | none =>
  obtain ⟨tx0, hc⟩ : ∃ tx0, createTransaction E quantity price [assetId, sellerId, buyerId] =
      Except.ok tx0 := ⟨_, createTransaction_ok E quantity price assetId sellerId buyerId⟩
  cases hl : getDataArrayStrings E st PRIMARYKEY2 [] with
  | error e =>
    unfold transactAsset at h
    simp only [hq, hp, ha, hs, hb, hr, hc, hl] at h
    simp at h
  | ok ledger =>
  cases hf : apiFixing E asset tx0 price with
  | error e =>
    unfold transactAsset at h
    simp only [hq, hp, ha, hs, hb, hr, hc, hl, hf] at h
    simp at h
  | ok tx =>
    refine ⟨quantity, price, asset, seller, buyer, tx0, ledger, tx, ?_, ?_, ?_, ?_, ?_, ?_, hc,
      ?_, hf, transactAsset_of_passed E st fn assetId sellerId buyerId arg3 arg4 arg5
        quantity price asset seller buyer tx0 tx ledger hq hp ha hs hb hr hc hl hf⟩
    all_goals first | rfl | assumption

/-! ## Escrow or direct settlement -/

/-- The effective approval flag is `"TRUE"` exactly when the override is set or
the trigger fires. -/
theorem approvalRequired_iff (asset : Asset) (quantity : Int) (arg5 : String) :
    (if asset.Triggers.Approval = true ∧ quantity > asset.Triggers.ApprovalQty then "TRUE"
      else arg5) = "TRUE" ↔
      (arg5 = "TRUE" ∨ (asset.Triggers.Approval = true ∧ quantity > asset.Triggers.ApprovalQty)) := by
  by_cases h : asset.Triggers.Approval = true ∧ quantity > asset.Triggers.ApprovalQty
  · simp [h]
  · simp only [if_neg h]
    constructor
    · intro h5
      exact Or.inl h5
    · rintro (h5 | h5)
      · exact h5
      · exact absurd h5 h

/-- The transaction a successful trade holds in memory keeps the id and the
parties `createTransaction` gave it. -/
theorem trade_transaction_fields (E : Env) (asset : Asset) (quantity : Int) (price : ℚ)
    (assetId sellerId buyerId : String) (tx0 tx : Transaction)
    (hc : createTransaction E quantity price [assetId, sellerId, buyerId] = Except.ok tx0)
    (hf : apiFixing E asset tx0 price = Except.ok tx) :
    tx.Id = newTransactionId E assetId sellerId buyerId E.Now ∧ tx.AssetId = assetId ∧
      tx.SellerId = sellerId ∧ tx.BuyerId = buyerId ∧ tx.Quantity = quantity := by
  rw [createTransaction_ok] at hc
  cases hc
  obtain ⟨h1, h2, h3, h4, h5, _, _⟩ := apiFixing_fields E asset _ tx price hf
  exact ⟨h1, h2, h3, h4, h5⟩

/-- C3: a successful trade is stored with status `Pending` (escrow path) if and
only if the sixth argument is `"TRUE"` or the asset's trigger has
`Approval = true` and `quantity > ApprovalQty`; otherwise it is stored with
status `Validated` (direct path).  In particular `quantity == ApprovalQty` with
the override unset settles directly.  The transaction id, a hash, is not the
name of the `Transactions` registry. -/
theorem transactAsset_escrow_iff (E : Env) (st : Store) (fn : String)
    (assetId sellerId buyerId arg3 arg4 arg5 : String) (quantity : Int) (asset : Asset)
    (hq : E.Atoi arg3 = some quantity)
    (ha : getAsset E st [assetId] = Except.ok asset)
    (hkey : newTransactionId E assetId sellerId buyerId E.Now ≠ PRIMARYKEY2)
    (hsucc : (transactAsset E st fn [assetId, sellerId, buyerId, arg3, arg4, arg5]).err = none) :
    ∃ t, (transactAsset E st fn [assetId, sellerId, buyerId, arg3, arg4, arg5]).store
          (newTransactionId E assetId sellerId buyerId E.Now) = some (Doc.transaction t) ∧
      (t.Status = "Pending" ↔
        (arg5 = "TRUE" ∨
          (asset.Triggers.Approval = true ∧ quantity > asset.Triggers.ApprovalQty))) ∧
      (t.Status = "Validated" ↔
        ¬ (arg5 = "TRUE" ∨
          (asset.Triggers.Approval = true ∧ quantity > asset.Triggers.ApprovalQty))) ∧
      (arg5 ≠ "TRUE" → quantity = asset.Triggers.ApprovalQty → t.Status = "Validated") := by
  obtain ⟨q2, price, a2, seller, buyer, tx0, ledger, tx, hq2, _, ha2, _, _, _, hc, hl, hf, heq⟩ :=
    transactAsset_ok_inv E st fn assetId sellerId buyerId arg3 arg4 arg5 hsucc
  rw [hq] at hq2
  cases hq2
  rw [ha] at ha2
  cases ha2
  obtain ⟨hid, _⟩ := trade_transaction_fields E asset quantity price assetId sellerId buyerId
    tx0 tx hc hf
  have hiff := approvalRequired_iff asset quantity arg5
  rw [heq] at hsucc ⊢
  by_cases hA : (if asset.Triggers.Approval = true ∧ quantity > asset.Triggers.ApprovalQty
      then "TRUE" else arg5) = "TRUE"
  · cases hpend : getDataArrayStrings E st PRIMARYKEY3 [] with
    | error e =>
      rw [settleTrade_escrow_err E st asset seller buyer tx ledger assetId sellerId buyerId
        quantity _ _ e hA hpend] at hsucc
      simp at hsucc
    | ok pending =>
      rw [settleTrade_escrow E st asset seller buyer tx ledger pending assetId sellerId buyerId
        quantity _ _ hA hpend]
      refine ⟨{ tx with Status := "Pending" }, ?_, ?_, ?_, ?_⟩
      · rw [persistTrade_store]
        simp [hkey, hid]
      · exact ⟨fun _ => hiff.mp hA, fun _ => rfl⟩
      · constructor
        · intro h
          exact absurd h (by simp)
        · intro h
          exact absurd (hiff.mp hA) h
      · intro h5 hqe
        rcases hiff.mp hA with h | h
        · exact absurd h h5
        · omega
  · rw [settleTrade_direct E st asset seller buyer tx ledger assetId sellerId buyerId
      quantity _ _ hA]
    have hno := fun h => hA (hiff.mpr h)
    refine ⟨{ tx with Status := "Validated" }, ?_, ?_, ?_, ?_⟩
    · rw [persistTrade_store]
      simp [hkey, hid]
    · constructor
      · intro h
        exact absurd h (by simp)
      · intro h
        exact absurd h hno
    · exact ⟨fun _ => hno, fun _ => rfl⟩
    · intro _ _
      rfl

theorem transactAsset_escrow_iff_witness :
    (transactAsset (scenarioEnv 0) storeB "transactAsset" scenarioArgs).err = none ∧
    ∃ t, (transactAsset (scenarioEnv 0) storeB "transactAsset" scenarioArgs).store
          (newTransactionId (scenarioEnv 0) "GOLD" "ACME" "BOB" (scenarioEnv 0).Now) =
            some (Doc.transaction t) ∧
      (t.Status = "Pending" ↔
        ("FALSE" = "TRUE" ∨
          ((gold ⟨true, 5⟩).Triggers.Approval = true ∧ (10 : Int) > (gold ⟨true, 5⟩).Triggers.ApprovalQty))) ∧
      (t.Status = "Validated" ↔
        ¬ ("FALSE" = "TRUE" ∨
          ((gold ⟨true, 5⟩).Triggers.Approval = true ∧ (10 : Int) > (gold ⟨true, 5⟩).Triggers.ApprovalQty))) ∧
      ("FALSE" ≠ "TRUE" → (10 : Int) = (gold ⟨true, 5⟩).Triggers.ApprovalQty →
        t.Status = "Validated") :=
  have h : (transactAsset (scenarioEnv 0) storeB "transactAsset" scenarioArgs).err = none := by
    with_unfolding_all rfl
  ⟨h, transactAsset_escrow_iff (scenarioEnv 0) storeB "transactAsset"
    "GOLD" "ACME" "BOB" "10" "10.0" "FALSE" 10 (gold ⟨true, 5⟩) (by decide) rfl
    (by with_unfolding_all decide) h⟩

/-! ## Direct settlement -/

/-- Keys holding documents of different shapes, or one of which is unused, are
different. -/
theorem key_ne_of_doc {st : Store} {k1 k2 : String} {d1 d2 : Doc}
    (h1 : st k1 = some d1) (h2 : st k2 = some d2) (hd : d1 ≠ d2) : k1 ≠ k2 := by
  intro h
  rw [h, h2] at h1
  exact hd (Option.some.inj h1).symm

/-- A key holding a document that is not a transaction differs from a key that
is unused or holds a transaction. -/
theorem key_ne_of_tx {st : Store} {k1 k2 : String} {d1 : Doc}
    (h1 : st k1 = some d1) (h2 : ∀ d, st k2 = some d → ∃ t, d = Doc.transaction t)
    (hd : ∀ t, d1 ≠ Doc.transaction t) : k1 ≠ k2 := by
  intro h
  rw [h] at h1
  obtain ⟨t, ht⟩ := h2 d1 h1
  exact hd t ht

/-- What `removeOwner` does to the holder it is called on, live case: the record
is deleted when the live quantity equals the quantity and nothing is in escrow. -/
theorem Asset.removeOwner_live_delete (a : Asset) (k : String) (q : Int)
    (h : (a.ownedBy k).Quantity = q ∧ (a.ownedBy k).EscrowQty = 0) :
    (a.removeOwner k q false).OwnedBy k = none ∧ k ∉ (a.removeOwner k q false).Owners := by
  unfold Asset.removeOwner
  simp [h, Asset.deleteOwner, DeleteElementFromSlice]

theorem Asset.removeOwner_live_keep (a : Asset) (k : String) (q : Int)
    (h : ¬ ((a.ownedBy k).Quantity = q ∧ (a.ownedBy k).EscrowQty = 0)) :
    (a.removeOwner k q false).OwnedBy k =
      some { a.ownedBy k with Quantity := (a.ownedBy k).Quantity - q } := by
  unfold Asset.removeOwner
  simp only [Bool.false_eq_true, if_false, if_neg h]
  simp [Asset.subtractOwner]

/-- What `removeOwner` does to the holder it is called on, pending case: the
record is deleted when nothing is live and the escrow equals the quantity. -/
theorem Asset.removeOwner_pending_delete (a : Asset) (k : String) (q : Int)
    (h : (a.ownedBy k).Quantity = 0 ∧ (a.ownedBy k).EscrowQty = q) :
    (a.removeOwner k q true).OwnedBy k = none ∧ k ∉ (a.removeOwner k q true).Owners := by
  unfold Asset.removeOwner
  simp [h, Asset.deleteOwner, DeleteElementFromSlice]

theorem Asset.removeOwner_pending_keep (a : Asset) (k : String) (q : Int)
    (h : ¬ ((a.ownedBy k).Quantity = 0 ∧ (a.ownedBy k).EscrowQty = q)) :
    (a.removeOwner k q true).OwnedBy k =
      some { a.ownedBy k with EscrowQty := (a.ownedBy k).EscrowQty - q } := by
  unfold Asset.removeOwner
  simp only [if_true, if_neg h]
  simp [Asset.subtractOwner]

/-! ## The in-memory documents of a trade, field by field -/

@[simp] theorem tradedAsset_Id (asset : Asset) (sellerId : String) (quantity : Int) :
    (tradedAsset asset sellerId quantity).Id = asset.Id := by
  unfold tradedAsset; split <;> rfl

@[simp] theorem tradedAsset_Owners (asset : Asset) (sellerId : String) (quantity : Int) :
    (tradedAsset asset sellerId quantity).Owners = asset.Owners := by
  unfold tradedAsset; split <;> rfl

@[simp] theorem tradedAsset_OwnedBy (asset : Asset) (sellerId : String) (quantity : Int) :
    (tradedAsset asset sellerId quantity).OwnedBy = asset.OwnedBy := by
  unfold tradedAsset; split <;> rfl

@[simp] theorem tradedAsset_ownedBy (asset : Asset) (sellerId : String) (quantity : Int)
    (k : String) : (tradedAsset asset sellerId quantity).ownedBy k = asset.ownedBy k := by
  simp [Asset.ownedBy]

theorem tradedAsset_Quantity (asset : Asset) (sellerId : String) (quantity : Int) :
    (tradedAsset asset sellerId quantity).Quantity =
      if sellerId = asset.Issuer then asset.Quantity - quantity else asset.Quantity := by
  unfold tradedAsset; split <;> rfl

@[simp] theorem directBuyer_OwnerId (E : Env) (buyer : Owner) (t a : String) (x : ℚ) :
    (directBuyer E buyer t a x).OwnerId = buyer.OwnerId := by
  simp [directBuyer]

theorem directBuyer_Balance (E : Env) (buyer : Owner) (t a : String) (x : ℚ) :
    (directBuyer E buyer t a x).Balance = E.subFloat buyer.Balance x := by
  simp [directBuyer]

theorem directBuyer_EscrowBalance (E : Env) (buyer : Owner) (t a : String) (x : ℚ) :
    (directBuyer E buyer t a x).EscrowBalance = buyer.EscrowBalance := by
  simp [directBuyer]

theorem directBuyer_Assets (E : Env) (buyer : Owner) (t a : String) (x : ℚ) :
    a ∈ (directBuyer E buyer t a x).Assets := by
  unfold directBuyer
  exact Owner.mem_addAsset _ a

@[simp] theorem directSeller_OwnerId (E : Env) (seller : Owner) (asset : Asset) (t s : String) (q : Int)
    (x : ℚ) : (directSeller E seller asset t s q x).OwnerId = seller.OwnerId := by
  simp [directSeller]

theorem directSeller_Balance (E : Env) (seller : Owner) (asset : Asset) (t s : String) (q : Int)
    (x : ℚ) : (directSeller E seller asset t s q x).Balance = E.addFloat seller.Balance x := by
  simp [directSeller]

theorem directSeller_EscrowBalance (E : Env) (seller : Owner) (asset : Asset) (t s : String) (q : Int)
    (x : ℚ) : (directSeller E seller asset t s q x).EscrowBalance = seller.EscrowBalance := by
  simp [directSeller]

@[simp] theorem directAsset_Id (asset : Asset) (s b : String) (q : Int) :
    (directAsset asset s b q).Id = asset.Id := by
  simp [directAsset]

theorem directAsset_seller_delete (asset : Asset) (s b : String) (q : Int) (hne : b ≠ s)
    (h : (asset.ownedBy s).Quantity = q ∧ (asset.ownedBy s).EscrowQty = 0) :
    (directAsset asset s b q).OwnedBy s = none ∧ s ∉ (directAsset asset s b q).Owners := by
  unfold directAsset
  apply Asset.removeOwner_live_delete
  rw [Asset.addOwner_ownedBy_other _ b s q (Ne.symm hne)]
  simpa using h

theorem directAsset_seller_keep (asset : Asset) (s b : String) (q : Int) (hne : b ≠ s)
    (h : ¬ ((asset.ownedBy s).Quantity = q ∧ (asset.ownedBy s).EscrowQty = 0)) :
    (directAsset asset s b q).OwnedBy s =
      some { asset.ownedBy s with Quantity := (asset.ownedBy s).Quantity - q } := by
  unfold directAsset
  have hs : ((tradedAsset asset s q).addOwner b q).ownedBy s = asset.ownedBy s := by
    rw [Asset.addOwner_ownedBy_other _ b s q (Ne.symm hne)]
    simp
  rw [Asset.removeOwner_live_keep _ s q (by rw [hs]; exact h), hs]

@[simp] theorem escrowBuyer_OwnerId (E : Env) (buyer : Owner) (t : String) (x : ℚ) :
    (escrowBuyer E buyer t x).OwnerId = buyer.OwnerId := rfl

theorem escrowBuyer_Balance (E : Env) (buyer : Owner) (t : String) (x : ℚ) :
    (escrowBuyer E buyer t x).Balance = E.subFloat buyer.Balance x := rfl

theorem escrowBuyer_EscrowBalance (E : Env) (buyer : Owner) (t : String) (x : ℚ) :
    (escrowBuyer E buyer t x).EscrowBalance = E.addFloat buyer.EscrowBalance x := rfl

theorem escrowBuyer_Assets (E : Env) (buyer : Owner) (t : String) (x : ℚ) :
    (escrowBuyer E buyer t x).Assets = buyer.Assets := rfl

@[simp] theorem escrowAsset_Id (asset : Asset) (s : String) (q : Int) :
    (escrowAsset asset s q).Id = asset.Id := by
  simp [escrowAsset]

theorem escrowAsset_Owners (asset : Asset) (s : String) (q : Int) :
    (escrowAsset asset s q).Owners = asset.Owners := by
  simp [escrowAsset]

/-! ## Escrow settlement -/

theorem saveStringToDataArray_apply (st : Store) (dataKey addString : String)
    (ledger : List String) (k : String) :
    saveStringToDataArray st dataKey addString ledger k =
      if k = dataKey then some (Doc.strings (ledger ++ [addString])) else st k := by
  simp [saveStringToDataArray, saveLedger, PutState]

theorem PRIMARYKEY3_ne_PRIMARYKEY2 : PRIMARYKEY3 ≠ PRIMARYKEY2 := by decide

/-! ## Approval -/

/-- The run of `approve` on a pending transaction whose buyer, seller and asset
load. -/
theorem Transaction.approve_of_loaded (E : Env) (st : Store) (tx : Transaction)
    (buyer seller : Owner) (asset : Asset) (hstat : tx.Status = "Pending")
    (hb : getOwner E st [tx.BuyerId] = Except.ok buyer)
    (hs : getOwner E st [tx.SellerId] = Except.ok seller)
    (ha : getAsset E st [tx.AssetId] = Except.ok asset) :
    tx.approve E st =
      ⟨none, { tx with Status := "Approved" },
        ((asset.addOwner tx.BuyerId tx.Quantity).removeOwner tx.SellerId tx.Quantity true).save
          ((seller.approveSellTransaction E asset (E.mulFloat tx.Price (E.floatOfInt tx.Quantity)) tx.Quantity).save
            ((buyer.approveBuyTransaction E tx.AssetId (E.mulFloat tx.Price (E.floatOfInt tx.Quantity))).save st))⟩ := by
  unfold Transaction.approve
  simp only [hstat, ne_eq, not_true_eq_false, if_false, hb, hs, ha]

/-- A key holding a document that is not a registry differs from a key that is
unused or holds a registry. -/
theorem key_ne_of_registry {st : Store} {k1 k2 : String} {d1 : Doc}
    (h1 : st k1 = some d1) (h2 : ∀ d, st k2 = some d → ∃ l, d = Doc.strings l)
    (hd : ∀ l, d1 ≠ Doc.strings l) : k1 ≠ k2 := by
  intro h
  rw [h] at h1
  obtain ⟨l, hl⟩ := h2 d1 h1
  exact hd l hl

/-- The store `approveTransaction` leaves, key by key, in a ledger where the
transaction, its parties and its asset are stored as such under their own ids
and the key of the pending registry is unused or holds a registry. -/
theorem approveTransaction_store (E : Env) (st : Store) (fn txId : String) (tx : Transaction)
    (buyer seller : Owner) (asset : Asset)
    (htx : st txId = some (Doc.transaction tx)) (htid : tx.Id = txId)
    (hstat : tx.Status = "Pending")
    (hb : st tx.BuyerId = some (Doc.owner buyer)) (hbid : buyer.OwnerId = tx.BuyerId)
    (hs : st tx.SellerId = some (Doc.owner seller)) (hsid : seller.OwnerId = tx.SellerId)
    (ha : st tx.AssetId = some (Doc.asset asset)) (haid : asset.Id = tx.AssetId)
    (hreg : ∀ d, st PRIMARYKEY3 = some d → ∃ l, d = Doc.strings l) :
    (approveTransaction E st fn [txId]).err = none ∧
    (∀ k, k ≠ PRIMARYKEY3 → (approveTransaction E st fn [txId]).store k =
      if k = txId then some (Doc.transaction { tx with Status := "Approved" })
      else if k = tx.AssetId then
        some (Doc.asset
          ((asset.addOwner tx.BuyerId tx.Quantity).removeOwner tx.SellerId tx.Quantity true))
      else if k = tx.SellerId then
        some (Doc.owner
          (seller.approveSellTransaction E asset (E.mulFloat tx.Price (E.floatOfInt tx.Quantity)) tx.Quantity))
      else if k = tx.BuyerId then
        some (Doc.owner (buyer.approveBuyTransaction E tx.AssetId (E.mulFloat tx.Price (E.floatOfInt tx.Quantity))))
      else st k) ∧
    (∀ pending, st PRIMARYKEY3 = some (Doc.strings pending) →
      (approveTransaction E st fn [txId]).store PRIMARYKEY3 =
        some (Doc.strings (DeleteElementFromSlice pending txId))) := by
  have k1 : PRIMARYKEY3 ≠ txId := (key_ne_of_registry htx hreg (by simp)).symm
  have k2 : PRIMARYKEY3 ≠ tx.AssetId := (key_ne_of_registry ha hreg (by simp)).symm
  have k3 : PRIMARYKEY3 ≠ tx.SellerId := (key_ne_of_registry hs hreg (by simp)).symm
  have k4 : PRIMARYKEY3 ≠ tx.BuyerId := (key_ne_of_registry hb hreg (by simp)).symm
  have happ := Transaction.approve_of_loaded E st tx buyer seller asset hstat
    (getOwner_of_doc E st _ buyer hb) (getOwner_of_doc E st _ seller hs)
    (getAsset_of_doc E st _ asset ha)
  unfold approveTransaction
  simp only [getTransaction_of_doc E st txId tx htx, happ]
  refine ⟨trivial, fun k hk => ?_, fun pending hpend => ?_⟩
  · simp [Transaction.removeFromPendingLedger, saveLedger, Transaction.save, Asset.save,
      Owner.save, PutState, htid, haid, hsid, hbid, hk]
  · have hread : getDataArrayStrings E
        (Transaction.save { tx with Status := "Approved" }
          (((asset.addOwner tx.BuyerId tx.Quantity).removeOwner tx.SellerId tx.Quantity true).save
            ((seller.approveSellTransaction E asset (E.mulFloat tx.Price (E.floatOfInt tx.Quantity)) tx.Quantity).save
              ((buyer.approveBuyTransaction E tx.AssetId
                (E.mulFloat tx.Price (E.floatOfInt tx.Quantity))).save st))))
        PRIMARYKEY3 [] = Except.ok pending := by
      apply getDataArrayStrings_of_doc
      simp [Transaction.save, Asset.save, Owner.save, PutState, htid, haid, hsid, hbid, k1, k2,
        k3, k4, hpend]
    simp only [Transaction.removeFromPendingLedger, hread]
    simp [saveLedger, PutState, htid]

theorem Owner.approveBuyTransaction_EscrowBalance (E : Env) (o : Owner) (a : String) (x : ℚ) :
    (o.approveBuyTransaction E a x).EscrowBalance = E.subFloat o.EscrowBalance x := by
  simp [Owner.approveBuyTransaction]

theorem Owner.approveBuyTransaction_Balance (E : Env) (o : Owner) (a : String) (x : ℚ) :
    (o.approveBuyTransaction E a x).Balance = o.Balance := by
  simp [Owner.approveBuyTransaction]

theorem Owner.approveBuyTransaction_Assets (E : Env) (o : Owner) (a : String) (x : ℚ) :
    a ∈ (o.approveBuyTransaction E a x).Assets := by
  unfold Owner.approveBuyTransaction
  exact Owner.mem_addAsset o a

theorem Owner.approveSellTransaction_Balance (E : Env) (o : Owner) (a : Asset) (x : ℚ) (q : Int) :
    (o.approveSellTransaction E a x q).Balance = E.addFloat o.Balance x := by
  unfold Owner.approveSellTransaction
  simp only []
  split <;> rfl

/-! ## Scenario B continued: approval of the escrowed trade -/

/-- C7, as stated, fails: after the escrowed trade of 10 of `ACME`'s 100 units
is approved, the holder record `GOLD.ownedBy[ACME]` is still there, with
quantity 90 and escrow 0, and `ACME` is still among the owners. -/
theorem scenarioB_seller_record_kept :
    (approveTransaction (scenarioEnv 0) storeBPending "approveTransaction" [scenarioTxId]).err =
      none ∧
    ∃ a, storeBApproved "GOLD" = some (Doc.asset a) ∧
      a.OwnedBy "ACME" = some ⟨"ACME", 90, 0⟩ ∧ a.OwnedBy "ACME" ≠ none ∧ "ACME" ∈ a.Owners :=
  ⟨by with_unfolding_all rfl, _, by with_unfolding_all rfl, by with_unfolding_all rfl,
    by with_unfolding_all decide, by with_unfolding_all decide⟩

/-- C7, amended: starting from asset `GOLD` (issuer `ACME`, issued quantity 100,
price 10.0, approval trigger with threshold 5) and validated buyer `BOB` with
balance 500, the trade of 10 units is escrowed and, once approved, `BOB.Assets`
contains `GOLD`, `BOB.EscrowBalance = 0`, `ACME.Balance` has increased by 100,
`GOLD.ownedBy[BOB]` holds 10, the holder record `GOLD.ownedBy[ACME]` is kept
with quantity 90 and escrow 0 (`ACME` remains among the owners), and the
transaction status is `Approved`. -/
theorem scenarioB_after_approval :
    (transactAsset (scenarioEnv 0) storeB "transactAsset" scenarioArgs).err = none ∧
    (approveTransaction (scenarioEnv 0) storeBPending "approveTransaction" [scenarioTxId]).err =
      none ∧
    (∃ b, storeBApproved "BOB" = some (Doc.owner b) ∧ "GOLD" ∈ b.Assets ∧
      b.EscrowBalance = 0 ∧ b.Balance = 400) ∧
    (∃ s, storeBApproved "ACME" = some (Doc.owner s) ∧ s.Balance = acme.Balance + 100) ∧
    (∃ a, storeBApproved "GOLD" = some (Doc.asset a) ∧
      a.OwnedBy "BOB" = some ⟨"BOB", 10, 0⟩ ∧
      a.OwnedBy "ACME" = some ⟨"ACME", 90, 0⟩ ∧ a.Owners = ["ACME", "BOB"]) ∧
    storeBApproved scenarioTxId = some (Doc.transaction (scenarioTx "Approved")) :=
  ⟨by with_unfolding_all rfl, by with_unfolding_all rfl,
    ⟨_, by with_unfolding_all rfl, by with_unfolding_all decide, by with_unfolding_all rfl,
      by with_unfolding_all rfl⟩,
    ⟨_, by with_unfolding_all rfl, by with_unfolding_all rfl⟩,
    ⟨_, by with_unfolding_all rfl, by with_unfolding_all rfl, by with_unfolding_all rfl,
      by with_unfolding_all rfl⟩,
    by with_unfolding_all rfl⟩

/-! ## Decline -/

/-- C8 at the scenario: declining the escrowed trade restores `BOB`'s balance
(500) and escrow balance (0) and `GOLD.Quantity` (100) and stores status
`Declined`, but the holder record of `ACME` becomes quantity 80, escrow 20
where it was quantity 100, escrow 0 before the trade. -/
theorem scenarioC_seller_record_after_decline :
    (declineTransaction (scenarioEnv 0) storeBPending "declineTransaction" [scenarioTxId]).err =
      none ∧
    (∃ b, storeCDeclined "BOB" = some (Doc.owner b) ∧ b.Balance = 500 ∧ b.EscrowBalance = 0) ∧
    (∃ a, storeCDeclined "GOLD" = some (Doc.asset a) ∧ a.Quantity = 100 ∧
      a.OwnedBy "ACME" = some ⟨"ACME", 80, 20⟩ ∧
      (gold ⟨true, 5⟩).OwnedBy "ACME" = some ⟨"ACME", 100, 0⟩) ∧
    storeCDeclined scenarioTxId = some (Doc.transaction (scenarioTx "Declined")) :=
  ⟨by with_unfolding_all rfl,
    ⟨_, by with_unfolding_all rfl, by with_unfolding_all rfl, by with_unfolding_all rfl⟩,
    ⟨_, by with_unfolding_all rfl, by with_unfolding_all rfl, by with_unfolding_all rfl,
      by with_unfolding_all rfl⟩,
    by with_unfolding_all rfl⟩

/-- C9 at a concrete holder: on a record with quantity 90 and escrow 10,
`rollbackTransaction` of 10 leaves quantity 80 and escrow 20, the result of
`escrowOwner` with +10, where the reversal `escrowOwner` with -10 gives quantity
100 and escrow 0; the issuer's `asset.Quantity` does go from 90 to 100. -/
theorem rollbackTransaction_escrows_again :
    (escrowAsset (gold ⟨true, 5⟩) "ACME" 10).OwnedBy "ACME" = some ⟨"ACME", 90, 10⟩ ∧
    ((escrowAsset (gold ⟨true, 5⟩) "ACME" 10).rollbackTransaction "ACME" 10).OwnedBy "ACME" =
      some ⟨"ACME", 80, 20⟩ ∧
    ((escrowAsset (gold ⟨true, 5⟩) "ACME" 10).escrowOwner "ACME" (-10)).OwnedBy "ACME" =
      some ⟨"ACME", 100, 0⟩ ∧
    (escrowAsset (gold ⟨true, 5⟩) "ACME" 10).Quantity = 90 ∧
    ((escrowAsset (gold ⟨true, 5⟩) "ACME" 10).rollbackTransaction "ACME" 10).Quantity = 100 :=
  ⟨by with_unfolding_all rfl, by with_unfolding_all rfl, by with_unfolding_all rfl,
    by with_unfolding_all rfl, by with_unfolding_all rfl⟩

/-- C10: for a stored transaction whose status is not `Pending`,
`approveTransaction` and `declineTransaction` both return an error and leave the
ledger store unchanged. -/
theorem settlement_of_nonPending_rejected (E : Env) (st : Store) (fn1 fn2 txId : String)
    (tx : Transaction) (htx : getTransaction E st [txId] = Except.ok tx)
    (hstat : tx.Status ≠ "Pending") :
    (approveTransaction E st fn1 [txId]).err ≠ none ∧
    (approveTransaction E st fn1 [txId]).store = st ∧
    (declineTransaction E st fn2 [txId]).err ≠ none ∧
    (declineTransaction E st fn2 [txId]).store = st := by
  have happ : tx.approve E st = ⟨some (Err.nonPending tx.Id), tx, st⟩ := by
    unfold Transaction.approve
    simp only [ne_eq, hstat, not_false_eq_true, if_true]
  have hroll : tx.rollback E st = ⟨some (Err.nonPending tx.Id), tx, st⟩ := by
    unfold Transaction.rollback
    simp only [ne_eq, hstat, not_false_eq_true, if_true]
  unfold approveTransaction declineTransaction
  simp only [htx, happ, hroll]
  simp

theorem settlement_of_nonPending_rejected_witness :
    (approveTransaction (scenarioEnv 0) storeBApproved "approveTransaction"
      [scenarioTxId]).err ≠ none ∧
    (approveTransaction (scenarioEnv 0) storeBApproved "approveTransaction"
      [scenarioTxId]).store = storeBApproved ∧
    (declineTransaction (scenarioEnv 0) storeBApproved "declineTransaction"
      [scenarioTxId]).err ≠ none ∧
    (declineTransaction (scenarioEnv 0) storeBApproved "declineTransaction"
      [scenarioTxId]).store = storeBApproved :=
  settlement_of_nonPending_rejected (scenarioEnv 0) storeBApproved "approveTransaction"
    "declineTransaction" scenarioTxId (scenarioTx "Approved") (by with_unfolding_all rfl)
    (by decide)

/-! ## Creation: rejection before any write -/

/-- `assignAssetToOwner` returns no error. -/
theorem assignAssetToOwner_err (st : Store) (assetId : String) (owner : Owner) (isIssuer : Bool) :
    (assignAssetToOwner st assetId owner isIssuer).err = none := rfl

/-- Every error of `addOwner` is returned before the first write. -/
theorem addOwner_store_of_err (E : Env) (st : Store) (fn : String) (args : List String)
    (h : (addOwner E st fn args).err ≠ none) : (addOwner E st fn args).store = st := by
  unfold addOwner at h ⊢
  split
  · rename_i ownerId arg1 arg2 arg3 arg4 arg5
    cases hl : getDataArrayStrings E st PRIMARYKEY0 [] with
    | error e => rfl
    | ok ownersLedger =>
      by_cases hex : IsElementInSlice ownersLedger ownerId = false
      · cases hc : createOwner E [ownerId, arg1, arg2, arg3, arg4, arg5] with
        | error e => simp [hex, hc]
        | ok newOwner => simp [hl, hex, hc] at h
      · simp [hex]
  · rfl

/-- Every error of `addAssetString` is returned before the first write. -/
theorem addAssetString_store_of_err (E : Env) (st : Store) (fn : String) (args : List String)
    (h : (addAssetString E st fn args).err ≠ none) : (addAssetString E st fn args).store = st := by
  unfold addAssetString at h ⊢
  split
  · rename_i assetId arg1 issuerId arg3 arg4 arg5 arg6 arg7 arg8 arg9
    cases ho : getOwner E st [issuerId] with
    | error e => rfl
    | ok issuer =>
      by_cases hv : issuer.Validated = false
      · simp [hv]
      · cases hl : getDataArrayStrings E st PRIMARYKEY1 [] with
        | error e => simp [hv]
        | ok assetsLedger =>
          by_cases hex : IsElementInSlice assetsLedger assetId = false
          · cases hc : createAsset E
                [assetId, arg1, issuerId, arg3, arg4, arg5, arg6, arg7, arg8, arg9] with
            | error e => simp [hv, hex, hc]
            | ok newAsset => simp [ho, hv, hl, hex, hc, assignAssetToOwner_err] at h
          · simp [hv, hex]
  · rfl

/-- C18: `addOwner` with an owner id already in the `Owners` registry, and
`addAssetString` with an asset id already in the `Assets` registry, return an
error and leave the ledger store unchanged. -/
theorem duplicate_id_rejected (E : Env) (st : Store) (fn : String) :
    (∀ ownerId arg1 arg2 arg3 arg4 arg5 ledger,
      getDataArrayStrings E st PRIMARYKEY0 [] = Except.ok ledger → ownerId ∈ ledger →
      (addOwner E st fn [ownerId, arg1, arg2, arg3, arg4, arg5]).err ≠ none ∧
      (addOwner E st fn [ownerId, arg1, arg2, arg3, arg4, arg5]).store = st) ∧
    (∀ assetId arg1 issuerId arg3 arg4 arg5 arg6 arg7 arg8 arg9 ledger,
      getDataArrayStrings E st PRIMARYKEY1 [] = Except.ok ledger → assetId ∈ ledger →
      (addAssetString E st fn
        [assetId, arg1, issuerId, arg3, arg4, arg5, arg6, arg7, arg8, arg9]).err ≠ none ∧
      (addAssetString E st fn
        [assetId, arg1, issuerId, arg3, arg4, arg5, arg6, arg7, arg8, arg9]).store = st) := by
  constructor
  · intro ownerId arg1 arg2 arg3 arg4 arg5 ledger hl hmem
    have herr : (addOwner E st fn [ownerId, arg1, arg2, arg3, arg4, arg5]).err ≠ none := by
      have hex : IsElementInSlice ledger ownerId = true := (IsElementInSlice_iff _ _).mpr hmem
      simp [addOwner, hl, hex]
    exact ⟨herr, addOwner_store_of_err E st fn _ herr⟩
  · intro assetId arg1 issuerId arg3 arg4 arg5 arg6 arg7 arg8 arg9 ledger hl hmem
    have herr : (addAssetString E st fn
        [assetId, arg1, issuerId, arg3, arg4, arg5, arg6, arg7, arg8, arg9]).err ≠ none := by
      have hex : IsElementInSlice ledger assetId = true := (IsElementInSlice_iff _ _).mpr hmem
      unfold addAssetString
      cases ho : getOwner E st [issuerId] with
      | error e => simp [ho]
      | ok issuer =>
        by_cases hv : issuer.Validated = false
        · simp [ho, hv]
        · simp [ho, hv, hl, hex]
    exact ⟨herr, addAssetString_store_of_err E st fn _ herr⟩

theorem duplicate_id_rejected_witness :
    (addOwner (scenarioEnv 0) storeA "addOwner" ["BOB", "Bob", "7", "", "", ""]).err ≠ none ∧
    (addOwner (scenarioEnv 0) storeA "addOwner" ["BOB", "Bob", "7", "", "", ""]).store = storeA ∧
    (addAssetString (scenarioEnv 0) storeA "addAssetString"
      ["GOLD", "Gold", "ACME", "5", "1.0", "", "", "false", "0", ""]).err ≠ none ∧
    (addAssetString (scenarioEnv 0) storeA "addAssetString"
      ["GOLD", "Gold", "ACME", "5", "1.0", "", "", "false", "0", ""]).store = storeA :=
  ⟨((duplicate_id_rejected (scenarioEnv 0) storeA "addOwner").1 "BOB" "Bob" "7" "" "" ""
      ["ACME", "BOB"] rfl (by decide)).1,
    ((duplicate_id_rejected (scenarioEnv 0) storeA "addOwner").1 "BOB" "Bob" "7" "" "" ""
      ["ACME", "BOB"] rfl (by decide)).2,
    ((duplicate_id_rejected (scenarioEnv 0) storeA "addAssetString").2 "GOLD" "Gold" "ACME" "5"
      "1.0" "" "" "false" "0" "" ["GOLD"] rfl (by decide)).1,
    ((duplicate_id_rejected (scenarioEnv 0) storeA "addAssetString").2 "GOLD" "Gold" "ACME" "5"
      "1.0" "" "" "false" "0" "" ["GOLD"] rfl (by decide)).2⟩

/-- C19: `addAssetString` whose issuer id has no stored document, cannot be
loaded as an owner, or is an owner with `Validated = false`, returns an error
and writes nothing. -/
theorem issuer_must_exist_and_be_validated (E : Env) (st : Store) (fn : String)
    (assetId arg1 issuerId arg3 arg4 arg5 arg6 arg7 arg8 arg9 : String) :
    (st issuerId = none →
      (addAssetString E st fn
        [assetId, arg1, issuerId, arg3, arg4, arg5, arg6, arg7, arg8, arg9]).err ≠ none ∧
      (addAssetString E st fn
        [assetId, arg1, issuerId, arg3, arg4, arg5, arg6, arg7, arg8, arg9]).store = st) ∧
    (∀ e, getOwner E st [issuerId] = Except.error e →
      (addAssetString E st fn
        [assetId, arg1, issuerId, arg3, arg4, arg5, arg6, arg7, arg8, arg9]).err ≠ none ∧
      (addAssetString E st fn
        [assetId, arg1, issuerId, arg3, arg4, arg5, arg6, arg7, arg8, arg9]).store = st) ∧
    (∀ issuer, getOwner E st [issuerId] = Except.ok issuer → issuer.Validated = false →
      (addAssetString E st fn
        [assetId, arg1, issuerId, arg3, arg4, arg5, arg6, arg7, arg8, arg9]).err ≠ none ∧
      (addAssetString E st fn
        [assetId, arg1, issuerId, arg3, arg4, arg5, arg6, arg7, arg8, arg9]).store = st) := by
  have hload : ∀ e, getOwner E st [issuerId] = Except.error e →
      (addAssetString E st fn
        [assetId, arg1, issuerId, arg3, arg4, arg5, arg6, arg7, arg8, arg9]).err ≠ none := by
    intro e he
    simp [addAssetString, he]
  refine ⟨fun hnone => ?_, fun e he => ?_, fun issuer ho hv => ?_⟩
  · have he : getOwner E st [issuerId] = Except.error (Err.stateMissing issuerId "getOwner") := by
      simp [getOwner, hnone]
    exact ⟨hload _ he, addAssetString_store_of_err E st fn _ (hload _ he)⟩
  · exact ⟨hload e he, addAssetString_store_of_err E st fn _ (hload e he)⟩
  · have herr : (addAssetString E st fn
        [assetId, arg1, issuerId, arg3, arg4, arg5, arg6, arg7, arg8, arg9]).err ≠ none := by
      simp [addAssetString, ho, hv]
    exact ⟨herr, addAssetString_store_of_err E st fn _ herr⟩

theorem issuer_must_exist_and_be_validated_witness :
    ((addAssetString (scenarioEnv 0) storeA "addAssetString"
        ["SILVER", "Silver", "DAVE", "5", "1.0", "", "", "false", "0", ""]).err ≠ none ∧
      (addAssetString (scenarioEnv 0) storeA "addAssetString"
        ["SILVER", "Silver", "DAVE", "5", "1.0", "", "", "false", "0", ""]).store = storeA) ∧
    ((addAssetString (scenarioEnv 0) storeCarol "addAssetString"
        ["SILVER", "Silver", "CAROL", "5", "1.0", "", "", "false", "0", ""]).err ≠ none ∧
      (addAssetString (scenarioEnv 0) storeCarol "addAssetString"
        ["SILVER", "Silver", "CAROL", "5", "1.0", "", "", "false", "0", ""]).store = storeCarol) :=
  ⟨(issuer_must_exist_and_be_validated (scenarioEnv 0) storeA "addAssetString"
      "SILVER" "Silver" "DAVE" "5" "1.0" "" "" "false" "0" "").1 rfl,
    (issuer_must_exist_and_be_validated (scenarioEnv 0) storeCarol "addAssetString"
      "SILVER" "Silver" "CAROL" "5" "1.0" "" "" "false" "0" "").2.2 carol
      (by with_unfolding_all rfl) rfl⟩

/-! ## A freshly created asset -/

/-- C20: for every 10-argument list that parses, `createAsset` returns an asset
with `Quantity = IssuedQty =` the given quantity, `Owners = [issuer]`,
`OwnedBy = {issuer: (Quantity = given quantity, EscrowQty = 0)}` and an empty
contract; hence `Owners` (without duplicates) equals the key set of `OwnedBy`,
and the sum of `Quantity + EscrowQty` over holders equals `IssuedQty`. -/
theorem createAsset_wholly_owned (E : Env)
    (arg0 arg1 arg2 arg3 arg4 arg5 arg6 arg7 arg8 arg9 : String)
    (quantity : Int) (price : ℚ) (approval : Bool) (approvalQty : Int)
    (h3 : E.Atoi arg3 = some quantity) (h4 : E.ParseFloat arg4 = some price)
    (h7 : E.ParseBool arg7 = some approval) (h8 : E.Atoi arg8 = some approvalQty) :
    ∃ a, createAsset E [arg0, arg1, arg2, arg3, arg4, arg5, arg6, arg7, arg8, arg9] =
        Except.ok a ∧
      a.Id = arg0 ∧ a.Issuer = arg2 ∧ a.Price = price ∧
      a.Quantity = quantity ∧ a.IssuedQty = quantity ∧ a.Owners = [arg2] ∧
      a.OwnedBy arg2 = some { OwnerId := arg2, Quantity := quantity, EscrowQty := 0 } ∧
      (∀ k, k ≠ arg2 → a.OwnedBy k = none) ∧
      a.Contract = { URL := "", Keys := [], Condition := "", Value := "", Discount := 0 } ∧
      a.Owners.Nodup ∧ a.OwnersMatch ∧ HoldersSum a a.IssuedQty := by
  refine ⟨
    { Id := arg0, Name := arg1, Information := { Description := arg5, Logo := arg6 },
      Tag := arg9, Quantity := quantity, Price := price, Issuer := arg2, IssuedTS := E.Now,
      IssuedQty := quantity, Owners := [arg2],
      OwnedBy := fun k =>
        if k = arg2 then some { OwnerId := arg2, Quantity := quantity, EscrowQty := 0 }
        else none,
      Triggers := { Approval := approval, ApprovalQty := approvalQty },
      Contract := { URL := "", Keys := [], Condition := "", Value := "", Discount := 0 } },
    by simp only [createAsset, h3, h4, h7, h8], rfl, rfl, rfl, rfl, rfl, rfl, ?_, ?_,
    rfl, ?_, ?_, ?_⟩
  · simp
  · intro k hk
    simp [hk]
  · simp
  · intro k
    by_cases hk : k = arg2
    · simp [hk]
    · simp [hk]
  · refine ⟨{arg2}, fun k => ?_, ?_⟩
    · by_cases hk : k = arg2
      · simp [hk]
      · simp [hk]
    · simp [Asset.held, Asset.ownedBy]

theorem createAsset_wholly_owned_witness :
    ∃ a, createAsset (scenarioEnv 0)
        ["GOLD", "Gold", "ACME", "100", "10.0", "", "", "false", "0", ""] = Except.ok a ∧
      a.Id = "GOLD" ∧ a.Issuer = "ACME" ∧ a.Price = 10 ∧
      a.Quantity = 100 ∧ a.IssuedQty = 100 ∧ a.Owners = ["ACME"] ∧
      a.OwnedBy "ACME" = some { OwnerId := "ACME", Quantity := 100, EscrowQty := 0 } ∧
      (∀ k, k ≠ "ACME" → a.OwnedBy k = none) ∧
      a.Contract = { URL := "", Keys := [], Condition := "", Value := "", Discount := 0 } ∧
      a.Owners.Nodup ∧ a.OwnersMatch ∧ HoldersSum a a.IssuedQty :=
  createAsset_wholly_owned (scenarioEnv 0) "GOLD" "Gold" "ACME" "100" "10.0" "" "" "false" "0" ""
    100 10 false 0 (by decide) (by with_unfolding_all rfl) (by decide) (by decide)

/-! ## Price fixing: failure aborts the trade -/

/-- When the fixing block succeeds on an asset with a contract URL, both the
contract value and the fetched fixing parsed, and the transaction carries the
fixing, the discount the condition grants and the discounted price. -/
theorem apiFixing_ok_inv (E : Env) (asset : Asset) (tx0 tx : Transaction) (price : ℚ)
    (hurl : asset.Contract.URL ≠ "") (h : apiFixing E asset tx0 price = Except.ok tx) :
    ∃ val fix, E.ParseFloat asset.Contract.Value = some val ∧
      E.ParseFloat (GetEndpoint E asset.Contract.URL asset.Contract.Keys) = some fix ∧
      tx.Discount = (contractDiscount asset
        { tx0 with APIFixing := GetEndpoint E asset.Contract.URL asset.Contract.Keys }
        fix val).Discount ∧
      tx.Price = E.mulFloat price (E.subFloat 1 (E.divFloat tx.Discount 100)) := by
  unfold apiFixing at h
  cases hv : E.ParseFloat asset.Contract.Value with
  | none => simp [hurl, hv] at h
  | some val =>
    cases hx : E.ParseFloat (GetEndpoint E asset.Contract.URL asset.Contract.Keys) with
    | none => simp [hurl, hv, hx] at h
    | some fix =>
      simp only [hurl, hv, hx, ne_eq, not_false_eq_true, if_true, Except.ok.injEq] at h
      subst h
      exact ⟨val, fix, rfl, rfl, rfl, rfl⟩

/-- C16: for a trade on an asset with a non-empty contract URL, if the
contract's comparison value or the fetched fixing does not parse as a float,
`transactAsset` returns an error and the ledger store is unchanged. -/
theorem transactAsset_fixing_failure (E : Env) (st : Store) (fn : String)
    (assetId sellerId buyerId arg3 arg4 arg5 : String) (asset : Asset)
    (ha : getAsset E st [assetId] = Except.ok asset)
    (hurl : asset.Contract.URL ≠ "")
    (hfail : E.ParseFloat asset.Contract.Value = none ∨
      E.ParseFloat (GetEndpoint E asset.Contract.URL asset.Contract.Keys) = none) :
    (transactAsset E st fn [assetId, sellerId, buyerId, arg3, arg4, arg5]).err ≠ none ∧
    (transactAsset E st fn [assetId, sellerId, buyerId, arg3, arg4, arg5]).store = st := by
  have herr : (transactAsset E st fn [assetId, sellerId, buyerId, arg3, arg4, arg5]).err ≠
      none := by
    intro hsucc
    obtain ⟨q, p, a2, s2, b2, tx0, l2, tx, _, _, ha2, _, _, _, _, _, hf, _⟩ :=
      transactAsset_ok_inv E st fn assetId sellerId buyerId arg3 arg4 arg5 hsucc
    rw [ha] at ha2
    cases ha2
    obtain ⟨val, fix, hv, hx, _⟩ := apiFixing_ok_inv E asset tx0 tx p hurl hf
    rcases hfail with h | h
    · rw [h] at hv
      cases hv
    · rw [h] at hx
      cases hx
  exact ⟨herr, transactAsset_store_of_err E st fn _ herr⟩

theorem transactAsset_fixing_failure_witness :
    (transactAsset (scenarioEnv 0) storeContract "transactAsset" scenarioArgs).err ≠ none ∧
    (transactAsset (scenarioEnv 0) storeContract "transactAsset" scenarioArgs).store =
      storeContract :=
  transactAsset_fixing_failure (scenarioEnv 0) storeContract "transactAsset"
    "GOLD" "ACME" "BOB" "10" "10.0" "FALSE" goldContract rfl (by decide)
    (Or.inr (by with_unfolding_all rfl))

/-! ## Terminal states -/

/-- When `approve` returns no error the receiver was pending and is now
`Approved`. -/
theorem Transaction.approve_ok (E : Env) (st : Store) (tx : Transaction)
    (h : (tx.approve E st).err = none) :
    tx.Status = "Pending" ∧ (tx.approve E st).tx = { tx with Status := "Approved" } := by
  unfold Transaction.approve at h ⊢
  by_cases hs : tx.Status = "Pending"
  · cases hb : getOwner E st [tx.BuyerId] with
    | error e => simp [hs, hb] at h
    | ok buyer =>
      cases hse : getOwner E st [tx.SellerId] with
      | error e => simp [hs, hb, hse] at h
      | ok seller =>
        cases ha : getAsset E st [tx.AssetId] with
        | error e => simp [hs, hb, hse, ha] at h
        | ok asset => simp [hs, hb, hse, ha]
  · simp [hs] at h

/-- When `rollback` returns no error the receiver was pending and is now
`Declined`. -/
theorem Transaction.rollback_ok (E : Env) (st : Store) (tx : Transaction)
    (h : (tx.rollback E st).err = none) :
    tx.Status = "Pending" ∧ (tx.rollback E st).tx = { tx with Status := "Declined" } := by
  unfold Transaction.rollback at h ⊢
  by_cases hs : tx.Status = "Pending"
  · cases hb : getOwner E st [tx.BuyerId] with
    | error e => simp [hs, hb] at h
    | ok buyer =>
      cases ha : getAsset E
          ((buyer.rollbackBuyTransaction E (E.mulFloat tx.Price (E.floatOfInt tx.Quantity))).save st)
          [tx.AssetId] with
      | error e => simp [hs, hb, ha] at h
      | ok asset => simp [hs, hb, ha]
  · simp [hs] at h

/-- The run of `approveTransaction` in terms of `approve`. -/
theorem approveTransaction_of_loaded (E : Env) (st : Store) (fn txId : String)
    (tx : Transaction) (htx : getTransaction E st [txId] = Except.ok tx) :
    approveTransaction E st fn [txId] =
      match (tx.approve E st).err with
      | some e => ⟨some e, (tx.approve E st).store⟩
      | none =>
        ⟨none, (tx.approve E st).tx.removeFromPendingLedger E
          ((tx.approve E st).tx.save (tx.approve E st).store)⟩ := by
  unfold approveTransaction
  simp only [htx]
  cases hr : tx.approve E st with
  | mk err tx2 st2 =>
    cases err <;> rfl

/-- The run of `declineTransaction` in terms of `rollback`. -/
theorem declineTransaction_of_loaded (E : Env) (st : Store) (fn txId : String)
    (tx : Transaction) (htx : getTransaction E st [txId] = Except.ok tx) :
    declineTransaction E st fn [txId] =
      match (tx.rollback E st).err with
      | some e => ⟨some e, (tx.rollback E st).store⟩
      | none =>
        ⟨none, (tx.rollback E st).tx.removeFromPendingLedger E
          ((tx.rollback E st).tx.save (tx.rollback E st).store)⟩ := by
  unfold declineTransaction
  simp only [htx]
  cases hr : tx.rollback E st with
  | mk err tx2 st2 =>
    cases err <;> rfl

/-- The store after `removeFromPendingLedger` away from the registry key. -/
theorem removeFromPendingLedger_other (E : Env) (st : Store) (tx : Transaction) (k : String)
    (hk : k ≠ PRIMARYKEY3) : tx.removeFromPendingLedger E st k = st k := by
  simp [Transaction.removeFromPendingLedger, saveLedger, PutState, hk]

/-- A successful `approveTransaction` stores the transaction as `Approved`. -/
theorem approveTransaction_stored_status (E : Env) (st : Store) (fn txId : String)
    (tx : Transaction) (htx : getTransaction E st [txId] = Except.ok tx) (htid : tx.Id = txId)
    (hkey : txId ≠ PRIMARYKEY3) (hsucc : (approveTransaction E st fn [txId]).err = none) :
    (approveTransaction E st fn [txId]).store txId =
      some (Doc.transaction { tx with Status := "Approved" }) := by
  rw [approveTransaction_of_loaded E st fn txId tx htx] at hsucc ⊢
  cases herr : (tx.approve E st).err with
  | some e => simp [herr] at hsucc
  | none =>
    obtain ⟨_, htx2⟩ := Transaction.approve_ok E st tx herr
    simp only [herr]
    rw [removeFromPendingLedger_other _ _ _ _ hkey, htx2]
    simp [Transaction.save, PutState, htid]

/-- A successful `declineTransaction` stores the transaction as `Declined`. -/
theorem declineTransaction_stored_status (E : Env) (st : Store) (fn txId : String)
    (tx : Transaction) (htx : getTransaction E st [txId] = Except.ok tx) (htid : tx.Id = txId)
    (hkey : txId ≠ PRIMARYKEY3) (hsucc : (declineTransaction E st fn [txId]).err = none) :
    (declineTransaction E st fn [txId]).store txId =
      some (Doc.transaction { tx with Status := "Declined" }) := by
  rw [declineTransaction_of_loaded E st fn txId tx htx] at hsucc ⊢
  cases herr : (tx.rollback E st).err with
  | some e => simp [herr] at hsucc
  | none =>
    obtain ⟨_, htx2⟩ := Transaction.rollback_ok E st tx herr
    simp only [herr]
    rw [removeFromPendingLedger_other _ _ _ _ hkey, htx2]
    simp [Transaction.save, PutState, htid]

/-- A settlement call on a transaction that is not pending returns an error and
leaves the store as it was. -/
theorem runSettleCall_nonPending (E : Env) (st : Store) (txId : String) (tx : Transaction)
    (htx : getTransaction E st [txId] = Except.ok tx) (hstat : tx.Status ≠ "Pending")
    (c : SettleCall) :
    (runSettleCall E st txId c).err ≠ none ∧ (runSettleCall E st txId c).store = st := by
  cases c with
  | approve =>
    have hne : (tx.approve E st).err ≠ none := fun h => hstat (Transaction.approve_ok E st tx h).1
    have hst : (tx.approve E st).store = st := by
      unfold Transaction.approve
      simp [hstat]
    simp only [runSettleCall]
    rw [approveTransaction_of_loaded E st _ txId tx htx]
    cases herr : (tx.approve E st).err with
    | none => exact absurd herr hne
    | some e => exact ⟨by simp, hst⟩
  | decline =>
    have hne : (tx.rollback E st).err ≠ none :=
      fun h => hstat (Transaction.rollback_ok E st tx h).1
    have hst : (tx.rollback E st).store = st := by
      unfold Transaction.rollback
      simp [hstat]
    simp only [runSettleCall]
    rw [declineTransaction_of_loaded E st _ txId tx htx]
    cases herr : (tx.rollback E st).err with
    | none => exact absurd herr hne
    | some e => exact ⟨by simp, hst⟩

/-- No sequence of settlement calls on a transaction that is not pending
succeeds or changes the store. -/
theorem runSettleCalls_nonPending (E : Env) (st : Store) (txId : String) (tx : Transaction)
    (htx : getTransaction E st [txId] = Except.ok tx) (hstat : tx.Status ≠ "Pending")
    (calls : List SettleCall) :
    (∀ e ∈ (runSettleCalls E txId st calls).1, e ≠ none) ∧
      (runSettleCalls E txId st calls).2 = st := by
  induction calls with
  | nil => simp [runSettleCalls]
  | cons c cs ih =>
    obtain ⟨herr, hst⟩ := runSettleCall_nonPending E st txId tx htx hstat c
    simp only [runSettleCalls, hst]
    refine ⟨fun e he => ?_, ih.2⟩
    rcases List.mem_cons.mp he with h | h
    · rw [h]
      exact herr
    · exact ih.1 e h

/-- A successful trade on the direct path stores its transaction as
`Validated`. -/
theorem transactAsset_direct_status (E : Env) (st : Store) (fn : String)
    (assetId sellerId buyerId arg3 arg4 arg5 : String) (quantity : Int) (asset : Asset)
    (hq : E.Atoi arg3 = some quantity)
    (ha : getAsset E st [assetId] = Except.ok asset)
    (hdirect : ¬ (arg5 = "TRUE" ∨
      (asset.Triggers.Approval = true ∧ quantity > asset.Triggers.ApprovalQty)))
    (hkey : newTransactionId E assetId sellerId buyerId E.Now ≠ PRIMARYKEY2)
    (hsucc : (transactAsset E st fn [assetId, sellerId, buyerId, arg3, arg4, arg5]).err = none) :
    ∃ t, (transactAsset E st fn [assetId, sellerId, buyerId, arg3, arg4, arg5]).store
          (newTransactionId E assetId sellerId buyerId E.Now) = some (Doc.transaction t) ∧
      t.Status = "Validated" := by
  obtain ⟨q2, price, a2, seller, buyer, tx0, ledger, tx, hq2, _, ha2, _, _, _, hc, hl, hf, heq⟩ :=
    transactAsset_ok_inv E st fn assetId sellerId buyerId arg3 arg4 arg5 hsucc
  rw [hq] at hq2
  cases hq2
  rw [ha] at ha2
  cases ha2
  obtain ⟨hid, _⟩ := trade_transaction_fields E asset quantity price assetId sellerId buyerId
    tx0 tx hc hf
  have hA : ¬ (if asset.Triggers.Approval = true ∧ quantity > asset.Triggers.ApprovalQty
      then "TRUE" else arg5) = "TRUE" :=
    fun h => hdirect ((approvalRequired_iff asset quantity arg5).mp h)
  rw [heq, settleTrade_direct E st asset seller buyer tx ledger assetId sellerId buyerId
    quantity _ _ hA]
  refine ⟨{ tx with Status := "Validated" }, ?_, rfl⟩
  rw [persistTrade_store]
  simp [hkey, hid]

/-- C11, terminal states are final: a successful `approveTransaction` stores
status `Approved`, a successful `declineTransaction` stores status `Declined`
and a successful direct trade stores status `Validated`; and once a
transaction's stored status is `Approved`, `Declined` or `Validated`, every
call in every sequence of `approveTransaction` / `declineTransaction` calls on
its id returns an error and the store, hence the stored status, stays as it
was.  The transaction sits under its own id, which is not a registry name. -/
theorem terminal_states_final (E : Env) (st : Store) (txId : String) (tx : Transaction)
    (htx : st txId = some (Doc.transaction tx)) (htid : tx.Id = txId)
    (hkey : txId ≠ PRIMARYKEY3) :
    (∀ fn, (approveTransaction E st fn [txId]).err = none →
      ∃ t, (approveTransaction E st fn [txId]).store txId = some (Doc.transaction t) ∧
        t.Status = "Approved") ∧
    (∀ fn, (declineTransaction E st fn [txId]).err = none →
      ∃ t, (declineTransaction E st fn [txId]).store txId = some (Doc.transaction t) ∧
        t.Status = "Declined") ∧
    (∀ st0 fn assetId sellerId buyerId arg3 arg4 arg5 quantity asset,
      E.Atoi arg3 = some quantity → getAsset E st0 [assetId] = Except.ok asset →
      ¬ (arg5 = "TRUE" ∨
        (asset.Triggers.Approval = true ∧ quantity > asset.Triggers.ApprovalQty)) →
      newTransactionId E assetId sellerId buyerId E.Now ≠ PRIMARYKEY2 →
      (transactAsset E st0 fn [assetId, sellerId, buyerId, arg3, arg4, arg5]).err = none →
      ∃ t, (transactAsset E st0 fn [assetId, sellerId, buyerId, arg3, arg4, arg5]).store
            (newTransactionId E assetId sellerId buyerId E.Now) = some (Doc.transaction t) ∧
        t.Status = "Validated") ∧
    ((tx.Status = "Approved" ∨ tx.Status = "Declined" ∨ tx.Status = "Validated") →
      ∀ calls : List SettleCall,
        (∀ e ∈ (runSettleCalls E txId st calls).1, e ≠ none) ∧
        (runSettleCalls E txId st calls).2 = st ∧
        (runSettleCalls E txId st calls).2 txId = some (Doc.transaction tx)) := by
  have hget := getTransaction_of_doc E st txId tx htx
  refine ⟨fun fn hs => ?_, fun fn hs => ?_, ?_, fun hterm calls => ?_⟩
  · exact ⟨_, approveTransaction_stored_status E st fn txId tx hget htid hkey hs, rfl⟩
  · exact ⟨_, declineTransaction_stored_status E st fn txId tx hget htid hkey hs, rfl⟩
  · intro st0 fn assetId sellerId buyerId arg3 arg4 arg5 quantity asset hq ha hdirect hk hs
    exact transactAsset_direct_status E st0 fn assetId sellerId buyerId arg3 arg4 arg5 quantity
      asset hq ha hdirect hk hs
  · have hstat : tx.Status ≠ "Pending" := by
      rcases hterm with h | h | h <;> rw [h] <;> decide
    obtain ⟨h1, h2⟩ := runSettleCalls_nonPending E st txId tx hget hstat calls
    exact ⟨h1, h2, by rw [h2]; exact htx⟩

theorem terminal_states_final_witness :
    (∃ t, (approveTransaction (scenarioEnv 0) storeBPending "approveTransaction"
        [scenarioTxId]).store scenarioTxId = some (Doc.transaction t) ∧ t.Status = "Approved") ∧
    (∀ e ∈ (runSettleCalls (scenarioEnv 0) scenarioTxId storeBApproved
        [SettleCall.approve, SettleCall.decline, SettleCall.approve]).1, e ≠ none) ∧
    (runSettleCalls (scenarioEnv 0) scenarioTxId storeBApproved
        [SettleCall.approve, SettleCall.decline, SettleCall.approve]).2 = storeBApproved ∧
    (runSettleCalls (scenarioEnv 0) scenarioTxId storeBApproved
        [SettleCall.approve, SettleCall.decline, SettleCall.approve]).2 scenarioTxId =
      some (Doc.transaction (scenarioTx "Approved")) :=
  ⟨(terminal_states_final (scenarioEnv 0) storeBPending scenarioTxId (scenarioTx "Pending")
      (by with_unfolding_all rfl) rfl (by decide)).1 "approveTransaction"
      (by with_unfolding_all rfl),
    (terminal_states_final (scenarioEnv 0) storeBApproved scenarioTxId (scenarioTx "Approved")
      (by with_unfolding_all rfl) rfl (by decide)).2.2.2 (Or.inl rfl)
      [SettleCall.approve, SettleCall.decline, SettleCall.approve]⟩

/-! ## What the asset methods do to the holdings -/

theorem Asset.held_of_none (a : Asset) (k : String) (h : a.OwnedBy k = none) :
    a.held k = 0 := by
  simp [Asset.held, Asset.ownedBy, h]

theorem Asset.held_setOwnedBy_other (a : Asset) (k k2 : String) (r : Marketplace.OwnedBy)
    (h : k2 ≠ k) : (a.setOwnedBy k r).held k2 = a.held k2 := by
  simp [Asset.held, Asset.setOwnedBy_ownedBy_other a k k2 r h]

@[simp] theorem Asset.setOwnedBy_IssuedQty (a : Asset) (k : String) (r : Marketplace.OwnedBy) :
    (a.setOwnedBy k r).IssuedQty = a.IssuedQty := rfl

@[simp] theorem Asset.subtractOwner_IssuedQty (a : Asset) (k : String) (q : Int) (p : Bool) :
    (a.subtractOwner k q p).IssuedQty = a.IssuedQty := by
  unfold Asset.subtractOwner; simp only []; split <;> rfl

@[simp] theorem Asset.deleteOwner_IssuedQty (a : Asset) (k : String) :
    (a.deleteOwner k).IssuedQty = a.IssuedQty := rfl

@[simp] theorem Asset.escrowOwner_IssuedQty (a : Asset) (k : String) (q : Int) :
    (a.escrowOwner k q).IssuedQty = a.IssuedQty := rfl

@[simp] theorem Asset.rollbackTransaction_Id (a : Asset) (k : String) (q : Int) :
    (a.rollbackTransaction k q).Id = a.Id := by
  unfold Asset.rollbackTransaction; simp only []; split <;> rfl

@[simp] theorem Asset.rollbackTransaction_Owners (a : Asset) (k : String) (q : Int) :
    (a.rollbackTransaction k q).Owners = a.Owners := by
  unfold Asset.rollbackTransaction; simp only []; split <;> rfl

@[simp] theorem Asset.rollbackTransaction_OwnedBy (a : Asset) (k : String) (q : Int) :
    (a.rollbackTransaction k q).OwnedBy = (a.escrowOwner k q).OwnedBy := by
  unfold Asset.rollbackTransaction; simp only []; split <;> rfl

@[simp] theorem tradedAsset_IssuedQty (asset : Asset) (sellerId : String) (quantity : Int) :
    (tradedAsset asset sellerId quantity).IssuedQty = asset.IssuedQty := by
  unfold tradedAsset; split <;> rfl

theorem Asset.setOwnedBy_OwnersMatch (a : Asset) (k : String) (r : Marketplace.OwnedBy)
    (hm : a.OwnersMatch) (hk : k ∈ a.Owners) : (a.setOwnedBy k r).OwnersMatch := by
  intro k2
  by_cases h : k2 = k
  · subst h
    simp [hk]
  · rw [Asset.setOwnedBy_OwnedBy_other a k k2 r h]
    exact hm k2

theorem Asset.addOwner_OwnersMatch (a : Asset) (b : String) (q : Int) (hm : a.OwnersMatch) :
    (a.addOwner b q).OwnersMatch := by
  unfold Asset.addOwner
  by_cases hin : b ∈ a.Owners
  · simp only [(IsElementInSlice_iff _ _).mpr hin, if_true]
    exact Asset.setOwnedBy_OwnersMatch a b _ hm hin
  · simp only [(IsElementInSlice_false_iff _ _).mpr hin, Bool.false_eq_true, if_false]
    intro k
    by_cases h : k = b
    · subst h
      simp
    · rw [Asset.setOwnedBy_OwnedBy_other _ b k _ h]
      simp [h, hm k]

theorem Asset.addOwner_Nodup (a : Asset) (b : String) (q : Int) (hn : a.Owners.Nodup) :
    (a.addOwner b q).Owners.Nodup := by
  unfold Asset.addOwner
  by_cases hin : b ∈ a.Owners
  · simp only [(IsElementInSlice_iff _ _).mpr hin, if_true]
    exact hn
  · simp only [(IsElementInSlice_false_iff _ _).mpr hin, Bool.false_eq_true, if_false]
    simp only [Asset.setOwnedBy_Owners]
    exact List.Nodup.append hn (List.nodup_singleton b) (by simpa using hin)

theorem Asset.mem_addOwner_Owners (a : Asset) (b : String) (q : Int) (k : String)
    (hk : k ∈ a.Owners) : k ∈ (a.addOwner b q).Owners := by
  unfold Asset.addOwner
  split
  · exact hk
  · simp [hk]

theorem Asset.deleteOwner_OwnersMatch (a : Asset) (s : String) (hm : a.OwnersMatch) :
    (a.deleteOwner s).OwnersMatch := by
  intro k
  by_cases h : k = s
  · subst h
    simp [Asset.deleteOwner, DeleteElementFromSlice]
  · simp [Asset.deleteOwner, DeleteElementFromSlice, h, hm k]

theorem Asset.deleteOwner_Nodup (a : Asset) (s : String) (hn : a.Owners.Nodup) :
    (a.deleteOwner s).Owners.Nodup := by
  simp only [Asset.deleteOwner, DeleteElementFromSlice]
  exact hn.filter _

theorem Asset.subtractOwner_OwnersMatch (a : Asset) (s : String) (q : Int) (p : Bool)
    (hm : a.OwnersMatch) (hs : s ∈ a.Owners) : (a.subtractOwner s q p).OwnersMatch := by
  unfold Asset.subtractOwner
  simp only []
  split <;> exact Asset.setOwnedBy_OwnersMatch a s _ hm hs

@[simp] theorem Asset.subtractOwner_Owners (a : Asset) (s : String) (q : Int) (p : Bool) :
    (a.subtractOwner s q p).Owners = a.Owners := by
  unfold Asset.subtractOwner; simp only []; split <;> rfl

theorem Asset.removeOwner_OwnersMatch (a : Asset) (s : String) (q : Int) (p : Bool)
    (hm : a.OwnersMatch) (hs : s ∈ a.Owners) : (a.removeOwner s q p).OwnersMatch := by
  unfold Asset.removeOwner
  simp only []
  split <;> split <;>
    first
      | exact Asset.deleteOwner_OwnersMatch a s hm
      | exact Asset.subtractOwner_OwnersMatch a s q _ hm hs

theorem Asset.removeOwner_Nodup (a : Asset) (s : String) (q : Int) (p : Bool)
    (hn : a.Owners.Nodup) : (a.removeOwner s q p).Owners.Nodup := by
  unfold Asset.removeOwner
  simp only []
  split <;> split <;>
    first
      | exact Asset.deleteOwner_Nodup a s hn
      | (rw [Asset.subtractOwner_Owners]; exact hn)

theorem Asset.escrowOwner_OwnersMatch (a : Asset) (s : String) (q : Int)
    (hm : a.OwnersMatch) (hs : s ∈ a.Owners) : (a.escrowOwner s q).OwnersMatch := by
  unfold Asset.escrowOwner
  exact Asset.setOwnedBy_OwnersMatch a s _ hm hs

theorem Asset.rollbackTransaction_OwnersMatch (a : Asset) (s : String) (q : Int)
    (hm : a.OwnersMatch) (hs : s ∈ a.Owners) : (a.rollbackTransaction s q).OwnersMatch := by
  intro k
  rw [Asset.rollbackTransaction_Owners, Asset.rollbackTransaction_OwnedBy]
  exact Asset.escrowOwner_OwnersMatch a s q hm hs k

theorem tradedAsset_OwnersMatch (asset : Asset) (sellerId : String) (quantity : Int)
    (hm : asset.OwnersMatch) : (tradedAsset asset sellerId quantity).OwnersMatch := by
  intro k
  rw [tradedAsset_Owners, tradedAsset_OwnedBy]
  exact hm k

/-! ## The asset a settlement stores -/

theorem directAsset_OwnersMatch (asset : Asset) (s b : String) (q : Int)
    (hm : asset.OwnersMatch) (hs : s ∈ asset.Owners) : (directAsset asset s b q).OwnersMatch := by
  unfold directAsset
  apply Asset.removeOwner_OwnersMatch
  · exact Asset.addOwner_OwnersMatch _ b q (tradedAsset_OwnersMatch asset s q hm)
  · apply Asset.mem_addOwner_Owners
    simpa using hs

theorem directAsset_Nodup (asset : Asset) (s b : String) (q : Int)
    (hn : asset.Owners.Nodup) : (directAsset asset s b q).Owners.Nodup := by
  unfold directAsset
  apply Asset.removeOwner_Nodup
  apply Asset.addOwner_Nodup
  simpa using hn

theorem escrowAsset_OwnersMatch (asset : Asset) (s : String) (q : Int)
    (hm : asset.OwnersMatch) (hs : s ∈ asset.Owners) : (escrowAsset asset s q).OwnersMatch := by
  unfold escrowAsset
  apply Asset.escrowOwner_OwnersMatch _ s q (tradedAsset_OwnersMatch asset s q hm)
  simpa using hs

theorem approvedAsset_OwnersMatch (asset : Asset) (s b : String) (q : Int)
    (hm : asset.OwnersMatch) (hs : s ∈ asset.Owners) :
    ((asset.addOwner b q).removeOwner s q true).OwnersMatch := by
  apply Asset.removeOwner_OwnersMatch
  · exact Asset.addOwner_OwnersMatch _ b q hm
  · exact Asset.mem_addOwner_Owners _ b q s hs

/-- The asset a successful trade stores: the direct or the escrow one; the
seller was among the owners. -/
theorem transactAsset_stored_asset (E : Env) (st : Store) (fn : String)
    (assetId sellerId buyerId arg3 arg4 arg5 : String) (quantity : Int) (asset : Asset)
    (hq : E.Atoi arg3 = some quantity)
    (ha : st assetId = some (Doc.asset asset)) (haid : asset.Id = assetId)
    (hk1 : assetId ≠ PRIMARYKEY2)
    (hk2 : assetId ≠ newTransactionId E assetId sellerId buyerId E.Now)
    (hsucc : (transactAsset E st fn [assetId, sellerId, buyerId, arg3, arg4, arg5]).err = none) :
    sellerId ∈ asset.Owners ∧
    ((transactAsset E st fn [assetId, sellerId, buyerId, arg3, arg4, arg5]).store assetId =
        some (Doc.asset (directAsset asset sellerId buyerId quantity)) ∨
      (transactAsset E st fn [assetId, sellerId, buyerId, arg3, arg4, arg5]).store assetId =
        some (Doc.asset (escrowAsset asset sellerId quantity))) := by
  obtain ⟨q2, price, a2, seller, buyer, tx0, ledger, tx, hq2, _, ha2, _, _, hreq, hc, hl, hf,
    heq⟩ := transactAsset_ok_inv E st fn assetId sellerId buyerId arg3 arg4 arg5 hsucc
  rw [hq] at hq2
  cases hq2
  rw [getAsset_of_doc E st assetId asset ha] at ha2
  cases ha2
  obtain ⟨hid, _⟩ := trade_transaction_fields E asset quantity price assetId sellerId buyerId
    tx0 tx hc hf
  have hmem : sellerId ∈ asset.Owners :=
    ((tradingRequirements_eq_none_iff fn asset seller buyer sellerId quantity price _).mp
      hreq).2.2.1
  refine ⟨hmem, ?_⟩
  rw [heq] at hsucc ⊢
  by_cases hA : (if asset.Triggers.Approval = true ∧ quantity > asset.Triggers.ApprovalQty
      then "TRUE" else arg5) = "TRUE"
  · cases hpend : getDataArrayStrings E st PRIMARYKEY3 [] with
    | error e =>
      rw [settleTrade_escrow_err E st asset seller buyer tx ledger assetId sellerId buyerId
        quantity _ _ e hA hpend] at hsucc
      simp at hsucc
    | ok pending =>
      right
      rw [settleTrade_escrow E st asset seller buyer tx ledger pending assetId sellerId buyerId
        quantity _ _ hA hpend, persistTrade_store]
      simp [hk1, hk2, hid, haid]
  · left
    rw [settleTrade_direct E st asset seller buyer tx ledger assetId sellerId buyerId
      quantity _ _ hA, persistTrade_store]
    simp [hk1, hk2, hid, haid]

/-- A successful `approve` loaded the three entities and saved them in turn. -/
theorem Transaction.approve_inv (E : Env) (st : Store) (tx : Transaction)
    (h : (tx.approve E st).err = none) :
    ∃ buyer seller asset, getOwner E st [tx.BuyerId] = Except.ok buyer ∧
      getOwner E st [tx.SellerId] = Except.ok seller ∧
      getAsset E st [tx.AssetId] = Except.ok asset ∧
      (tx.approve E st).store =
        ((asset.addOwner tx.BuyerId tx.Quantity).removeOwner tx.SellerId tx.Quantity true).save
          ((seller.approveSellTransaction E asset (E.mulFloat tx.Price (E.floatOfInt tx.Quantity)) tx.Quantity).save
            ((buyer.approveBuyTransaction E tx.AssetId (E.mulFloat tx.Price (E.floatOfInt tx.Quantity))).save st)) := by
  have hs := (Transaction.approve_ok E st tx h).1
  cases hb : getOwner E st [tx.BuyerId] with
  | error e => simp [Transaction.approve, hs, hb] at h
  | ok buyer =>
    cases hse : getOwner E st [tx.SellerId] with
    | error e => simp [Transaction.approve, hs, hb, hse] at h
    | ok seller =>
      cases ha : getAsset E st [tx.AssetId] with
      | error e => simp [Transaction.approve, hs, hb, hse, ha] at h
      | ok asset =>
        refine ⟨buyer, seller, asset, rfl, rfl, rfl, ?_⟩
        rw [Transaction.approve_of_loaded E st tx buyer seller asset hs hb hse ha]

/-- The asset a successful `approveTransaction` stores. -/
theorem approveTransaction_stored_asset (E : Env) (st : Store) (fn txId : String)
    (tx : Transaction) (asset : Asset)
    (htx : st txId = some (Doc.transaction tx)) (htid : tx.Id = txId)
    (ha : st tx.AssetId = some (Doc.asset asset)) (haid : asset.Id = tx.AssetId)
    (hk : tx.AssetId ≠ PRIMARYKEY3)
    (hsucc : (approveTransaction E st fn [txId]).err = none) :
    (approveTransaction E st fn [txId]).store tx.AssetId =
      some (Doc.asset
        ((asset.addOwner tx.BuyerId tx.Quantity).removeOwner tx.SellerId tx.Quantity true)) := by
  have hget := getTransaction_of_doc E st txId tx htx
  have hne : tx.AssetId ≠ txId := key_ne_of_doc ha htx (by simp)
  rw [approveTransaction_of_loaded E st fn txId tx hget] at hsucc ⊢
  cases herr : (tx.approve E st).err with
  | some e => simp [herr] at hsucc
  | none =>
    obtain ⟨_, htx2⟩ := Transaction.approve_ok E st tx herr
    obtain ⟨buyer, seller, a2, _, _, ha2, hst⟩ := Transaction.approve_inv E st tx herr
    rw [getAsset_of_doc E st _ asset ha] at ha2
    cases ha2
    simp only [herr]
    rw [removeFromPendingLedger_other _ _ _ _ hk, htx2, hst]
    simp [Transaction.save, Asset.save, PutState, htid, hne, haid]

/-- A successful `rollback` loaded the buyer, saved the refund, loaded the asset
from the store so updated and saved it. -/
theorem Transaction.rollback_inv (E : Env) (st : Store) (tx : Transaction)
    (h : (tx.rollback E st).err = none) :
    ∃ buyer asset, getOwner E st [tx.BuyerId] = Except.ok buyer ∧
      getAsset E ((buyer.rollbackBuyTransaction E (E.mulFloat tx.Price (E.floatOfInt tx.Quantity))).save st)
        [tx.AssetId] = Except.ok asset ∧
      (tx.rollback E st).store =
        (asset.rollbackTransaction tx.SellerId tx.Quantity).save
          ((buyer.rollbackBuyTransaction E (E.mulFloat tx.Price (E.floatOfInt tx.Quantity))).save st) := by
  have hs := (Transaction.rollback_ok E st tx h).1
  cases hb : getOwner E st [tx.BuyerId] with
  | error e => simp [Transaction.rollback, hs, hb] at h
  | ok buyer =>
    cases ha : getAsset E
        ((buyer.rollbackBuyTransaction E (E.mulFloat tx.Price (E.floatOfInt tx.Quantity))).save st)
        [tx.AssetId] with
    | error e => simp [Transaction.rollback, hs, hb, ha] at h
    | ok asset =>
      refine ⟨buyer, asset, rfl, ha, ?_⟩
      simp [Transaction.rollback, hs, hb, ha]

/-- The asset a successful `declineTransaction` stores. -/
theorem declineTransaction_stored_asset (E : Env) (st : Store) (fn txId : String)
    (tx : Transaction) (buyer : Owner) (asset : Asset)
    (htx : st txId = some (Doc.transaction tx)) (htid : tx.Id = txId)
    (hb : st tx.BuyerId = some (Doc.owner buyer)) (hbid : buyer.OwnerId = tx.BuyerId)
    (ha : st tx.AssetId = some (Doc.asset asset)) (haid : asset.Id = tx.AssetId)
    (hk : tx.AssetId ≠ PRIMARYKEY3)
    (hsucc : (declineTransaction E st fn [txId]).err = none) :
    (declineTransaction E st fn [txId]).store tx.AssetId =
      some (Doc.asset (asset.rollbackTransaction tx.SellerId tx.Quantity)) := by
  have hget := getTransaction_of_doc E st txId tx htx
  have hne : tx.AssetId ≠ txId := key_ne_of_doc ha htx (by simp)
  have hne2 : tx.AssetId ≠ tx.BuyerId := key_ne_of_doc ha hb (by simp)
  rw [declineTransaction_of_loaded E st fn txId tx hget] at hsucc ⊢
  cases herr : (tx.rollback E st).err with
  | some e => simp [herr] at hsucc
  | none =>
    obtain ⟨_, htx2⟩ := Transaction.rollback_ok E st tx herr
    obtain ⟨b2, a2, hb2, ha2, hst⟩ := Transaction.rollback_inv E st tx herr
    rw [getOwner_of_doc E st _ buyer hb] at hb2
    cases hb2
    have hload : getAsset E
        ((buyer.rollbackBuyTransaction E (E.mulFloat tx.Price (E.floatOfInt tx.Quantity))).save st)
        [tx.AssetId] = Except.ok asset := by
      apply getAsset_of_doc
      simp [Owner.save, PutState, hbid, hne2, ha]
    rw [hload] at ha2
    cases ha2
    simp only [herr]
    rw [removeFromPendingLedger_other _ _ _ _ hk, htx2, hst]
    simp [Transaction.save, Asset.save, PutState, htid, hne, haid]

/-! ## The asset invariants across settlement -/

theorem gold_OwnersMatch (triggers : Trigger) : (gold triggers).OwnersMatch := by
  intro k
  by_cases hk : k = "ACME"
  · simp [gold, hk]
  · simp [gold, hk]

/-- C13, owners/ownedBy consistency: for a stored asset whose `Owners` list has
no duplicates and equals the key set of `OwnedBy`, the asset stored after a
successful `transactAsset`, and after a successful `approveTransaction` or
`declineTransaction` of a transaction whose seller is among the owners of the
asset, still has an `Owners` list without duplicates equal to the key set of
`OwnedBy`.  The asset sits under its own id, which is neither a registry name
nor the id of the transaction. -/
theorem owners_match_preserved (E : Env) (st : Store) (assetId : String) (asset : Asset)
    (ha : st assetId = some (Doc.asset asset)) (haid : asset.Id = assetId)
    (hn : asset.Owners.Nodup) (hm : asset.OwnersMatch) :
    (∀ fn sellerId buyerId arg3 arg4 arg5,
      assetId ≠ PRIMARYKEY2 → assetId ≠ newTransactionId E assetId sellerId buyerId E.Now →
      (transactAsset E st fn [assetId, sellerId, buyerId, arg3, arg4, arg5]).err = none →
      ∃ a, (transactAsset E st fn [assetId, sellerId, buyerId, arg3, arg4, arg5]).store assetId =
          some (Doc.asset a) ∧
        a.Owners.Nodup ∧ a.OwnersMatch) ∧
    (∀ fn txId tx, st txId = some (Doc.transaction tx) → tx.Id = txId → tx.AssetId = assetId →
      tx.SellerId ∈ asset.Owners → assetId ≠ PRIMARYKEY3 →
      (approveTransaction E st fn [txId]).err = none →
      ∃ a, (approveTransaction E st fn [txId]).store assetId = some (Doc.asset a) ∧
        a.Owners.Nodup ∧ a.OwnersMatch) ∧
    (∀ fn txId tx buyer, st txId = some (Doc.transaction tx) → tx.Id = txId →
      tx.AssetId = assetId → tx.SellerId ∈ asset.Owners →
      st tx.BuyerId = some (Doc.owner buyer) → buyer.OwnerId = tx.BuyerId →
      assetId ≠ PRIMARYKEY3 → (declineTransaction E st fn [txId]).err = none →
      ∃ a, (declineTransaction E st fn [txId]).store assetId = some (Doc.asset a) ∧
        a.Owners.Nodup ∧ a.OwnersMatch) := by
  refine ⟨?_, ?_, ?_⟩
  · intro fn sellerId buyerId arg3 arg4 arg5 hk1 hk2 hsucc
    obtain ⟨q, _, _, _, _, _, _, _, hq, _⟩ :=
      transactAsset_ok_inv E st fn assetId sellerId buyerId arg3 arg4 arg5 hsucc
    obtain ⟨hmem, hst | hst⟩ := transactAsset_stored_asset E st fn assetId sellerId buyerId
      arg3 arg4 arg5 q asset hq ha haid hk1 hk2 hsucc
    · exact ⟨_, hst, directAsset_Nodup asset sellerId buyerId q hn,
        directAsset_OwnersMatch asset sellerId buyerId q hm hmem⟩
    · refine ⟨_, hst, ?_, escrowAsset_OwnersMatch asset sellerId q hm hmem⟩
      rw [escrowAsset_Owners]
      exact hn
  · intro fn txId tx htx htid hasset hmem hk hsucc
    subst hasset
    exact ⟨_, approveTransaction_stored_asset E st fn txId tx asset htx htid ha haid hk hsucc,
      Asset.removeOwner_Nodup _ _ _ _ (Asset.addOwner_Nodup _ _ _ hn),
      approvedAsset_OwnersMatch asset tx.SellerId tx.BuyerId tx.Quantity hm hmem⟩
  · intro fn txId tx buyer htx htid hasset hmem hb hbid hk hsucc
    subst hasset
    refine ⟨_, declineTransaction_stored_asset E st fn txId tx buyer asset htx htid hb hbid ha
      haid hk hsucc, ?_, Asset.rollbackTransaction_OwnersMatch asset _ _ hm hmem⟩
    rw [Asset.rollbackTransaction_Owners]
    exact hn

theorem owners_match_preserved_witness :
    (∃ a, (transactAsset (scenarioEnv 0) storeA "transactAsset" scenarioArgs).store "GOLD" =
        some (Doc.asset a) ∧ a.Owners.Nodup ∧ a.OwnersMatch) ∧
    (∃ a, (approveTransaction (scenarioEnv 0) storeBPending "approveTransaction"
        [scenarioTxId]).store "GOLD" = some (Doc.asset a) ∧ a.Owners.Nodup ∧ a.OwnersMatch) :=
  ⟨(owners_match_preserved (scenarioEnv 0) storeA "GOLD" (gold ⟨false, 0⟩) rfl rfl
      (by decide) (gold_OwnersMatch _)).1 "transactAsset" "ACME" "BOB" "10" "10.0"
      "FALSE" (by decide) (by with_unfolding_all decide) (by with_unfolding_all rfl),
    (owners_match_preserved (scenarioEnv 0) storeBPending "GOLD"
      (escrowAsset (gold ⟨true, 5⟩) "ACME" 10) (by with_unfolding_all rfl) rfl
      (by decide)
      (escrowAsset_OwnersMatch _ _ _ (gold_OwnersMatch _) (by decide))).2.1 "approveTransaction"
      scenarioTxId (scenarioTx "Pending") (by with_unfolding_all rfl) rfl rfl (by decide)
      (by decide) (by with_unfolding_all rfl)⟩

/-! ## The contract discount -/

theorem contractDiscount_of_met (asset : Asset) (t : Transaction) (fix val : ℚ)
    (h : ConditionMet asset.Contract.Condition fix val) :
    (contractDiscount asset t fix val).Discount = asset.Contract.Discount := by
  unfold contractDiscount
  rcases h with ⟨hc, hv⟩ | ⟨hc, hv⟩ | ⟨hc, hv⟩
  · simp [hc, hv]
  · simp [hc, hv]
  · simp [hc, hv]

theorem contractDiscount_of_not_met (asset : Asset) (t : Transaction) (fix val : ℚ)
    (h : ¬ ConditionMet asset.Contract.Condition fix val) :
    (contractDiscount asset t fix val).Discount = t.Discount := by
  unfold ConditionMet at h
  unfold contractDiscount
  split_ifs with h1 h2 h3 h4 h5 h6
  · exact absurd (Or.inl ⟨h1, h2⟩) h
  · rfl
  · exact absurd (Or.inr (Or.inl ⟨h3, h4⟩)) h
  · rfl
  · exact absurd (Or.inr (Or.inr ⟨h5, h6⟩)) h
  · rfl
  · rfl

/-- The fixing block succeeds when the contract value and the fixing parse. -/
theorem apiFixing_ok_of_parse (E : Env) (asset : Asset) (tx0 : Transaction) (price val fix : ℚ)
    (hval : E.ParseFloat asset.Contract.Value = some val)
    (hfix : E.ParseFloat (GetEndpoint E asset.Contract.URL asset.Contract.Keys) = some fix) :
    ∃ tx, apiFixing E asset tx0 price = Except.ok tx := by
  unfold apiFixing
  by_cases hurl : asset.Contract.URL = ""
  · exact ⟨tx0, by simp [hurl]⟩
  · simp [hurl, hval, hfix]

/-- In a ledger state where the documents and the registries exist and the
fixing block succeeds, a trade succeeds exactly when the requirements hold. -/
theorem transactAsset_err_none_iff (E : Env) (st : Store) (fn : String)
    (assetId sellerId buyerId arg3 arg4 arg5 : String) (quantity : Int) (price : ℚ)
    (asset : Asset) (seller buyer : Owner) (ledger pending : List String)
    (hq : E.Atoi arg3 = some quantity) (hp : E.ParseFloat arg4 = some price)
    (ha : st assetId = some (Doc.asset asset))
    (hs : st sellerId = some (Doc.owner seller))
    (hb : st buyerId = some (Doc.owner buyer))
    (hl : st PRIMARYKEY2 = some (Doc.strings ledger))
    (hpend : st PRIMARYKEY3 = some (Doc.strings pending))
    (hf : ∀ tx0, ∃ tx, apiFixing E asset tx0 price = Except.ok tx) :
    (transactAsset E st fn [assetId, sellerId, buyerId, arg3, arg4, arg5]).err = none ↔
      (seller.Validated = true ∧ buyer.Validated = true ∧ sellerId ∈ asset.Owners ∧
        asset.Id ∈ seller.Assets ∧ buyer.Balance ≥ E.mulFloat price (E.floatOfInt quantity) ∧
        (asset.ownedBy sellerId).Quantity ≥ quantity ∧ price = asset.Price) := by
  have ha2 := getAsset_of_doc E st assetId asset ha
  have hs2 := getOwner_of_doc E st sellerId seller hs
  have hb2 := getOwner_of_doc E st buyerId buyer hb
  have hl2 := getDataArrayStrings_of_doc E st PRIMARYKEY2 ledger hl
  have hpend2 := getDataArrayStrings_of_doc E st PRIMARYKEY3 pending hpend
  rw [← tradingRequirements_eq_none_iff fn asset seller buyer sellerId quantity price
    (E.mulFloat price (E.floatOfInt quantity))]
  cases hr : tradingRequirements fn asset seller buyer sellerId quantity price
      (E.mulFloat price (E.floatOfInt quantity)) with
  | some e =>
    rw [transactAsset_of_failed_requirement E st fn assetId sellerId buyerId arg3 arg4 arg5
      quantity price asset seller buyer e hq hp ha2 hs2 hb2 hr]
  | none =>
    obtain ⟨tx, htx⟩ := hf
      { Id := newTransactionId E assetId sellerId buyerId E.Now
        AssetId := assetId
        SellerId := sellerId
        BuyerId := buyerId
        Quantity := quantity
        Price := price
        Discount := 0
        Created := E.Now
        Status := "Pending"
        APIFixing := "" }
    rw [transactAsset_of_passed E st fn assetId sellerId buyerId arg3 arg4 arg5
      quantity price asset seller buyer _ tx ledger hq hp ha2 hs2 hb2 hr
      (createTransaction_ok E quantity price assetId sellerId buyerId) hl2 htx]
    simp [settleTrade_err_none E st asset seller buyer _ ledger pending assetId sellerId buyerId
      quantity _ _ hpend2]

/-- The transaction a successful trade stores: what the fixing block returned,
with the status of the path taken. -/
theorem transactAsset_stored_transaction (E : Env) (st : Store) (fn : String)
    (assetId sellerId buyerId arg3 arg4 arg5 : String) (price : ℚ) (asset : Asset)
    (hp : E.ParseFloat arg4 = some price)
    (ha : getAsset E st [assetId] = Except.ok asset)
    (hkey : newTransactionId E assetId sellerId buyerId E.Now ≠ PRIMARYKEY2)
    (hsucc : (transactAsset E st fn [assetId, sellerId, buyerId, arg3, arg4, arg5]).err = none) :
    ∃ tx0 tx status, tx0.Discount = 0 ∧ apiFixing E asset tx0 price = Except.ok tx ∧
      (transactAsset E st fn [assetId, sellerId, buyerId, arg3, arg4, arg5]).store
        (newTransactionId E assetId sellerId buyerId E.Now) =
          some (Doc.transaction { tx with Status := status }) := by
  obtain ⟨q, p2, a2, seller, buyer, tx0, ledger, tx, _, hp2, ha2, _, _, _, hc, hl, hf, heq⟩ :=
    transactAsset_ok_inv E st fn assetId sellerId buyerId arg3 arg4 arg5 hsucc
  rw [hp] at hp2
  cases hp2
  rw [ha] at ha2
  cases ha2
  obtain ⟨hid, _⟩ := trade_transaction_fields E asset q price assetId sellerId buyerId
    tx0 tx hc hf
  have h0 : tx0.Discount = 0 := by
    rw [createTransaction_ok] at hc
    cases hc
    rfl
  by_cases hA : (if asset.Triggers.Approval = true ∧ q > asset.Triggers.ApprovalQty
      then "TRUE" else arg5) = "TRUE"
  · cases hpend : getDataArrayStrings E st PRIMARYKEY3 [] with
    | error e =>
      rw [heq, settleTrade_escrow_err E st asset seller buyer tx ledger assetId sellerId buyerId
        q _ _ e hA hpend] at hsucc
      simp at hsucc
    | ok pending =>
      refine ⟨tx0, tx, "Pending", h0, hf, ?_⟩
      rw [heq, settleTrade_escrow E st asset seller buyer tx ledger pending assetId sellerId
        buyerId q _ _ hA hpend, persistTrade_store]
      simp [hkey, hid]
  · refine ⟨tx0, tx, "Validated", h0, hf, ?_⟩
    rw [heq, settleTrade_direct E st asset seller buyer tx ledger assetId sellerId buyerId
      q _ _ hA, persistTrade_store]
    simp [hkey, hid]

/-- C14 at the contract scenario (`GOLD` at 10.0 with a 10 percent discount
when the fixing is less than 2.0, fixing 1.5, 10 units from `ACME` to `BOB`):
the trade succeeds and the stored transaction has discount 10 and price
9 = 10*(1 - 10/100), but `BOB` is debited 100 = 10*10, not 90 = 9*10, and `ACME`
is credited 100; with the approval override set, 100 is escrowed. -/
theorem scenario_discount_total_not_applied :
    (transactAsset contractEnv storeContract "transactAsset" scenarioArgs).err = none ∧
    (∃ t, storeContractTraded scenarioTxId = some (Doc.transaction t) ∧
      t.APIFixing = "1.500000" ∧ t.Discount = 10 ∧ t.Price = 9 ∧ t.Quantity = 10 ∧
      t.Status = "Validated") ∧
    (∃ b, storeContractTraded "BOB" = some (Doc.owner b) ∧ bob.Balance = 500 ∧
      b.Balance = 400 ∧ b.Balance ≠ 500 - 9 * 10) ∧
    (∃ s, storeContractTraded "ACME" = some (Doc.owner s) ∧ acme.Balance = 0 ∧
      s.Balance = 100 ∧ s.Balance ≠ 0 + 9 * 10) ∧
    (∃ b, (transactAsset contractEnv storeContract "transactAsset"
        ["GOLD", "ACME", "BOB", "10", "10.0", "TRUE"]).store "BOB" = some (Doc.owner b) ∧
      b.Balance = 400 ∧ b.EscrowBalance = 100 ∧ b.EscrowBalance ≠ 9 * 10) :=
  ⟨by with_unfolding_all rfl,
    ⟨_, by with_unfolding_all rfl, by with_unfolding_all rfl, by with_unfolding_all rfl,
      by with_unfolding_all rfl, by with_unfolding_all rfl, by with_unfolding_all rfl⟩,
    ⟨_, by with_unfolding_all rfl, by with_unfolding_all rfl, by with_unfolding_all rfl,
      by with_unfolding_all decide⟩,
    ⟨_, by with_unfolding_all rfl, by with_unfolding_all rfl, by with_unfolding_all rfl,
      by with_unfolding_all decide⟩,
    ⟨_, by with_unfolding_all rfl, by with_unfolding_all rfl, by with_unfolding_all rfl,
      by with_unfolding_all decide⟩⟩

/-- C15, discount rule: in a ledger state where the documents and registries
exist, for a trade on an asset with a contract URL whose contract value parses
to `val` and whose fetched fixing parses to `fix`, the trade succeeds exactly
when the seven trading conditions hold (the balance check against the product
`price*quantity` as `float64` arithmetic gives it), whatever the condition tag;
and the stored transaction has the contract discount when (`less` and
`fix < val`) or (`more` and `fix > val`) or (`equal` and `fix = val`), discount 0
otherwise (so, for a non-zero contract discount, it has the contract discount if
and only if that condition holds), price `price*(1 - discount/100)` as `float64`
arithmetic gives it, and with any other tag discount 0 and the price unchanged.
The transaction id, a hash, is not the name of the `Transactions` registry. -/
theorem discount_rule (E : Env) (st : Store) (fn : String)
    (assetId sellerId buyerId arg3 arg4 arg5 : String) (quantity : Int) (price val fix : ℚ)
    (asset : Asset) (seller buyer : Owner) (ledger pending : List String)
    (hq : E.Atoi arg3 = some quantity) (hp : E.ParseFloat arg4 = some price)
    (ha : st assetId = some (Doc.asset asset))
    (hs : st sellerId = some (Doc.owner seller))
    (hb : st buyerId = some (Doc.owner buyer))
    (hl : st PRIMARYKEY2 = some (Doc.strings ledger))
    (hpend : st PRIMARYKEY3 = some (Doc.strings pending))
    (hurl : asset.Contract.URL ≠ "")
    (hval : E.ParseFloat asset.Contract.Value = some val)
    (hfix : E.ParseFloat (GetEndpoint E asset.Contract.URL asset.Contract.Keys) = some fix)
    (hkey : newTransactionId E assetId sellerId buyerId E.Now ≠ PRIMARYKEY2) :
    ((transactAsset E st fn [assetId, sellerId, buyerId, arg3, arg4, arg5]).err = none ↔
      (seller.Validated = true ∧ buyer.Validated = true ∧ sellerId ∈ asset.Owners ∧
        asset.Id ∈ seller.Assets ∧ buyer.Balance ≥ E.mulFloat price (E.floatOfInt quantity) ∧
        (asset.ownedBy sellerId).Quantity ≥ quantity ∧ price = asset.Price)) ∧
    ((transactAsset E st fn [assetId, sellerId, buyerId, arg3, arg4, arg5]).err = none →
      ∃ t, (transactAsset E st fn [assetId, sellerId, buyerId, arg3, arg4, arg5]).store
          (newTransactionId E assetId sellerId buyerId E.Now) = some (Doc.transaction t) ∧
        (ConditionMet asset.Contract.Condition fix val → t.Discount = asset.Contract.Discount) ∧
        (¬ ConditionMet asset.Contract.Condition fix val → t.Discount = 0) ∧
        (asset.Contract.Discount ≠ 0 →
          (t.Discount = asset.Contract.Discount ↔
            ConditionMet asset.Contract.Condition fix val)) ∧
        t.Price = E.mulFloat price (E.subFloat 1 (E.divFloat t.Discount 100)) ∧
        (asset.Contract.Condition ≠ "less" → asset.Contract.Condition ≠ "more" →
          asset.Contract.Condition ≠ "equal" → t.Discount = 0 ∧ t.Price = price)) := by
  refine ⟨transactAsset_err_none_iff E st fn assetId sellerId buyerId arg3 arg4 arg5 quantity
    price asset seller buyer ledger pending hq hp ha hs hb hl hpend
    (fun tx0 => apiFixing_ok_of_parse E asset tx0 price val fix hval hfix), ?_⟩
  intro hsucc
  obtain ⟨tx0, tx, status, h0, hf, hst⟩ := transactAsset_stored_transaction E st fn assetId
    sellerId buyerId arg3 arg4 arg5 price asset hp (getAsset_of_doc E st assetId asset ha)
    hkey hsucc
  obtain ⟨val2, fix2, hv2, hx2, hd, hprice⟩ := apiFixing_ok_inv E asset tx0 tx price hurl hf
  rw [hval] at hv2
  cases hv2
  rw [hfix] at hx2
  cases hx2
  have hmet : ConditionMet asset.Contract.Condition fix val →
      tx.Discount = asset.Contract.Discount := fun h => by
    rw [hd, contractDiscount_of_met asset _ fix val h]
  have hnot : ¬ ConditionMet asset.Contract.Condition fix val → tx.Discount = 0 := fun h => by
    rw [hd, contractDiscount_of_not_met asset _ fix val h]
    exact h0
  refine ⟨{ tx with Status := status }, hst, hmet, hnot, ?_, hprice, ?_⟩
  · intro hD
    constructor
    · intro heq
      by_contra hc
      have h0 : tx.Discount = 0 := hnot hc
      exact hD (by rw [← heq]; exact h0)
    · exact hmet
  · intro h1 h2 h3
    have hc : ¬ ConditionMet asset.Contract.Condition fix val := by
      rintro (⟨h, _⟩ | ⟨h, _⟩ | ⟨h, _⟩)
      · exact h1 h
      · exact h2 h
      · exact h3 h
    have hz : tx.Discount = 0 := hnot hc
    refine ⟨hz, ?_⟩
    show tx.Price = price
    rw [hprice, hz, E.zero_divFloat, E.subFloat_one_zero, E.mulFloat_one arg4 price hp]

theorem discount_rule_witness :
    ∃ t, (transactAsset contractEnv storeContract "transactAsset"
        ["GOLD", "ACME", "BOB", "10", "10.0", "FALSE"]).store
          (newTransactionId contractEnv "GOLD" "ACME" "BOB" contractEnv.Now) =
        some (Doc.transaction t) ∧
      (ConditionMet goldContract.Contract.Condition (3 / 2) 2 →
        t.Discount = goldContract.Contract.Discount) ∧
      (¬ ConditionMet goldContract.Contract.Condition (3 / 2) 2 → t.Discount = 0) ∧
      (goldContract.Contract.Discount ≠ 0 →
        (t.Discount = goldContract.Contract.Discount ↔
          ConditionMet goldContract.Contract.Condition (3 / 2) 2)) ∧
      t.Price = 10 * (1 - t.Discount / 100) ∧
      (goldContract.Contract.Condition ≠ "less" → goldContract.Contract.Condition ≠ "more" →
        goldContract.Contract.Condition ≠ "equal" → t.Discount = 0 ∧ t.Price = 10) :=
  (discount_rule contractEnv storeContract "transactAsset" "GOLD" "ACME" "BOB" "10" "10.0"
    "FALSE" 10 10 2 (3 / 2) goldContract acme bob [] [] (by decide)
    (by with_unfolding_all rfl) rfl rfl rfl rfl rfl (by decide) (by with_unfolding_all rfl)
    (by with_unfolding_all rfl) (by with_unfolding_all decide)).2 (by with_unfolding_all rfl)

/-! ## The sign of the traded quantity -/

/-- C17 at Scenario A: `transactAsset` has no check of the sign of the
quantity.  The call with quantity `-5` (10.0 per unit, `GOLD` from `ACME` to
`BOB`) passes `verifyBalance` and `verifyHoldings`, which compare against the
negative total and the negative quantity, and returns no error; `BOB`'s balance
goes from 500 to 550 and `ACME`'s from 0 to -50, `BOB` gets a holder record of
quantity -5, `ACME`'s record goes from 100 to 105, and `GOLD.Quantity` from 100
to 105.  Quantity `0` is accepted as well. -/
theorem transactAsset_negative_quantity_accepted :
    (scenarioEnv 0).Atoi "-5" = some (-5) ∧
    (transactAsset (scenarioEnv 0) storeA "transactAsset"
      ["GOLD", "ACME", "BOB", "-5", "10.0", "FALSE"]).err = none ∧
    (∃ b, (transactAsset (scenarioEnv 0) storeA "transactAsset"
        ["GOLD", "ACME", "BOB", "-5", "10.0", "FALSE"]).store "BOB" = some (Doc.owner b) ∧
      bob.Balance = 500 ∧ b.Balance = 550) ∧
    (∃ s, (transactAsset (scenarioEnv 0) storeA "transactAsset"
        ["GOLD", "ACME", "BOB", "-5", "10.0", "FALSE"]).store "ACME" = some (Doc.owner s) ∧
      acme.Balance = 0 ∧ s.Balance = -50) ∧
    (∃ a, (transactAsset (scenarioEnv 0) storeA "transactAsset"
        ["GOLD", "ACME", "BOB", "-5", "10.0", "FALSE"]).store "GOLD" = some (Doc.asset a) ∧
      a.OwnedBy "BOB" = some ⟨"BOB", -5, 0⟩ ∧ a.OwnedBy "ACME" = some ⟨"ACME", 105, 0⟩ ∧
      (gold ⟨false, 0⟩).OwnedBy "ACME" = some ⟨"ACME", 100, 0⟩ ∧
      (gold ⟨false, 0⟩).Quantity = 100 ∧ a.Quantity = 105) ∧
    (transactAsset (scenarioEnv 0) storeA "transactAsset"
      ["GOLD", "ACME", "BOB", "0", "10.0", "FALSE"]).err = none :=
  ⟨by with_unfolding_all rfl, by with_unfolding_all rfl,
    ⟨_, by with_unfolding_all rfl, by with_unfolding_all rfl, by with_unfolding_all rfl⟩,
    ⟨_, by with_unfolding_all rfl, by with_unfolding_all rfl, by with_unfolding_all rfl⟩,
    ⟨_, by with_unfolding_all rfl, by with_unfolding_all rfl, by with_unfolding_all rfl,
      by with_unfolding_all rfl, by with_unfolding_all rfl, by with_unfolding_all rfl⟩,
    by with_unfolding_all rfl⟩

/-! ## The price check -/

/-- C21, `verifyPrice` is exact: for every asset and every price,
`verifyPrice price` returns an error if and only if `price` differs from
`asset.Price`; any non-zero deviation from the stored price is rejected, a
quoted 10.5 against a stored 10.0 is rejected and the stored 10.0 itself is
accepted. -/
theorem verifyPrice_exact (a : Asset) (price : ℚ) :
    (a.verifyPrice price ≠ none ↔ price ≠ a.Price) ∧
    (a.verifyPrice price = some Err.priceMismatch ↔ price ≠ a.Price) ∧
    (a.verifyPrice price = none ↔ price = a.Price) ∧
    (∀ deviation : ℚ, deviation ≠ 0 →
      a.verifyPrice (a.Price + deviation) = some Err.priceMismatch) ∧
    ({ a with Price := 10 } : Asset).verifyPrice (21 / 2) = some Err.priceMismatch ∧
    ({ a with Price := 10 } : Asset).verifyPrice 10 = none := by
  unfold Asset.verifyPrice
  refine ⟨?_, ?_, ?_, ?_, ?_, ?_⟩
  · by_cases h : a.Price = price
    · simp [h]
    · simp [h, Ne.symm h]
  · by_cases h : a.Price = price
    · simp [h]
    · simp [h, Ne.symm h]
  · by_cases h : a.Price = price
    · simp [h]
    · simp [h, Ne.symm h]
  · intro deviation hd
    simp [hd]
  · norm_num
  · simp

theorem verifyPrice_exact_witness :
    (gold ⟨false, 0⟩).verifyPrice (21 / 2) ≠ none ∧ (gold ⟨false, 0⟩).verifyPrice 10 = none :=
  ⟨(verifyPrice_exact (gold ⟨false, 0⟩) (21 / 2)).1.mpr (by norm_num [gold]),
    (verifyPrice_exact (gold ⟨false, 0⟩) 10).2.2.1.mpr rfl⟩

/-! ## Removing a holder -/

theorem Asset.removeOwner_of_soldOut (a : Asset) (k : String) (q : Int) (p : Bool)
    (h : a.SoldOut k q p) : a.removeOwner k q p = a.deleteOwner k := by
  unfold Asset.removeOwner
  rcases h with ⟨hp, h1, h2⟩ | ⟨hp, h1, h2⟩
  · simp [hp, h1, h2]
  · simp [hp, h1, h2]

theorem Asset.removeOwner_of_not_soldOut (a : Asset) (k : String) (q : Int) (p : Bool)
    (h : ¬ a.SoldOut k q p) : a.removeOwner k q p = a.subtractOwner k q p := by
  unfold Asset.SoldOut at h
  unfold Asset.removeOwner
  cases p
  · have h2 : ¬ ((a.ownedBy k).Quantity = q ∧ (a.ownedBy k).EscrowQty = 0) :=
      fun hc => h (Or.inr ⟨rfl, hc⟩)
    simp only [Bool.false_eq_true, if_false, if_neg h2]
  · have h2 : ¬ ((a.ownedBy k).Quantity = 0 ∧ (a.ownedBy k).EscrowQty = q) :=
      fun hc => h (Or.inl ⟨rfl, hc⟩)
    simp only [if_true, if_neg h2]

theorem Asset.deleteOwner_OwnedBy_same (a : Asset) (k : String) :
    (a.deleteOwner k).OwnedBy k = none := by
  simp [Asset.deleteOwner]

theorem Asset.deleteOwner_not_mem (a : Asset) (k : String) : k ∉ (a.deleteOwner k).Owners := by
  simp [Asset.deleteOwner, DeleteElementFromSlice]

theorem Asset.subtractOwner_OwnedBy_same (a : Asset) (k : String) (q : Int) (p : Bool) :
    (a.subtractOwner k q p).OwnedBy k =
      some (if p = true then { a.ownedBy k with EscrowQty := (a.ownedBy k).EscrowQty - q }
        else { a.ownedBy k with Quantity := (a.ownedBy k).Quantity - q }) := by
  unfold Asset.subtractOwner
  cases p <;> simp

/-- C24, `removeOwner(ownerId, qty, isPending)` with `(Q, E)` the holder's record
read before the subtraction: when (`isPending`, `Q = 0`, `E = qty`) or (not
`isPending`, `Q = qty`, `E = 0`) the result is that of `deleteOwner`, the id
gone from `Owners` and from `OwnedBy`; in every other case the result is that
of `subtractOwner`, the record `(Q, E - qty)` when `isPending` and `(Q - qty, E)`
otherwise, with `Owners` as it was; so the record is gone exactly in the first
case; and no other holder's record changes. -/
theorem removeOwner_deletes_or_subtracts (a : Asset) (ownerId : String) (qty : Int)
    (isPending : Bool) :
    (a.SoldOut ownerId qty isPending →
      a.removeOwner ownerId qty isPending = a.deleteOwner ownerId ∧
      ownerId ∉ (a.removeOwner ownerId qty isPending).Owners ∧
      (a.removeOwner ownerId qty isPending).OwnedBy ownerId = none) ∧
    (¬ a.SoldOut ownerId qty isPending →
      a.removeOwner ownerId qty isPending = a.subtractOwner ownerId qty isPending ∧
      (a.removeOwner ownerId qty isPending).Owners = a.Owners ∧
      (a.removeOwner ownerId qty isPending).OwnedBy ownerId =
        some (if isPending = true then
            { a.ownedBy ownerId with EscrowQty := (a.ownedBy ownerId).EscrowQty - qty }
          else { a.ownedBy ownerId with Quantity := (a.ownedBy ownerId).Quantity - qty })) ∧
    ((a.removeOwner ownerId qty isPending).OwnedBy ownerId = none ↔
      a.SoldOut ownerId qty isPending) ∧
    (∀ k, k ≠ ownerId → (a.removeOwner ownerId qty isPending).OwnedBy k = a.OwnedBy k) := by
  have hdel : a.SoldOut ownerId qty isPending →
      a.removeOwner ownerId qty isPending = a.deleteOwner ownerId ∧
      ownerId ∉ (a.removeOwner ownerId qty isPending).Owners ∧
      (a.removeOwner ownerId qty isPending).OwnedBy ownerId = none := fun h => by
    rw [Asset.removeOwner_of_soldOut a ownerId qty isPending h]
    exact ⟨rfl, Asset.deleteOwner_not_mem a ownerId, Asset.deleteOwner_OwnedBy_same a ownerId⟩
  have hsub : ¬ a.SoldOut ownerId qty isPending →
      a.removeOwner ownerId qty isPending = a.subtractOwner ownerId qty isPending ∧
      (a.removeOwner ownerId qty isPending).Owners = a.Owners ∧
      (a.removeOwner ownerId qty isPending).OwnedBy ownerId =
        some (if isPending = true then
            { a.ownedBy ownerId with EscrowQty := (a.ownedBy ownerId).EscrowQty - qty }
          else { a.ownedBy ownerId with Quantity := (a.ownedBy ownerId).Quantity - qty }) :=
    fun h => by
      rw [Asset.removeOwner_of_not_soldOut a ownerId qty isPending h]
      exact ⟨rfl, Asset.subtractOwner_Owners a ownerId qty isPending,
        Asset.subtractOwner_OwnedBy_same a ownerId qty isPending⟩
  refine ⟨hdel, hsub, ?_, fun k hk => Asset.removeOwner_OwnedBy_other a ownerId k qty isPending hk⟩
  constructor
  · intro hnone
    by_contra hc
    rw [(hsub hc).2.2] at hnone
    cases hnone
  · intro h
    exact (hdel h).2.2

theorem removeOwner_deletes_or_subtracts_witness :
    (escrowAsset (gold ⟨true, 5⟩) "ACME" 10).removeOwner "ACME" 10 true =
        (escrowAsset (gold ⟨true, 5⟩) "ACME" 10).subtractOwner "ACME" 10 true ∧
      ((escrowAsset (gold ⟨true, 5⟩) "ACME" 10).removeOwner "ACME" 10 true).Owners =
        (escrowAsset (gold ⟨true, 5⟩) "ACME" 10).Owners ∧
      ((escrowAsset (gold ⟨true, 5⟩) "ACME" 10).removeOwner "ACME" 10 true).OwnedBy "ACME" =
        some (if true = true then
            { (escrowAsset (gold ⟨true, 5⟩) "ACME" 10).ownedBy "ACME" with
              EscrowQty := ((escrowAsset (gold ⟨true, 5⟩) "ACME" 10).ownedBy "ACME").EscrowQty - 10 }
          else
            { (escrowAsset (gold ⟨true, 5⟩) "ACME" 10).ownedBy "ACME" with
              Quantity :=
                ((escrowAsset (gold ⟨true, 5⟩) "ACME" 10).ownedBy "ACME").Quantity - 10 }) :=
  (removeOwner_deletes_or_subtracts (escrowAsset (gold ⟨true, 5⟩) "ACME" 10) "ACME" 10 true).2.1
    (by
      unfold Asset.SoldOut
      with_unfolding_all decide)

/-- C25, `removeOwner` never leaves an empty holding record: for every asset,
owner id, quantity and flag, after `removeOwner(ownerId, qty, isPending)` either
`ownerId` has no entry in `OwnedBy` or its entry does not have both
`Quantity = 0` and `EscrowQty = 0`. -/
theorem removeOwner_no_empty_record (a : Asset) (ownerId : String) (qty : Int)
    (isPending : Bool) :
    (a.removeOwner ownerId qty isPending).OwnedBy ownerId = none ∨
      ∃ r, (a.removeOwner ownerId qty isPending).OwnedBy ownerId = some r ∧
        ¬ (r.Quantity = 0 ∧ r.EscrowQty = 0) := by
  by_cases h : a.SoldOut ownerId qty isPending
  · left
    rw [Asset.removeOwner_of_soldOut a ownerId qty isPending h]
    exact Asset.deleteOwner_OwnedBy_same a ownerId
  · right
    rw [Asset.removeOwner_of_not_soldOut a ownerId qty isPending h]
    refine ⟨_, Asset.subtractOwner_OwnedBy_same a ownerId qty isPending, ?_⟩
    unfold Asset.SoldOut at h
    cases isPending
    · rintro ⟨h1, h2⟩
      simp only [Bool.false_eq_true, if_false] at h1 h2
      exact h (Or.inr ⟨rfl, by omega, h2⟩)
    · rintro ⟨h1, h2⟩
      simp only [if_true] at h1 h2
      exact h (Or.inl ⟨rfl, h1, by omega⟩)

/-! ## Escrowing a holding -/

/-- C26, `escrowOwner(ownerId, qty)` on a holder with record `(Q, E)` yields
`(Q - qty, E + qty)`: the holder's `Quantity + EscrowQty` is unchanged, every
other holder's record, the `Owners` list and `asset.Quantity` are unchanged, and
`escrowOwner(ownerId, -qty)` applied afterwards restores the original asset, for
every integer `qty`. -/
theorem escrowOwner_moves_and_reverses (a : Asset) (ownerId : String) (qty : Int)
    (r : Marketplace.OwnedBy) (h : a.OwnedBy ownerId = some r) :
    (a.escrowOwner ownerId qty).OwnedBy ownerId =
      some ⟨r.OwnerId, r.Quantity - qty, r.EscrowQty + qty⟩ ∧
    (a.escrowOwner ownerId qty).held ownerId = a.held ownerId ∧
    (∀ k, k ≠ ownerId → (a.escrowOwner ownerId qty).OwnedBy k = a.OwnedBy k) ∧
    (a.escrowOwner ownerId qty).Owners = a.Owners ∧
    (a.escrowOwner ownerId qty).Quantity = a.Quantity ∧
    (a.escrowOwner ownerId qty).escrowOwner ownerId (-qty) = a := by
  refine ⟨?_, ?_, fun k hk => Asset.escrowOwner_OwnedBy_other a ownerId k qty hk, rfl, rfl, ?_⟩
  · simp [Asset.escrowOwner, Asset.setOwnedBy, Asset.ownedBy, h]
  · simp [Asset.held, Asset.escrowOwner, Asset.setOwnedBy, Asset.ownedBy, h]
  · obtain ⟨Id, Name, Information, Tag, Quantity, Price, Issuer, IssuedTS, IssuedQty, Owners,
      OwnedBy, Triggers, Contract⟩ := a
    simp only [Asset.escrowOwner, Asset.setOwnedBy, Asset.ownedBy] at h ⊢
    simp only [Asset.mk.injEq, true_and, and_true]
    funext k
    by_cases hk : k = ownerId
    · subst hk
      simp [h]
    · simp [hk]

theorem escrowOwner_moves_and_reverses_witness :
    ((gold ⟨false, 0⟩).escrowOwner "ACME" 10).OwnedBy "ACME" =
      some ⟨"ACME", 100 - 10, 0 + 10⟩ ∧
    (((gold ⟨false, 0⟩).escrowOwner "ACME" 10).escrowOwner "ACME" (-10)) = gold ⟨false, 0⟩ :=
  ⟨(escrowOwner_moves_and_reverses (gold ⟨false, 0⟩) "ACME" 10 ⟨"ACME", 100, 0⟩ rfl).1,
    (escrowOwner_moves_and_reverses (gold ⟨false, 0⟩) "ACME" 10 ⟨"ACME", 100, 0⟩ rfl).2.2.2.2.2⟩

/-! ## Dropping an asset from an owner -/

/-- C27, `removeAsset(asset, qty)`: when `qty` equals the live quantity of the
owner's record on the asset (escrow ignored, an absent record counting as 0) the
result is that of `deleteAsset(asset.Id)`, the id gone from `Assets`; otherwise
the owner is unchanged; so an id that was in `Assets` is gone if and only if
`qty` equals that live quantity.  Every other id of `Assets` and every field
other than `Assets` are unchanged in both cases. -/
theorem removeAsset_iff_live_holding (o : Owner) (asset : Asset) (qty : Int) :
    (qty = (asset.ownedBy o.OwnerId).Quantity →
      o.removeAsset asset qty = o.deleteAsset asset.Id ∧
      asset.Id ∉ (o.removeAsset asset qty).Assets) ∧
    (qty ≠ (asset.ownedBy o.OwnerId).Quantity → o.removeAsset asset qty = o) ∧
    (asset.Id ∈ o.Assets →
      (asset.Id ∉ (o.removeAsset asset qty).Assets ↔ qty = (asset.ownedBy o.OwnerId).Quantity)) ∧
    (asset.OwnedBy o.OwnerId = none → (asset.ownedBy o.OwnerId).Quantity = 0) ∧
    (∀ x, x ≠ asset.Id → (x ∈ (o.removeAsset asset qty).Assets ↔ x ∈ o.Assets)) ∧
    { o.removeAsset asset qty with Assets := o.Assets } = o := by
  have hzero : asset.OwnedBy o.OwnerId = none → (asset.ownedBy o.OwnerId).Quantity = 0 := by
    intro hn
    simp [Asset.ownedBy, hn]
  by_cases h : (asset.ownedBy o.OwnerId).Quantity = qty
  · have hr : o.removeAsset asset qty = o.deleteAsset asset.Id := by
      unfold Owner.removeAsset
      simp [h]
    rw [hr]
    have hgone : asset.Id ∉ (o.deleteAsset asset.Id).Assets := by
      simp [Owner.deleteAsset, DeleteElementFromSlice]
    refine ⟨fun _ => ⟨rfl, hgone⟩, fun hne => absurd h.symm hne,
      fun _ => ⟨fun _ => h.symm, fun _ => hgone⟩, hzero, ?_, rfl⟩
    intro x hx
    simp [Owner.deleteAsset, DeleteElementFromSlice, hx]
  · have hr : o.removeAsset asset qty = o := by
      unfold Owner.removeAsset
      simp [h]
    rw [hr]
    exact ⟨fun he => absurd he.symm h, fun _ => rfl,
      fun hmem => ⟨fun hn => absurd hmem hn, fun he => absurd he.symm h⟩, hzero,
      fun x _ => Iff.rfl, rfl⟩

theorem removeAsset_iff_live_holding_witness :
    acme.removeAsset (gold ⟨false, 0⟩) 100 = acme.deleteAsset (gold ⟨false, 0⟩).Id ∧
    (gold ⟨false, 0⟩).Id ∉ (acme.removeAsset (gold ⟨false, 0⟩) 100).Assets :=
  (removeAsset_iff_live_holding acme (gold ⟨false, 0⟩) 100).1 (by with_unfolding_all decide)

/-! ## The validation flag -/

theorem Owner.toggleValidation_OwnerId (o : Owner) : o.toggleValidation.OwnerId = o.OwnerId := by
  unfold Owner.toggleValidation
  split <;> rfl

theorem Owner.toggleValidation_Validated (o : Owner) :
    o.toggleValidation.Validated = !o.Validated := by
  unfold Owner.toggleValidation
  cases h : o.Validated <;> simp

theorem Owner.toggleValidation_eq (o : Owner) :
    o.toggleValidation = { o with Validated := !o.Validated } := by
  unfold Owner.toggleValidation
  cases h : o.Validated <;> simp

theorem Owner.toggleValidation_twice (o : Owner) : o.toggleValidation.toggleValidation = o := by
  rw [Owner.toggleValidation_eq, Owner.toggleValidation_eq]
  simp

theorem changeOwnerValidationStatus_of_doc (E : Env) (st : Store) (fn ownerId : String)
    (o : Owner) (ho : st ownerId = some (Doc.owner o)) :
    changeOwnerValidationStatus E st fn [ownerId] = ⟨none, o.toggleValidation.save st⟩ := by
  unfold changeOwnerValidationStatus
  simp only [getOwner_of_doc E st ownerId o ho]

/-- C30, `toggleValidation` flips the flag and nothing else: afterwards
`Validated` is the negation of its old value and all other fields are
unchanged.  Hence, on an owner document stored under `ownerId`, two
`changeOwnerValidationStatus` calls both succeed and leave the document stored
under `ownerId` exactly as it was (the whole store, when the document sits under
its own id), while a single call on a document under its own id stores the
negated flag: a validated owner becomes unvalidated. -/
theorem toggleValidation_involution (E : Env) (st : Store) (fn1 fn2 ownerId : String)
    (o : Owner) (ho : st ownerId = some (Doc.owner o)) :
    o.toggleValidation.Validated = (!o.Validated) ∧
    { o.toggleValidation with Validated := o.Validated } = o ∧
    (changeOwnerValidationStatus E st fn1 [ownerId]).err = none ∧
    (o.OwnerId = ownerId →
      (changeOwnerValidationStatus E st fn1 [ownerId]).store ownerId =
        some (Doc.owner { o with Validated := !o.Validated })) ∧
    (changeOwnerValidationStatus E (changeOwnerValidationStatus E st fn1 [ownerId]).store fn2
      [ownerId]).err = none ∧
    (changeOwnerValidationStatus E (changeOwnerValidationStatus E st fn1 [ownerId]).store fn2
      [ownerId]).store ownerId = some (Doc.owner o) ∧
    (o.OwnerId = ownerId →
      (changeOwnerValidationStatus E (changeOwnerValidationStatus E st fn1 [ownerId]).store fn2
        [ownerId]).store = st) := by
  have h1 := changeOwnerValidationStatus_of_doc E st fn1 ownerId o ho
  refine ⟨Owner.toggleValidation_Validated o, ?_, ?_, ?_, ?_⟩
  · rw [Owner.toggleValidation_eq]
  · rw [h1]
  · intro hid
    rw [h1, Owner.toggleValidation_eq]
    simp [Owner.save, PutState, hid]
  · rw [h1]
    by_cases hid : ownerId = o.OwnerId
    · have hst : (o.toggleValidation.save st) ownerId = some (Doc.owner o.toggleValidation) := by
        simp [Owner.save, PutState, Owner.toggleValidation_OwnerId, hid]
      rw [changeOwnerValidationStatus_of_doc E _ fn2 ownerId _ hst,
        Owner.toggleValidation_twice]
      refine ⟨rfl, ?_, fun _ => ?_⟩
      · simp [Owner.save, PutState, hid]
      · funext k
        by_cases hk : k = o.OwnerId
        · subst hk
          rw [← hid, ho]
          simp [Owner.save, PutState, hid]
        · simp [Owner.save, PutState, Owner.toggleValidation_OwnerId, hk]
    · have hst : (o.toggleValidation.save st) ownerId = some (Doc.owner o) := by
        simp [Owner.save, PutState, Owner.toggleValidation_OwnerId, hid, ho]
      rw [changeOwnerValidationStatus_of_doc E _ fn2 ownerId _ hst]
      refine ⟨rfl, ?_, fun h => absurd h.symm hid⟩
      simp [Owner.save, PutState, Owner.toggleValidation_OwnerId, hid, ho]

theorem toggleValidation_involution_witness :
    (changeOwnerValidationStatus (scenarioEnv 0) storeA "changeOwnerValidationStatus"
      ["ACME"]).store "ACME" = some (Doc.owner { acme with Validated := !acme.Validated }) ∧
    (changeOwnerValidationStatus (scenarioEnv 0)
      (changeOwnerValidationStatus (scenarioEnv 0) storeA "changeOwnerValidationStatus"
        ["ACME"]).store "changeOwnerValidationStatus" ["ACME"]).store = storeA :=
  ⟨(toggleValidation_involution (scenarioEnv 0) storeA "changeOwnerValidationStatus"
      "changeOwnerValidationStatus" "ACME" acme rfl).2.2.2.1 rfl,
    (toggleValidation_involution (scenarioEnv 0) storeA "changeOwnerValidationStatus"
      "changeOwnerValidationStatus" "ACME" acme rfl).2.2.2.2.2.2 rfl⟩

/-! ## Read-all operations -/

/-- The loop returns the documents of the ids in order when every id loads. -/
theorem readAllLoop_ok {α : Type} (get : List String → Except Err α) (R : String → α → Prop)
    (ids : List String) (full : List α)
    (h : ∀ id ∈ ids, ∃ x, get [id] = Except.ok x ∧ R id x) :
    ∃ l, readAllLoop get ids full = Except.ok (full ++ l) ∧ List.Forall₂ R ids l := by
  induction ids generalizing full with
  | nil => exact ⟨[], by simp [readAllLoop], List.Forall₂.nil⟩
  | cons id rest ih =>
    obtain ⟨x, hx, hR⟩ := h id (List.mem_cons_self id rest)
    obtain ⟨l, hl, hf⟩ := ih (full ++ [x]) (fun i hi => h i (List.mem_cons_of_mem id hi))
    refine ⟨x :: l, ?_, List.Forall₂.cons hR hf⟩
    simp only [readAllLoop, hx, hl]
    simp

/-- The loop fails when some id does not load. -/
theorem readAllLoop_err {α : Type} (get : List String → Except Err α)
    (ids : List String) (full : List α)
    (h : ∃ id ∈ ids, ∃ e, get [id] = Except.error e) :
    ∃ e, readAllLoop get ids full = Except.error e := by
  induction ids generalizing full with
  | nil =>
    obtain ⟨id, hid, _⟩ := h
    cases hid
  | cons id rest ih =>
    cases hg : get [id] with
    | error e => exact ⟨e, by simp [readAllLoop, hg]⟩
    | ok x =>
      obtain ⟨i, hi, e, he⟩ := h
      rcases List.mem_cons.mp hi with rfl | hi
      · rw [hg] at he
        cases he
      · obtain ⟨e2, h2⟩ := ih (full ++ [x]) ⟨i, hi, e, he⟩
        exact ⟨e2, by simp only [readAllLoop, hg, h2]⟩

theorem map_store_of_forall2 {α : Type} (st : Store) (docOf : α → Doc)
    (ids : List String) (l : List α)
    (h : List.Forall₂ (fun id x => st id = some (docOf x)) ids l) :
    l.map (fun x => some (docOf x)) = ids.map st := by
  induction h with
  | nil => rfl
  | cons hx _ ih => simp [hx, ih]

theorem getOwner_of_none (E : Env) (st : Store) (id : String) (h : st id = none) :
    getOwner E st [id] = Except.error (Err.stateMissing id "getOwner") := by
  simp [getOwner, h]

theorem getAsset_of_none (E : Env) (st : Store) (id : String) (h : st id = none) :
    getAsset E st [id] = Except.error (Err.stateMissing id "getAsset") := by
  simp [getAsset, h]

theorem getTransaction_of_none (E : Env) (st : Store) (id : String) (h : st id = none) :
    getTransaction E st [id] = Except.error (Err.stateMissing id "getTransaction") := by
  simp [getTransaction, h]

/-- C22, read-all returns registry order: in a ledger whose registry holds the
ids `ids`, if each id has a stored document of the registry's kind, then
`readAllOwners` / `readAllAssets` / `readAllTransactions`, called with no
arguments, return nil bytes when `ids` is empty and otherwise a list with one
document per registry entry, in the registry's order, the i-th document being
the one stored under the i-th id; and if some id has no stored document the
call returns an error. -/
theorem readAll_registry_order (E : Env) (st : Store) (fn : String) (ids : List String) :
    (st PRIMARYKEY0 = some (Doc.strings ids) →
      ((∀ id ∈ ids, ∃ o, st id = some (Doc.owner o)) →
        (ids = [] → readAllOwners E st fn [] = Except.ok none) ∧
        (ids ≠ [] → ∃ l, readAllOwners E st fn [] = Except.ok (some l) ∧
          l.map (fun o => some (Doc.owner o)) = ids.map st)) ∧
      ((∃ id ∈ ids, st id = none) → ∃ e, readAllOwners E st fn [] = Except.error e)) ∧
    (st PRIMARYKEY1 = some (Doc.strings ids) →
      ((∀ id ∈ ids, ∃ a, st id = some (Doc.asset a)) →
        (ids = [] → readAllAssets E st fn [] = Except.ok none) ∧
        (ids ≠ [] → ∃ l, readAllAssets E st fn [] = Except.ok (some l) ∧
          l.map (fun a => some (Doc.asset a)) = ids.map st)) ∧
      ((∃ id ∈ ids, st id = none) → ∃ e, readAllAssets E st fn [] = Except.error e)) ∧
    (st PRIMARYKEY2 = some (Doc.strings ids) →
      ((∀ id ∈ ids, ∃ t, st id = some (Doc.transaction t)) →
        (ids = [] → readAllTransactions E st fn [] = Except.ok none) ∧
        (ids ≠ [] → ∃ l, readAllTransactions E st fn [] = Except.ok (some l) ∧
          l.map (fun t => some (Doc.transaction t)) = ids.map st)) ∧
      ((∃ id ∈ ids, st id = none) →
        ∃ e, readAllTransactions E st fn [] = Except.error e)) := by
  refine ⟨fun hreg => ?_, fun hreg => ?_, fun hreg => ?_⟩
  · have hl := getDataArrayStrings_of_doc E st PRIMARYKEY0 ids hreg
    refine ⟨fun hdocs => ⟨fun hnil => ?_, fun hne => ?_⟩, fun hmiss => ?_⟩
    · subst hnil
      simp [readAllOwners, hl]
    · obtain ⟨l, hloop, hf⟩ := readAllLoop_ok (getOwner E st)
        (fun id x => st id = some (Doc.owner x)) ids [] (fun id hid => by
          obtain ⟨o, ho⟩ := hdocs id hid
          exact ⟨o, getOwner_of_doc E st id o ho, ho⟩)
      refine ⟨l, ?_, map_store_of_forall2 st Doc.owner ids l hf⟩
      have hpos : ids.length > 0 := List.length_pos.mpr hne
      simp [readAllOwners, hl, hpos, hloop]
    · obtain ⟨id, hid, hnone⟩ := hmiss
      have hpos : ids.length > 0 := List.length_pos.mpr (List.ne_nil_of_mem hid)
      obtain ⟨e, he⟩ := readAllLoop_err (getOwner E st) ids []
        ⟨id, hid, _, getOwner_of_none E st id hnone⟩
      exact ⟨e, by simp [readAllOwners, hl, hpos, he]⟩
  · have hl := getDataArrayStrings_of_doc E st PRIMARYKEY1 ids hreg
    refine ⟨fun hdocs => ⟨fun hnil => ?_, fun hne => ?_⟩, fun hmiss => ?_⟩
    · subst hnil
      simp [readAllAssets, hl]
    · obtain ⟨l, hloop, hf⟩ := readAllLoop_ok (getAsset E st)
        (fun id x => st id = some (Doc.asset x)) ids [] (fun id hid => by
          obtain ⟨o, ho⟩ := hdocs id hid
          exact ⟨o, getAsset_of_doc E st id o ho, ho⟩)
      refine ⟨l, ?_, map_store_of_forall2 st Doc.asset ids l hf⟩
      have hpos : ids.length > 0 := List.length_pos.mpr hne
      simp [readAllAssets, hl, hpos, hloop]
    · obtain ⟨id, hid, hnone⟩ := hmiss
      have hpos : ids.length > 0 := List.length_pos.mpr (List.ne_nil_of_mem hid)
      obtain ⟨e, he⟩ := readAllLoop_err (getAsset E st) ids []
        ⟨id, hid, _, getAsset_of_none E st id hnone⟩
      exact ⟨e, by simp [readAllAssets, hl, hpos, he]⟩
  · have hl := getDataArrayStrings_of_doc E st PRIMARYKEY2 ids hreg
    refine ⟨fun hdocs => ⟨fun hnil => ?_, fun hne => ?_⟩, fun hmiss => ?_⟩
    · subst hnil
      simp [readAllTransactions, hl]
    · obtain ⟨l, hloop, hf⟩ := readAllLoop_ok (getTransaction E st)
        (fun id x => st id = some (Doc.transaction x)) ids [] (fun id hid => by
          obtain ⟨o, ho⟩ := hdocs id hid
          exact ⟨o, getTransaction_of_doc E st id o ho, ho⟩)
      refine ⟨l, ?_, map_store_of_forall2 st Doc.transaction ids l hf⟩
      have hpos : ids.length > 0 := List.length_pos.mpr hne
      simp [readAllTransactions, hl, hpos, hloop]
    · obtain ⟨id, hid, hnone⟩ := hmiss
      have hpos : ids.length > 0 := List.length_pos.mpr (List.ne_nil_of_mem hid)
      obtain ⟨e, he⟩ := readAllLoop_err (getTransaction E st) ids []
        ⟨id, hid, _, getTransaction_of_none E st id hnone⟩
      exact ⟨e, by simp [readAllTransactions, hl, hpos, he]⟩

theorem readAll_registry_order_witness :
    ∃ l, readAllOwners (scenarioEnv 0) storeA "readAllOwners" [] = Except.ok (some l) ∧
      l.map (fun o => some (Doc.owner o)) = ["ACME", "BOB"].map storeA :=
  ((readAll_registry_order (scenarioEnv 0) storeA "readAllOwners" ["ACME", "BOB"]).1 rfl).1
    (fun id hid => by
      rcases List.mem_cons.mp hid with rfl | hid
      · exact ⟨acme, rfl⟩
      · rcases List.mem_cons.mp hid with rfl | hid
        · exact ⟨bob, rfl⟩
        · cases hid) |>.2 (by simp)

/-! ## The order of the trading checks -/

/-- C23, validation order decides the error: in `transactAsset` with the
arguments parsed and all three entities loaded, the error returned is that of
the first failing check in the order seller not validated, buyer not validated,
ownership mismatch, insufficient balance (the balance below the product
`price*quantity` as `float64` arithmetic gives it), insufficient holdings, price
mismatch, whatever the later checks would say; and the store is unchanged. -/
theorem validation_order_decides_error (E : Env) (st : Store) (fn : String)
    (assetId sellerId buyerId arg3 arg4 arg5 : String) (quantity : Int) (price : ℚ)
    (asset : Asset) (seller buyer : Owner)
    (hq : E.Atoi arg3 = some quantity) (hp : E.ParseFloat arg4 = some price)
    (ha : getAsset E st [assetId] = Except.ok asset)
    (hs : getOwner E st [sellerId] = Except.ok seller)
    (hb : getOwner E st [buyerId] = Except.ok buyer) :
    (seller.Validated = false →
      transactAsset E st fn [assetId, sellerId, buyerId, arg3, arg4, arg5] =
        ⟨some (Err.notValidated seller.OwnerId fn), st⟩) ∧
    (seller.Validated = true → buyer.Validated = false →
      transactAsset E st fn [assetId, sellerId, buyerId, arg3, arg4, arg5] =
        ⟨some (Err.notValidated buyer.OwnerId fn), st⟩) ∧
    (seller.Validated = true → buyer.Validated = true →
      ¬ (sellerId ∈ asset.Owners ∧ asset.Id ∈ seller.Assets) →
      transactAsset E st fn [assetId, sellerId, buyerId, arg3, arg4, arg5] =
        ⟨some Err.ownershipIssues, st⟩) ∧
    (seller.Validated = true → buyer.Validated = true →
      (sellerId ∈ asset.Owners ∧ asset.Id ∈ seller.Assets) →
      buyer.Balance < E.mulFloat price (E.floatOfInt quantity) →
      transactAsset E st fn [assetId, sellerId, buyerId, arg3, arg4, arg5] =
        ⟨some Err.insufficientBalance, st⟩) ∧
    (seller.Validated = true → buyer.Validated = true →
      (sellerId ∈ asset.Owners ∧ asset.Id ∈ seller.Assets) →
      buyer.Balance ≥ E.mulFloat price (E.floatOfInt quantity) →
      (asset.ownedBy sellerId).Quantity < quantity →
      transactAsset E st fn [assetId, sellerId, buyerId, arg3, arg4, arg5] =
        ⟨some Err.insufficientQuantity, st⟩) ∧
    (seller.Validated = true → buyer.Validated = true →
      (sellerId ∈ asset.Owners ∧ asset.Id ∈ seller.Assets) →
      buyer.Balance ≥ E.mulFloat price (E.floatOfInt quantity) →
      (asset.ownedBy sellerId).Quantity ≥ quantity → price ≠ asset.Price →
      transactAsset E st fn [assetId, sellerId, buyerId, arg3, arg4, arg5] =
        ⟨some Err.priceMismatch, st⟩) := by
  have hfail := fun e hr => transactAsset_of_failed_requirement E st fn assetId sellerId buyerId
    arg3 arg4 arg5 quantity price asset seller buyer e hq hp ha hs hb hr
  refine ⟨fun h1 => ?_, fun h1 h2 => ?_, fun h1 h2 h3 => ?_, fun h1 h2 h3 h4 => ?_,
    fun h1 h2 h3 h4 h5 => ?_, fun h1 h2 h3 h4 h5 h6 => ?_⟩
  · apply hfail
    simp [tradingRequirements, Owner.isValidated, h1]
  · apply hfail
    simp [tradingRequirements, Owner.isValidated, h1, h2]
  · apply hfail
    have h3b : ¬ (IsElementInSlice asset.Owners sellerId = true ∧
        IsElementInSlice seller.Assets asset.Id = true) := by
      simpa [IsElementInSlice_iff] using h3
    have h3c : IsElementInSlice asset.Owners sellerId = false ∨
        IsElementInSlice seller.Assets asset.Id = false := by
      by_contra hc
      simp only [not_or, Bool.not_eq_false] at hc
      exact h3b hc
    simp [tradingRequirements, Owner.isValidated, h1, h2, h3c]
  · apply hfail
    have ho1 : IsElementInSlice asset.Owners sellerId = true :=
      (IsElementInSlice_iff _ _).mpr h3.1
    have ho2 : IsElementInSlice seller.Assets asset.Id = true :=
      (IsElementInSlice_iff _ _).mpr h3.2
    simp [tradingRequirements, Owner.isValidated, Owner.verifyBalance, h1, h2, ho1, ho2, h4]
  · apply hfail
    have ho1 : IsElementInSlice asset.Owners sellerId = true :=
      (IsElementInSlice_iff _ _).mpr h3.1
    have ho2 : IsElementInSlice seller.Assets asset.Id = true :=
      (IsElementInSlice_iff _ _).mpr h3.2
    have h4b : ¬ buyer.Balance < E.mulFloat price (E.floatOfInt quantity) := not_lt.mpr h4
    simp [tradingRequirements, Owner.isValidated, Owner.verifyBalance, Asset.verifyHoldings,
      h1, h2, ho1, ho2, h4b, h5]
  · apply hfail
    have ho1 : IsElementInSlice asset.Owners sellerId = true :=
      (IsElementInSlice_iff _ _).mpr h3.1
    have ho2 : IsElementInSlice seller.Assets asset.Id = true :=
      (IsElementInSlice_iff _ _).mpr h3.2
    have h4b : ¬ buyer.Balance < E.mulFloat price (E.floatOfInt quantity) := not_lt.mpr h4
    have h5b : ¬ (asset.ownedBy sellerId).Quantity < quantity := not_lt.mpr h5
    simp [tradingRequirements, Owner.isValidated, Owner.verifyBalance, Asset.verifyHoldings,
      Asset.verifyPrice, h1, h2, ho1, ho2, h4b, h5b, Ne.symm h6]

theorem validation_order_decides_error_witness :
    carol.Validated = false ∧ bob.Balance < (21 / 2) * ((100 : Int) : ℚ) ∧
    (21 / 2 : ℚ) ≠ (gold ⟨false, 0⟩).Price ∧
    transactAsset (scenarioEnv 0) storeCarol "transactAsset"
        ["GOLD", "CAROL", "BOB", "100", "10.5", "FALSE"] =
      ⟨some (Err.notValidated carol.OwnerId "transactAsset"), storeCarol⟩ :=
  ⟨rfl, by with_unfolding_all decide, by with_unfolding_all decide,
    (validation_order_decides_error (scenarioEnv 0) storeCarol "transactAsset"
      "GOLD" "CAROL" "BOB" "100" "10.5" "FALSE" 100 (21 / 2) (gold ⟨false, 0⟩) carol bob
      (by decide) (by with_unfolding_all rfl) (by with_unfolding_all rfl)
      (by with_unfolding_all rfl) (by with_unfolding_all rfl)).1 rfl⟩

/-! ## Seller membership after a direct trade -/

theorem directSeller_Assets (E : Env) (seller : Owner) (asset : Asset) (t s : String) (q : Int) (x : ℚ)
    (hsid : seller.OwnerId = s) :
    (directSeller E seller asset t s q x).Assets =
      if (asset.ownedBy s).Quantity = q then DeleteElementFromSlice seller.Assets asset.Id
      else seller.Assets := by
  unfold directSeller Owner.removeAsset
  by_cases h : (asset.ownedBy s).Quantity = q
  · simp [h, hsid, Owner.deleteAsset, Owner.addTransaction]
  · simp [h, hsid, Owner.addTransaction]

theorem directAsset_seller_mem (asset : Asset) (s b : String) (q : Int) (hne : b ≠ s)
    (hmem : s ∈ asset.Owners)
    (h : ¬ ((asset.ownedBy s).Quantity = q ∧ (asset.ownedBy s).EscrowQty = 0)) :
    s ∈ (directAsset asset s b q).Owners := by
  unfold directAsset
  have hs : ((tradedAsset asset s q).addOwner b q).ownedBy s = asset.ownedBy s := by
    rw [Asset.addOwner_ownedBy_other _ b s q (Ne.symm hne)]
    simp
  rw [Asset.removeOwner_of_not_soldOut _ s q false (by
    unfold Asset.SoldOut
    rw [hs]
    rintro (⟨hp, _⟩ | ⟨_, hc⟩)
    · cases hp
    · exact h hc), Asset.subtractOwner_Owners]
  exact Asset.mem_addOwner_Owners _ b q s (by simpa using hmem)

/-- The seller and asset documents a successful direct trade stores, with what
the passed requirements say about the seller. -/
theorem transactAsset_direct_docs (E : Env) (st : Store) (fn : String)
    (assetId sellerId buyerId arg3 arg4 arg5 : String) (quantity : Int) (price : ℚ)
    (asset : Asset) (seller buyer : Owner) (ledger : List String)
    (hq : E.Atoi arg3 = some quantity) (hp : E.ParseFloat arg4 = some price)
    (ha : st assetId = some (Doc.asset asset)) (haid : asset.Id = assetId)
    (hs : st sellerId = some (Doc.owner seller)) (hsid : seller.OwnerId = sellerId)
    (hb : st buyerId = some (Doc.owner buyer))
    (hl : st PRIMARYKEY2 = some (Doc.strings ledger))
    (hdirect : ¬ (arg5 = "TRUE" ∨
      (asset.Triggers.Approval = true ∧ quantity > asset.Triggers.ApprovalQty)))
    (hid : ∀ d, st (newTransactionId E assetId sellerId buyerId E.Now) = some d →
      ∃ t, d = Doc.transaction t)
    (hsucc : (transactAsset E st fn [assetId, sellerId, buyerId, arg3, arg4, arg5]).err = none) :
    sellerId ∈ asset.Owners ∧ asset.Id ∈ seller.Assets ∧
    (transactAsset E st fn [assetId, sellerId, buyerId, arg3, arg4, arg5]).store sellerId =
      some (Doc.owner (directSeller E seller asset
        (newTransactionId E assetId sellerId buyerId E.Now) sellerId quantity
        (E.mulFloat price (E.floatOfInt quantity)))) ∧
    (transactAsset E st fn [assetId, sellerId, buyerId, arg3, arg4, arg5]).store assetId =
      some (Doc.asset (directAsset asset sellerId buyerId quantity)) := by
  obtain ⟨q2, p2, a2, s2, b2, tx0, l2, tx, hq2, hp2, ha2, hs2, hb2, hr, hc, hl2, hf, heq⟩ :=
    transactAsset_ok_inv E st fn assetId sellerId buyerId arg3 arg4 arg5 hsucc
  rw [hq] at hq2; cases hq2
  rw [hp] at hp2; cases hp2
  rw [getAsset_of_doc E st assetId asset ha] at ha2; cases ha2
  rw [getOwner_of_doc E st sellerId seller hs] at hs2; cases hs2
  rw [getOwner_of_doc E st buyerId buyer hb] at hb2; cases hb2
  obtain ⟨htid, _⟩ := trade_transaction_fields E asset quantity price assetId sellerId buyerId
    tx0 tx hc hf
  obtain ⟨_, _, h3, h4, _, _, _⟩ := (tradingRequirements_eq_none_iff fn asset seller buyer
    sellerId quantity price (E.mulFloat price (E.floatOfInt quantity))).mp hr
  have hA : ¬ (if asset.Triggers.Approval = true ∧ quantity > asset.Triggers.ApprovalQty
      then "TRUE" else arg5) = "TRUE" :=
    fun h => hdirect ((approvalRequired_iff asset quantity arg5).mp h)
  have k2 : sellerId ≠ PRIMARYKEY2 := key_ne_of_doc hs hl (by simp)
  have k3 : assetId ≠ PRIMARYKEY2 := key_ne_of_doc ha hl (by simp)
  have k5 : sellerId ≠ newTransactionId E assetId sellerId buyerId E.Now :=
    key_ne_of_tx hs hid (by simp)
  have k6 : assetId ≠ newTransactionId E assetId sellerId buyerId E.Now :=
    key_ne_of_tx ha hid (by simp)
  have k8 : sellerId ≠ assetId := key_ne_of_doc hs ha (by simp)
  rw [heq, settleTrade_direct _ _ _ _ _ _ _ _ _ _ _ _ _ hA]
  simp only [persistTrade_store]
  refine ⟨h3, h4, ?_, ?_⟩
  · simp [k2, k5, k8, haid, hsid, htid]
  · simp [k3, k6, haid, htid]

/-- C28, as stated, fails.  In the rich-buyer scenario `ACME` has escrowed 10
of its 100 units of `GOLD` and its `Assets` list contains `GOLD`, its holding
90 + 10 being nonzero; the direct trade of the 90 live units to `BOB`
(quantity > 0, buyer != seller) succeeds with status `Validated`, after which the
stored `ACME` no longer has `GOLD` in `Assets` although its stored holder record
is quantity 0, escrow 10 (live + escrow = 10) and `ACME` is still in
`GOLD.Owners`. -/
theorem direct_trade_drops_asset_of_escrowing_seller :
    (∃ s a, storeRichPending "ACME" = some (Doc.owner s) ∧
      storeRichPending "GOLD" = some (Doc.asset a) ∧ "GOLD" ∈ s.Assets ∧
      a.OwnedBy "ACME" = some ⟨"ACME", 90, 10⟩ ∧ a.held "ACME" ≠ 0) ∧
    (transactAsset (scenarioEnv 1) storeRichPending "transactAsset" remainderArgs).err = none ∧
    (∃ t, storeRichSold (newTransactionId (scenarioEnv 1) "GOLD" "ACME" "BOB" 1) =
      some (Doc.transaction t) ∧ t.Status = "Validated" ∧ t.Quantity = 90) ∧
    (∃ s a, storeRichSold "ACME" = some (Doc.owner s) ∧
      storeRichSold "GOLD" = some (Doc.asset a) ∧ "GOLD" ∉ s.Assets ∧
      a.OwnedBy "ACME" = some ⟨"ACME", 0, 10⟩ ∧ a.held "ACME" = 10 ∧ "ACME" ∈ a.Owners) :=
  ⟨⟨_, _, by with_unfolding_all rfl, by with_unfolding_all rfl, by with_unfolding_all decide,
      by with_unfolding_all rfl, by with_unfolding_all decide⟩,
    by with_unfolding_all rfl,
    ⟨_, by with_unfolding_all rfl, by with_unfolding_all rfl, by with_unfolding_all rfl⟩,
    ⟨_, _, by with_unfolding_all rfl, by with_unfolding_all rfl, by with_unfolding_all decide,
      by with_unfolding_all rfl, by with_unfolding_all rfl, by with_unfolding_all decide⟩⟩

/-- C28 amended: after a successful direct-path `transactAsset` with
`buyer != seller`, the stored seller has the asset id in `Assets` if and only if
the quantity sold differs from the seller's live quantity before the trade,
while the seller stays in `asset.Owners` unless that live quantity equals the
quantity sold and nothing is in escrow.  So when the seller had nothing of the
asset in escrow, the stored seller has the asset id in `Assets` if and only if
its stored live + escrow holding is nonzero, and if and only if the seller id
is in `asset.Owners`; but a seller who sells its whole live quantity while part
of its holding is in escrow loses the asset id and keeps a nonzero holding.
The documents sit under their own ids, and the key of the transaction id is
unused or holds a transaction. -/
theorem direct_trade_seller_membership (E : Env) (st : Store) (fn : String)
    (assetId sellerId buyerId arg3 arg4 arg5 : String) (quantity : Int) (price : ℚ)
    (asset : Asset) (seller buyer : Owner) (ledger : List String)
    (hq : E.Atoi arg3 = some quantity) (hp : E.ParseFloat arg4 = some price)
    (ha : st assetId = some (Doc.asset asset)) (haid : asset.Id = assetId)
    (hs : st sellerId = some (Doc.owner seller)) (hsid : seller.OwnerId = sellerId)
    (hb : st buyerId = some (Doc.owner buyer))
    (hl : st PRIMARYKEY2 = some (Doc.strings ledger))
    (hne : buyerId ≠ sellerId)
    (hdirect : ¬ (arg5 = "TRUE" ∨
      (asset.Triggers.Approval = true ∧ quantity > asset.Triggers.ApprovalQty)))
    (hid : ∀ d, st (newTransactionId E assetId sellerId buyerId E.Now) = some d →
      ∃ t, d = Doc.transaction t)
    (hsucc : (transactAsset E st fn [assetId, sellerId, buyerId, arg3, arg4, arg5]).err = none) :
    ∃ s a,
      (transactAsset E st fn [assetId, sellerId, buyerId, arg3, arg4, arg5]).store sellerId =
        some (Doc.owner s) ∧
      (transactAsset E st fn [assetId, sellerId, buyerId, arg3, arg4, arg5]).store assetId =
        some (Doc.asset a) ∧
      (assetId ∈ s.Assets ↔ (asset.ownedBy sellerId).Quantity ≠ quantity) ∧
      (sellerId ∈ a.Owners ↔
        ¬ ((asset.ownedBy sellerId).Quantity = quantity ∧
          (asset.ownedBy sellerId).EscrowQty = 0)) ∧
      ((asset.ownedBy sellerId).EscrowQty = 0 →
        (assetId ∈ s.Assets ↔ a.held sellerId ≠ 0) ∧
        (assetId ∈ s.Assets ↔ sellerId ∈ a.Owners)) ∧
      ((asset.ownedBy sellerId).Quantity = quantity → (asset.ownedBy sellerId).EscrowQty ≠ 0 →
        assetId ∉ s.Assets ∧ a.held sellerId = (asset.ownedBy sellerId).EscrowQty ∧
        sellerId ∈ a.Owners) := by
  obtain ⟨hown, hmem, hstS, hstA⟩ := transactAsset_direct_docs E st fn assetId sellerId buyerId
    arg3 arg4 arg5 quantity price asset seller buyer ledger hq hp ha haid hs hsid hb hl hdirect
    hid hsucc
  rw [haid] at hmem
  have hAssets := directSeller_Assets E seller asset
    (newTransactionId E assetId sellerId buyerId E.Now) sellerId quantity
    (E.mulFloat price (E.floatOfInt quantity)) hsid
  rw [haid] at hAssets
  have hS : assetId ∈ (directSeller E seller asset
      (newTransactionId E assetId sellerId buyerId E.Now) sellerId quantity
      (E.mulFloat price (E.floatOfInt quantity))).Assets ↔ (asset.ownedBy sellerId).Quantity ≠ quantity := by
    rw [hAssets]
    by_cases h : (asset.ownedBy sellerId).Quantity = quantity
    · simp [h, DeleteElementFromSlice]
    · simp [h, hmem]
  have hO : sellerId ∈ (directAsset asset sellerId buyerId quantity).Owners ↔
      ¬ ((asset.ownedBy sellerId).Quantity = quantity ∧
        (asset.ownedBy sellerId).EscrowQty = 0) := by
    constructor
    · intro hin hc
      exact (directAsset_seller_delete asset sellerId buyerId quantity hne hc).2 hin
    · intro hc
      exact directAsset_seller_mem asset sellerId buyerId quantity hne hown hc
  have hheld : ¬ ((asset.ownedBy sellerId).Quantity = quantity ∧
        (asset.ownedBy sellerId).EscrowQty = 0) →
      (directAsset asset sellerId buyerId quantity).held sellerId =
        (asset.ownedBy sellerId).Quantity - quantity + (asset.ownedBy sellerId).EscrowQty := by
    intro hc
    simp [Asset.held, Asset.ownedBy,
      directAsset_seller_keep asset sellerId buyerId quantity hne hc]
  refine ⟨_, _, hstS, hstA, hS, hO, ?_, ?_⟩
  · intro hE
    by_cases h : (asset.ownedBy sellerId).Quantity = quantity
    · have hdel := directAsset_seller_delete asset sellerId buyerId quantity hne ⟨h, hE⟩
      have h0 : (directAsset asset sellerId buyerId quantity).held sellerId = 0 :=
        Asset.held_of_none _ _ hdel.1
      rw [hS, hO, h0]
      simp [h, hE]
    · have hc : ¬ ((asset.ownedBy sellerId).Quantity = quantity ∧
          (asset.ownedBy sellerId).EscrowQty = 0) := fun hc => h hc.1
      rw [hS, hO, hheld hc, hE]
      have hnz : (asset.ownedBy sellerId).Quantity - quantity ≠ 0 := by omega
      simp [h, hnz]
  · intro hQ hE
    have hc : ¬ ((asset.ownedBy sellerId).Quantity = quantity ∧
        (asset.ownedBy sellerId).EscrowQty = 0) := fun hc => hE hc.2
    refine ⟨fun hin => (hS.mp hin) hQ, ?_, hO.mpr hc⟩
    rw [hheld hc, hQ]
    omega

theorem direct_trade_seller_membership_witness :
    ∃ s a,
      (transactAsset (scenarioEnv 0) storeA "transactAsset"
        ["GOLD", "ACME", "BOB", "10", "10.0", "FALSE"]).store "ACME" = some (Doc.owner s) ∧
      (transactAsset (scenarioEnv 0) storeA "transactAsset"
        ["GOLD", "ACME", "BOB", "10", "10.0", "FALSE"]).store "GOLD" = some (Doc.asset a) ∧
      ("GOLD" ∈ s.Assets ↔ ((gold ⟨false, 0⟩).ownedBy "ACME").Quantity ≠ 10) ∧
      ("ACME" ∈ a.Owners ↔
        ¬ (((gold ⟨false, 0⟩).ownedBy "ACME").Quantity = 10 ∧
          ((gold ⟨false, 0⟩).ownedBy "ACME").EscrowQty = 0)) ∧
      (((gold ⟨false, 0⟩).ownedBy "ACME").EscrowQty = 0 →
        ("GOLD" ∈ s.Assets ↔ a.held "ACME" ≠ 0) ∧
        ("GOLD" ∈ s.Assets ↔ "ACME" ∈ a.Owners)) ∧
      (((gold ⟨false, 0⟩).ownedBy "ACME").Quantity = 10 →
        ((gold ⟨false, 0⟩).ownedBy "ACME").EscrowQty ≠ 0 →
        "GOLD" ∉ s.Assets ∧ a.held "ACME" = ((gold ⟨false, 0⟩).ownedBy "ACME").EscrowQty ∧
        "ACME" ∈ a.Owners) :=
  direct_trade_seller_membership (scenarioEnv 0) storeA "transactAsset"
    "GOLD" "ACME" "BOB" "10" "10.0" "FALSE" 10 10 (gold ⟨false, 0⟩) acme bob []
    (by decide) (by with_unfolding_all rfl) rfl rfl rfl rfl rfl rfl (by decide) (by decide)
    (fun d hd => by
      rw [show storeA (newTransactionId (scenarioEnv 0) "GOLD" "ACME" "BOB" (scenarioEnv 0).Now)
        = none from by with_unfolding_all rfl] at hd
      cases hd) (by with_unfolding_all rfl)

/-! ## Seller membership after an approval -/

theorem Owner.approveSellTransaction_Assets (E : Env) (o : Owner) (a : Asset) (x : ℚ) (q : Int) :
    (o.approveSellTransaction E a x q).Assets =
      if (a.ownedBy o.OwnerId).EscrowQty = q ∧ (a.ownedBy o.OwnerId).Quantity = 0 then
        DeleteElementFromSlice o.Assets a.Id
      else o.Assets := by
  unfold Owner.approveSellTransaction
  by_cases h : (a.ownedBy o.OwnerId).EscrowQty = q ∧ (a.ownedBy o.OwnerId).Quantity = 0
  · simp [h, Owner.deleteAsset]
  · simp [h]

/-- C29, approve keeps seller membership and holding in step: in a ledger
holding a `Pending` transaction (`buyer != seller`) whose buyer, seller and
asset exist, `approveTransaction` succeeds and, exactly when before the approval
the seller's live quantity is 0 and its `EscrowQty` equals the transaction
quantity, the asset id is removed from the stored seller's `Assets` list and
the seller's holder record is deleted from the stored asset; otherwise the list
is unchanged and the record is kept.  For a seller that had the asset id in
`Assets`, the id is gone if and only if the record is gone.  The stored buyer
has the asset id in `Assets` and a holder record on the stored asset.  The
documents sit under their own ids, and the key of the pending registry is
unused or holds a registry. -/
theorem approve_seller_membership_in_step (E : Env) (st : Store) (fn txId : String)
    (tx : Transaction) (buyer seller : Owner) (asset : Asset)
    (htx : st txId = some (Doc.transaction tx)) (htid : tx.Id = txId)
    (hstat : tx.Status = "Pending") (hne : tx.BuyerId ≠ tx.SellerId)
    (hb : st tx.BuyerId = some (Doc.owner buyer)) (hbid : buyer.OwnerId = tx.BuyerId)
    (hs : st tx.SellerId = some (Doc.owner seller)) (hsid : seller.OwnerId = tx.SellerId)
    (ha : st tx.AssetId = some (Doc.asset asset)) (haid : asset.Id = tx.AssetId)
    (hreg : ∀ d, st PRIMARYKEY3 = some d → ∃ l, d = Doc.strings l) :
    (approveTransaction E st fn [txId]).err = none ∧
    ∃ s a b,
      (approveTransaction E st fn [txId]).store tx.SellerId = some (Doc.owner s) ∧
      (approveTransaction E st fn [txId]).store tx.AssetId = some (Doc.asset a) ∧
      (approveTransaction E st fn [txId]).store tx.BuyerId = some (Doc.owner b) ∧
      (((asset.ownedBy tx.SellerId).Quantity = 0 ∧
          (asset.ownedBy tx.SellerId).EscrowQty = tx.Quantity) →
        s.Assets = DeleteElementFromSlice seller.Assets tx.AssetId ∧ tx.AssetId ∉ s.Assets ∧
        a.OwnedBy tx.SellerId = none ∧ tx.SellerId ∉ a.Owners) ∧
      (¬ ((asset.ownedBy tx.SellerId).Quantity = 0 ∧
          (asset.ownedBy tx.SellerId).EscrowQty = tx.Quantity) →
        s.Assets = seller.Assets ∧ (a.OwnedBy tx.SellerId).isSome = true) ∧
      (a.OwnedBy tx.SellerId = none ↔
        ((asset.ownedBy tx.SellerId).Quantity = 0 ∧
          (asset.ownedBy tx.SellerId).EscrowQty = tx.Quantity)) ∧
      (tx.AssetId ∈ seller.Assets → (tx.AssetId ∉ s.Assets ↔ a.OwnedBy tx.SellerId = none)) ∧
      tx.AssetId ∈ b.Assets ∧ (a.OwnedBy tx.BuyerId).isSome = true := by
  obtain ⟨herr, hstore, _⟩ := approveTransaction_store E st fn txId tx buyer seller
    asset htx htid hstat hb hbid hs hsid ha haid hreg
  have k2 : tx.AssetId ≠ PRIMARYKEY3 := key_ne_of_registry ha hreg (by simp)
  have k3 : tx.SellerId ≠ PRIMARYKEY3 := key_ne_of_registry hs hreg (by simp)
  have k4 : tx.BuyerId ≠ PRIMARYKEY3 := key_ne_of_registry hb hreg (by simp)
  have k5 : tx.AssetId ≠ txId := key_ne_of_doc ha htx (by simp)
  have k6 : tx.SellerId ≠ txId := key_ne_of_doc hs htx (by simp)
  have k7 : tx.BuyerId ≠ txId := key_ne_of_doc hb htx (by simp)
  have k8 : tx.SellerId ≠ tx.AssetId := key_ne_of_doc hs ha (by simp)
  have k9 : tx.BuyerId ≠ tx.AssetId := key_ne_of_doc hb ha (by simp)
  have hsell : (asset.addOwner tx.BuyerId tx.Quantity).ownedBy tx.SellerId =
      asset.ownedBy tx.SellerId :=
    Asset.addOwner_ownedBy_other asset tx.BuyerId tx.SellerId tx.Quantity (Ne.symm hne)
  have hAssets := Owner.approveSellTransaction_Assets E seller asset
    (E.mulFloat tx.Price (E.floatOfInt tx.Quantity)) tx.Quantity
  rw [hsid, haid] at hAssets
  have hdel : ((asset.ownedBy tx.SellerId).Quantity = 0 ∧
        (asset.ownedBy tx.SellerId).EscrowQty = tx.Quantity) →
      ((asset.addOwner tx.BuyerId tx.Quantity).removeOwner tx.SellerId tx.Quantity true).OwnedBy
          tx.SellerId = none ∧
        tx.SellerId ∉ ((asset.addOwner tx.BuyerId tx.Quantity).removeOwner tx.SellerId
          tx.Quantity true).Owners := fun h => by
    apply Asset.removeOwner_pending_delete
    rw [hsell]
    exact h
  have hkeep : ¬ ((asset.ownedBy tx.SellerId).Quantity = 0 ∧
        (asset.ownedBy tx.SellerId).EscrowQty = tx.Quantity) →
      (((asset.addOwner tx.BuyerId tx.Quantity).removeOwner tx.SellerId tx.Quantity
        true).OwnedBy tx.SellerId).isSome = true := fun h => by
    rw [Asset.removeOwner_pending_keep _ _ _ (by rw [hsell]; exact h)]
    rfl
  have hgone : ((asset.ownedBy tx.SellerId).Quantity = 0 ∧
        (asset.ownedBy tx.SellerId).EscrowQty = tx.Quantity) →
      (seller.approveSellTransaction E asset (E.mulFloat tx.Price (E.floatOfInt tx.Quantity)) tx.Quantity).Assets =
        DeleteElementFromSlice seller.Assets tx.AssetId := fun h => by
    rw [hAssets, if_pos ⟨h.2, h.1⟩]
  have hsame : ¬ ((asset.ownedBy tx.SellerId).Quantity = 0 ∧
        (asset.ownedBy tx.SellerId).EscrowQty = tx.Quantity) →
      (seller.approveSellTransaction E asset (E.mulFloat tx.Price (E.floatOfInt tx.Quantity)) tx.Quantity).Assets =
        seller.Assets := fun h => by
    rw [hAssets, if_neg (fun hc => h ⟨hc.2, hc.1⟩)]
  have hnone : ((asset.addOwner tx.BuyerId tx.Quantity).removeOwner tx.SellerId tx.Quantity
        true).OwnedBy tx.SellerId = none ↔
      ((asset.ownedBy tx.SellerId).Quantity = 0 ∧
        (asset.ownedBy tx.SellerId).EscrowQty = tx.Quantity) := by
    constructor
    · intro hn
      by_contra hc
      have := hkeep hc
      rw [hn] at this
      cases this
    · intro h
      exact (hdel h).1
  refine ⟨herr,
    seller.approveSellTransaction E asset (E.mulFloat tx.Price (E.floatOfInt tx.Quantity)) tx.Quantity,
    (asset.addOwner tx.BuyerId tx.Quantity).removeOwner tx.SellerId tx.Quantity true,
    buyer.approveBuyTransaction E tx.AssetId (E.mulFloat tx.Price (E.floatOfInt tx.Quantity)),
    ?_, ?_, ?_, ?_, ?_, hnone, ?_, Owner.approveBuyTransaction_Assets _ _ _ _, ?_⟩
  · rw [hstore _ k3]
    simp [k6, k8]
  · rw [hstore _ k2]
    simp [k5]
  · rw [hstore _ k4]
    simp [k7, k9, hne]
  · intro h
    refine ⟨hgone h, ?_, hdel h⟩
    rw [hgone h]
    simp [DeleteElementFromSlice]
  · intro h
    exact ⟨hsame h, hkeep h⟩
  · intro hmem
    rw [hnone]
    constructor
    · intro hn
      by_contra hc
      rw [hsame hc] at hn
      exact hn hmem
    · intro h
      rw [hgone h]
      simp [DeleteElementFromSlice]
  · rw [Asset.removeOwner_OwnedBy_other _ _ _ _ _ hne]
    exact Asset.addOwner_OwnedBy_isSome _ _ _

theorem approve_seller_membership_in_step_witness :
    (approveTransaction (scenarioEnv 0) storeBPending "approveTransaction" [scenarioTxId]).err =
      none ∧
    ∃ s a b,
      (approveTransaction (scenarioEnv 0) storeBPending "approveTransaction"
        [scenarioTxId]).store "ACME" = some (Doc.owner s) ∧
      (approveTransaction (scenarioEnv 0) storeBPending "approveTransaction"
        [scenarioTxId]).store "GOLD" = some (Doc.asset a) ∧
      (approveTransaction (scenarioEnv 0) storeBPending "approveTransaction"
        [scenarioTxId]).store "BOB" = some (Doc.owner b) ∧
      s.Assets = (acme.addTransaction scenarioTxId).Assets ∧
      (a.OwnedBy "ACME").isSome = true ∧ "GOLD" ∈ b.Assets ∧ (a.OwnedBy "BOB").isSome = true := by
  obtain ⟨herr, s, a, b, hs, ha, hb, _, hkeep, _, _, hmem, hrec⟩ :=
    approve_seller_membership_in_step (scenarioEnv 0) storeBPending "approveTransaction"
      scenarioTxId (scenarioTx "Pending") (escrowBuyer (scenarioEnv 0) bob scenarioTxId 100)
      (acme.addTransaction scenarioTxId) (escrowAsset (gold ⟨true, 5⟩) "ACME" 10)
      (by with_unfolding_all rfl) rfl rfl (by decide) (by with_unfolding_all rfl) rfl
      (by with_unfolding_all rfl) rfl (by with_unfolding_all rfl) rfl
      (fun d hd => by
        rw [show storeBPending PRIMARYKEY3 = some (Doc.strings [scenarioTxId]) from by
          with_unfolding_all rfl] at hd
        cases hd
        exact ⟨_, rfl⟩)
  have hk := hkeep (by with_unfolding_all decide)
  exact ⟨herr, s, a, b, hs, ha, hb, hk.1, hk.2, hmem, hrec⟩

/-! ## Keyed descent of the price fixing -/

theorem find_of_mem_nodup_keys (kvs : List (String × JSON)) (k : String) (x : JSON)
    (hn : (kvs.map Prod.fst).Nodup) (hm : (k, x) ∈ kvs) :
    kvs.find? (fun kv => kv.1 == k) = some (k, x) := by
  induction kvs with
  | nil => cases hm
  | cons kv rest ih =>
    rw [List.map_cons, List.nodup_cons] at hn
    rcases List.mem_cons.mp hm with h | h
    · subst h
      simp
    · have hne : kv.1 ≠ k := by
        intro he
        apply hn.1
        rw [he]
        exact List.mem_map.mpr ⟨(k, x), h, rfl⟩
      rw [List.find?_cons]
      have hb : (kv.1 == k) = false := by simpa using hne
      rw [hb]
      exact ih hn.2 h

theorem find_none_of_no_key (kvs : List (String × JSON)) (k : String)
    (h : ∀ kv ∈ kvs, kv.1 ≠ k) : kvs.find? (fun kv => kv.1 == k) = none := by
  rw [List.find?_eq_none]
  intro kv hkv
  simpa using h kv hkv

/-- C31, keyed descent: `ReflectInterface(v, k)` returns the member stored under
`k` when `v` is an object (a map, its keys distinct) that has key `k`, and `v`
itself when `v` is an object without key `k` or is not an object.  The lookup of
`GetEndpoint` is the left fold of this step over the key list: the empty list
leaves the fetched document (a number is formatted, a string returned as it
is), each further key applies one step to the value reached so far, and a key
that does not resolve there leaves the result of `GetEndpoint` as it is without
that key.  For every key list, `GetEndpoint` returns the formatted number when
the fold of the steps over the keys ends in a number, the string when it ends in
a string, and in every case what it returns, without keys, for a fetch that
yields the value the fold ends in. -/
theorem reflectInterface_keyed_descent (v : JSON) (k : String) :
    (∀ kvs x, v = JSON.obj kvs → (kvs.map Prod.fst).Nodup → (k, x) ∈ kvs →
      ReflectInterface v k = x) ∧
    (∀ kvs, v = JSON.obj kvs → (∀ kv ∈ kvs, kv.1 ≠ k) → ReflectInterface v k = v) ∧
    ((∀ kvs, v ≠ JSON.obj kvs) → ReflectInterface v k = v) ∧
    (([] : List String).foldl ReflectInterface v = v) ∧
    (∀ keys : List String, (keys ++ [k]).foldl ReflectInterface v =
      ReflectInterface (keys.foldl ReflectInterface v) k) ∧
    (∀ (E : Env) (url : String) (x : ℚ), E.GetJSONFromURL url = some (JSON.num x) →
      GetEndpoint E url [] = E.FormatFloat x) ∧
    (∀ (E : Env) (url : String) (str : String), E.GetJSONFromURL url = some (JSON.str str) →
      GetEndpoint E url [] = str) ∧
    (∀ (E : Env) (url : String) (keys : List String), E.GetJSONFromURL url = some v →
      ReflectInterface (keys.foldl ReflectInterface v) k = keys.foldl ReflectInterface v →
      GetEndpoint E url (keys ++ [k]) = GetEndpoint E url keys) ∧
    (∀ (E : Env) (url : String) (keys : List String) (x : ℚ), E.GetJSONFromURL url = some v →
      keys.foldl ReflectInterface v = JSON.num x → GetEndpoint E url keys = E.FormatFloat x) ∧
    (∀ (E : Env) (url : String) (keys : List String) (str : String),
      E.GetJSONFromURL url = some v →
      keys.foldl ReflectInterface v = JSON.str str → GetEndpoint E url keys = str) ∧
    (∀ (E : Env) (url : String) (keys : List String), E.GetJSONFromURL url = some v →
      GetEndpoint E url keys =
        GetEndpoint { E with GetJSONFromURL := fun _ => some (keys.foldl ReflectInterface v) }
          url []) := by
  refine ⟨?_, ?_, ?_, rfl, ?_, ?_, ?_, ?_, ?_, ?_, ?_⟩
  · intro kvs x hv hn hm
    subst hv
    simp [ReflectInterface, find_of_mem_nodup_keys kvs k x hn hm]
  · intro kvs hv hno
    subst hv
    simp [ReflectInterface, find_none_of_no_key kvs k hno]
  · intro hv
    cases v with
    | obj kvs => exact absurd rfl (hv kvs)
    | null => rfl
    | bool b => rfl
    | num x => rfl
    | str x => rfl
    | arr xs => rfl
  · intro keys
    simp [List.foldl_append]
  · intro E url x hx
    simp [GetEndpoint, hx]
  · intro E url str hx
    simp [GetEndpoint, hx]
  · intro E url keys hx hk
    simp only [GetEndpoint, hx, Option.getD_some, List.foldl_append, List.foldl_cons,
      List.foldl_nil, hk]
  · intro E url keys x hx hf
    simp only [GetEndpoint, hx, Option.getD_some, hf]
  · intro E url keys str hx hf
    simp only [GetEndpoint, hx, Option.getD_some, hf]
  · intro E url keys hx
    simp only [GetEndpoint, hx, Option.getD_some, List.foldl_nil]

theorem reflectInterface_keyed_descent_witness :
    ReflectInterface (JSON.obj [("rate", JSON.num (3 / 2))]) "rate" = JSON.num (3 / 2) ∧
    ReflectInterface (JSON.obj [("rate", JSON.num (3 / 2))]) "spot" =
      JSON.obj [("rate", JSON.num (3 / 2))] ∧
    GetEndpoint contractEnv "http://fixing" ([] ++ ["spot"]) =
      GetEndpoint contractEnv "http://fixing" [] ∧
    GetEndpoint contractEnv "http://fixing" ["rate"] = contractEnv.FormatFloat (3 / 2) :=
  ⟨(reflectInterface_keyed_descent (JSON.obj [("rate", JSON.num (3 / 2))]) "rate").1
      [("rate", JSON.num (3 / 2))] (JSON.num (3 / 2)) rfl (by simp) (by simp),
    (reflectInterface_keyed_descent (JSON.obj [("rate", JSON.num (3 / 2))]) "spot").2.1
      [("rate", JSON.num (3 / 2))] rfl (by simp),
    (reflectInterface_keyed_descent (JSON.obj [("rate", JSON.num (3 / 2))])
      "spot").2.2.2.2.2.2.2.1 contractEnv "http://fixing" [] rfl rfl,
    (reflectInterface_keyed_descent (JSON.obj [("rate", JSON.num (3 / 2))])
      "spot").2.2.2.2.2.2.2.2.1 contractEnv "http://fixing" ["rate"] (3 / 2) rfl rfl⟩

/-! ## Transaction ids -/

/-- C33, transaction ids depend only on asset, seller, buyer and creation
second: two `createTransaction` calls with the same asset, seller and buyer ids
at the same clock value both succeed and give equal ids, whatever the
quantities and prices, the id being `HashSHA256` of
`assetId-sellerId-buyerId-timestamp`; and each created transaction has status
`Pending`, discount 0, empty `APIFixing`, the clock value as `Created`, and the
given quantity and price. -/
theorem createTransaction_id_deterministic (E1 E2 : Env) (q1 q2 : Int) (p1 p2 : ℚ)
    (assetId sellerId buyerId : String)
    (hnow : E1.Now = E2.Now) (hhash : E1.HashSHA256 = E2.HashSHA256)
    (hitoa : E1.Itoa = E2.Itoa) :
    ∃ t1 t2,
      createTransaction E1 q1 p1 [assetId, sellerId, buyerId] = Except.ok t1 ∧
      createTransaction E2 q2 p2 [assetId, sellerId, buyerId] = Except.ok t2 ∧
      t1.Id = t2.Id ∧
      t1.Id = E1.HashSHA256
        (assetId ++ "-" ++ sellerId ++ "-" ++ buyerId ++ "-" ++ E1.Itoa E1.Now) ∧
      t1.Status = "Pending" ∧ t1.Discount = 0 ∧ t1.APIFixing = "" ∧ t1.Created = E1.Now ∧
      t1.Quantity = q1 ∧ t1.Price = p1 ∧
      t2.Status = "Pending" ∧ t2.Discount = 0 ∧ t2.APIFixing = "" ∧ t2.Created = E2.Now ∧
      t2.Quantity = q2 ∧ t2.Price = p2 ∧
      t1.AssetId = assetId ∧ t1.SellerId = sellerId ∧ t1.BuyerId = buyerId := by
  refine ⟨_, _, createTransaction_ok E1 q1 p1 assetId sellerId buyerId,
    createTransaction_ok E2 q2 p2 assetId sellerId buyerId, ?_, rfl, rfl, rfl, rfl, rfl, rfl,
    rfl, rfl, rfl, rfl, rfl, rfl, rfl, rfl, rfl, rfl⟩
  simp only [newTransactionId, hnow, hhash, hitoa]

theorem createTransaction_id_deterministic_witness :
    ∃ t1 t2,
      createTransaction (scenarioEnv 0) 10 10 ["GOLD", "ACME", "BOB"] = Except.ok t1 ∧
      createTransaction contractEnv 90 (21 / 2) ["GOLD", "ACME", "BOB"] = Except.ok t2 ∧
      t1.Id = t2.Id ∧
      t1.Id = (scenarioEnv 0).HashSHA256
        ("GOLD" ++ "-" ++ "ACME" ++ "-" ++ "BOB" ++ "-" ++
          (scenarioEnv 0).Itoa (scenarioEnv 0).Now) ∧
      t1.Status = "Pending" ∧ t1.Discount = 0 ∧ t1.APIFixing = "" ∧
      t1.Created = (scenarioEnv 0).Now ∧ t1.Quantity = 10 ∧ t1.Price = 10 ∧
      t2.Status = "Pending" ∧ t2.Discount = 0 ∧ t2.APIFixing = "" ∧
      t2.Created = contractEnv.Now ∧ t2.Quantity = 90 ∧ t2.Price = 21 / 2 ∧
      t1.AssetId = "GOLD" ∧ t1.SellerId = "ACME" ∧ t1.BuyerId = "BOB" :=
  createTransaction_id_deterministic (scenarioEnv 0) contractEnv 10 90 10 (21 / 2)
    "GOLD" "ACME" "BOB" rfl rfl rfl

/-! ## The documents of a trade between distinct parties -/

/-- The documents a successful trade between distinct parties stores, on either
path, what the passed requirements say, and the keys the trade leaves alone.
The documents sit under their own ids, and the key of the transaction id is
unused or holds a transaction. -/
theorem transactAsset_stored_parties (E : Env) (st : Store) (fn : String)
    (assetId sellerId buyerId arg3 arg4 arg5 : String) (quantity : Int) (price : ℚ)
    (asset : Asset) (seller buyer : Owner) (ledger : List String)
    (hq : E.Atoi arg3 = some quantity) (hp : E.ParseFloat arg4 = some price)
    (ha : st assetId = some (Doc.asset asset)) (haid : asset.Id = assetId)
    (hs : st sellerId = some (Doc.owner seller)) (hsid : seller.OwnerId = sellerId)
    (hb : st buyerId = some (Doc.owner buyer)) (hbid : buyer.OwnerId = buyerId)
    (hl : st PRIMARYKEY2 = some (Doc.strings ledger))
    (hne : buyerId ≠ sellerId)
    (hid : ∀ d, st (newTransactionId E assetId sellerId buyerId E.Now) = some d →
      ∃ t, d = Doc.transaction t)
    (hsucc : (transactAsset E st fn [assetId, sellerId, buyerId, arg3, arg4, arg5]).err = none) :
    (sellerId ∈ asset.Owners ∧ buyer.Balance ≥ E.mulFloat price (E.floatOfInt quantity) ∧
      (asset.ownedBy sellerId).Quantity ≥ quantity) ∧
    (((transactAsset E st fn [assetId, sellerId, buyerId, arg3, arg4, arg5]).store buyerId =
        some (Doc.owner (directBuyer E buyer (newTransactionId E assetId sellerId buyerId E.Now)
          assetId (E.mulFloat price (E.floatOfInt quantity)))) ∧
      (transactAsset E st fn [assetId, sellerId, buyerId, arg3, arg4, arg5]).store sellerId =
        some (Doc.owner (directSeller E seller asset
          (newTransactionId E assetId sellerId buyerId E.Now) sellerId quantity
          (E.mulFloat price (E.floatOfInt quantity)))) ∧
      (transactAsset E st fn [assetId, sellerId, buyerId, arg3, arg4, arg5]).store assetId =
        some (Doc.asset (directAsset asset sellerId buyerId quantity))) ∨
     ((transactAsset E st fn [assetId, sellerId, buyerId, arg3, arg4, arg5]).store buyerId =
        some (Doc.owner (escrowBuyer E buyer (newTransactionId E assetId sellerId buyerId E.Now)
          (E.mulFloat price (E.floatOfInt quantity)))) ∧
      (transactAsset E st fn [assetId, sellerId, buyerId, arg3, arg4, arg5]).store sellerId =
        some (Doc.owner
          (seller.addTransaction (newTransactionId E assetId sellerId buyerId E.Now))) ∧
      (transactAsset E st fn [assetId, sellerId, buyerId, arg3, arg4, arg5]).store assetId =
        some (Doc.asset (escrowAsset asset sellerId quantity)))) ∧
    (∀ k, k ≠ PRIMARYKEY2 → k ≠ PRIMARYKEY3 →
      k ≠ newTransactionId E assetId sellerId buyerId E.Now → k ≠ assetId → k ≠ sellerId →
      k ≠ buyerId →
      (transactAsset E st fn [assetId, sellerId, buyerId, arg3, arg4, arg5]).store k = st k) := by
  obtain ⟨q2, p2, a2, s2, b2, tx0, l2, tx, hq2, hp2, ha2, hs2, hb2, hr, hc, hl2, hf, heq⟩ :=
    transactAsset_ok_inv E st fn assetId sellerId buyerId arg3 arg4 arg5 hsucc
  rw [hq] at hq2; cases hq2
  rw [hp] at hp2; cases hp2
  rw [getAsset_of_doc E st assetId asset ha] at ha2; cases ha2
  rw [getOwner_of_doc E st sellerId seller hs] at hs2; cases hs2
  rw [getOwner_of_doc E st buyerId buyer hb] at hb2; cases hb2
  rw [getDataArrayStrings_of_doc E st PRIMARYKEY2 ledger hl] at hl2; cases hl2
  obtain ⟨htid, _⟩ := trade_transaction_fields E asset quantity price assetId sellerId buyerId
    tx0 tx hc hf
  obtain ⟨_, _, h3, _, h5, h6, _⟩ := (tradingRequirements_eq_none_iff fn asset seller buyer
    sellerId quantity price (E.mulFloat price (E.floatOfInt quantity))).mp hr
  have k1 : buyerId ≠ PRIMARYKEY2 := key_ne_of_doc hb hl (by simp)
  have k2 : sellerId ≠ PRIMARYKEY2 := key_ne_of_doc hs hl (by simp)
  have k3 : assetId ≠ PRIMARYKEY2 := key_ne_of_doc ha hl (by simp)
  have k4 : buyerId ≠ newTransactionId E assetId sellerId buyerId E.Now :=
    key_ne_of_tx hb hid (by simp)
  have k5 : sellerId ≠ newTransactionId E assetId sellerId buyerId E.Now :=
    key_ne_of_tx hs hid (by simp)
  have k6 : assetId ≠ newTransactionId E assetId sellerId buyerId E.Now :=
    key_ne_of_tx ha hid (by simp)
  have k7 : buyerId ≠ assetId := key_ne_of_doc hb ha (by simp)
  have k8 : sellerId ≠ assetId := key_ne_of_doc hs ha (by simp)
  refine ⟨⟨h3, h5, h6⟩, ?_⟩
  by_cases hA : (if asset.Triggers.Approval = true ∧ quantity > asset.Triggers.ApprovalQty
      then "TRUE" else arg5) = "TRUE"
  · cases hpend : getDataArrayStrings E st PRIMARYKEY3 [] with
    | error e =>
      rw [heq, settleTrade_escrow_err E st asset seller buyer tx ledger assetId sellerId buyerId
        quantity _ _ e hA hpend] at hsucc
      simp at hsucc
    | ok pending =>
      rw [heq, settleTrade_escrow E st asset seller buyer tx ledger pending assetId sellerId
        buyerId quantity _ _ hA hpend]
      simp only [persistTrade_store]
      refine ⟨Or.inr ⟨?_, ?_, ?_⟩, ?_⟩
      · simp [k1, k4, k7, hne, haid, hbid, htid, hsid]
      · simp [k2, k5, k8, haid, htid, hsid]
      · simp [k3, k6, haid, htid]
      · intro k h1 h2 h3 h4 h5 h6
        simp [h1, h3, h4, h5, h6, haid, hbid, htid, hsid, saveStringToDataArray_apply, h2]
  · rw [heq, settleTrade_direct _ _ _ _ _ _ _ _ _ _ _ _ _ hA]
    simp only [persistTrade_store]
    refine ⟨Or.inl ⟨?_, ?_, ?_⟩, ?_⟩
    · simp [k1, k4, k7, hne, haid, hsid, hbid, htid]
    · simp [k2, k5, k8, haid, hsid, htid]
    · simp [k3, k6, haid, htid]
    · intro k h1 _ h3 h4 h5 h6
      simp [h1, h3, h4, h5, h6, haid, hbid, htid, hsid]

/-! ## Non-negative holder records -/

theorem Asset.NonNegative_ownedBy (a : Asset) (h : a.NonNegative) (k : String) :
    0 ≤ (a.ownedBy k).Quantity ∧ 0 ≤ (a.ownedBy k).EscrowQty := by
  unfold Asset.ownedBy
  cases hr : a.OwnedBy k with
  | none => simp
  | some r => simpa using h k r hr

theorem Asset.setOwnedBy_NonNegative (a : Asset) (k : String) (r : Marketplace.OwnedBy)
    (h : a.NonNegative) (hr : 0 ≤ r.Quantity ∧ 0 ≤ r.EscrowQty) :
    (a.setOwnedBy k r).NonNegative := by
  intro k2 r2 h2
  by_cases hk : k2 = k
  · subst hk
    rw [Asset.setOwnedBy_OwnedBy_same] at h2
    cases h2
    exact hr
  · rw [Asset.setOwnedBy_OwnedBy_other a k k2 r hk] at h2
    exact h k2 r2 h2

theorem Asset.deleteOwner_NonNegative (a : Asset) (s : String) (h : a.NonNegative) :
    (a.deleteOwner s).NonNegative := by
  intro k r hr
  by_cases hk : k = s
  · subst hk
    rw [Asset.deleteOwner_OwnedBy_same] at hr
    cases hr
  · rw [Asset.deleteOwner_OwnedBy_other a s k hk] at hr
    exact h k r hr

theorem gold_NonNegative (triggers : Trigger) : (gold triggers).NonNegative := by
  intro k r hr
  by_cases hk : k = "ACME"
  · subst hk
    simp [gold] at hr
    subst hr
    simp
  · simp [gold, hk] at hr

/-! ## Currency across settlement -/

theorem Owner.approveSellTransaction_EscrowBalance (E : Env) (o : Owner) (a : Asset) (x : ℚ) (q : Int) :
    (o.approveSellTransaction E a x q).EscrowBalance = o.EscrowBalance := by
  unfold Owner.approveSellTransaction
  simp only []
  split <;> rfl

/-- The run of `rollback` on a pending transaction whose buyer and asset
load. -/
theorem Transaction.rollback_of_loaded (E : Env) (st : Store) (tx : Transaction)
    (buyer : Owner) (asset : Asset) (hstat : tx.Status = "Pending")
    (hb : getOwner E st [tx.BuyerId] = Except.ok buyer)
    (ha : getAsset E ((buyer.rollbackBuyTransaction E (E.mulFloat tx.Price (E.floatOfInt tx.Quantity))).save st)
      [tx.AssetId] = Except.ok asset) :
    tx.rollback E st =
      ⟨none, { tx with Status := "Declined" },
        (asset.rollbackTransaction tx.SellerId tx.Quantity).save
          ((buyer.rollbackBuyTransaction E (E.mulFloat tx.Price (E.floatOfInt tx.Quantity))).save st)⟩ := by
  unfold Transaction.rollback
  simp only [hstat, ne_eq, not_true_eq_false, if_false, hb, ha]

/-- The store `declineTransaction` leaves, key by key, away from the pending
registry, in a ledger where the transaction, its buyer and its asset are stored
as such under their own ids. -/
theorem declineTransaction_store (E : Env) (st : Store) (fn txId : String) (tx : Transaction)
    (buyer : Owner) (asset : Asset)
    (htx : st txId = some (Doc.transaction tx)) (htid : tx.Id = txId)
    (hstat : tx.Status = "Pending")
    (hb : st tx.BuyerId = some (Doc.owner buyer)) (hbid : buyer.OwnerId = tx.BuyerId)
    (ha : st tx.AssetId = some (Doc.asset asset)) (haid : asset.Id = tx.AssetId) :
    (declineTransaction E st fn [txId]).err = none ∧
    (∀ k, k ≠ PRIMARYKEY3 → (declineTransaction E st fn [txId]).store k =
      if k = txId then some (Doc.transaction { tx with Status := "Declined" })
      else if k = tx.AssetId then
        some (Doc.asset (asset.rollbackTransaction tx.SellerId tx.Quantity))
      else if k = tx.BuyerId then
        some (Doc.owner (buyer.rollbackBuyTransaction E (E.mulFloat tx.Price (E.floatOfInt tx.Quantity))))
      else st k) := by
  have hne : tx.AssetId ≠ tx.BuyerId := key_ne_of_doc ha hb (by simp)
  have hload : getAsset E
      ((buyer.rollbackBuyTransaction E (E.mulFloat tx.Price (E.floatOfInt tx.Quantity))).save st)
      [tx.AssetId] = Except.ok asset := by
    apply getAsset_of_doc
    simp [Owner.save, PutState, Owner.rollbackBuyTransaction, hbid, hne, ha]
  have hroll := Transaction.rollback_of_loaded E st tx buyer asset hstat
    (getOwner_of_doc E st _ buyer hb) hload
  unfold declineTransaction
  simp only [getTransaction_of_doc E st txId tx htx, hroll]
  refine ⟨trivial, fun k hk => ?_⟩
  simp [Transaction.removeFromPendingLedger, saveLedger, Transaction.save, Asset.save,
    Owner.save, PutState, Owner.rollbackBuyTransaction, htid, haid, hbid, hk]

/-- C34, currency is conserved between distinct parties: in a ledger where the
documents sit under their own ids and the registry keys hold registries, after a
successful `transactAsset` (either path, any contract), `approveTransaction` or
`declineTransaction` whose buyer and seller are different owners, the sum
`buyer.Balance + buyer.EscrowBalance + seller.Balance + seller.EscrowBalance`
over the stored documents is the same as before, amounts being exact numbers
(the sums and differences of amounts are not rounded; the product may be), and
no other owner's document changes.  The key of a new transaction id is
unused or holds a transaction. -/
theorem currency_conserved (E : Env) (st : Store) (hexact : E.ExactAmounts)
    (hreg : ∀ d, st PRIMARYKEY3 = some d → ∃ l, d = Doc.strings l) :
    (∀ fn assetId sellerId buyerId arg3 arg4 arg5 quantity price asset seller buyer ledger,
      E.Atoi arg3 = some quantity → E.ParseFloat arg4 = some price →
      st assetId = some (Doc.asset asset) → asset.Id = assetId →
      st sellerId = some (Doc.owner seller) → seller.OwnerId = sellerId →
      st buyerId = some (Doc.owner buyer) → buyer.OwnerId = buyerId →
      st PRIMARYKEY2 = some (Doc.strings ledger) → buyerId ≠ sellerId →
      (∀ d, st (newTransactionId E assetId sellerId buyerId E.Now) = some d →
        ∃ t, d = Doc.transaction t) →
      (transactAsset E st fn [assetId, sellerId, buyerId, arg3, arg4, arg5]).err = none →
      ∃ b s,
        (transactAsset E st fn [assetId, sellerId, buyerId, arg3, arg4, arg5]).store buyerId =
          some (Doc.owner b) ∧
        (transactAsset E st fn [assetId, sellerId, buyerId, arg3, arg4, arg5]).store sellerId =
          some (Doc.owner s) ∧
        b.Balance + b.EscrowBalance + s.Balance + s.EscrowBalance =
          buyer.Balance + buyer.EscrowBalance + seller.Balance + seller.EscrowBalance ∧
        ∀ k o, st k = some (Doc.owner o) → k ≠ buyerId → k ≠ sellerId →
          (transactAsset E st fn [assetId, sellerId, buyerId, arg3, arg4, arg5]).store k =
            st k) ∧
    (∀ fn txId tx buyer seller asset,
      st txId = some (Doc.transaction tx) → tx.Id = txId → tx.Status = "Pending" →
      tx.BuyerId ≠ tx.SellerId →
      st tx.BuyerId = some (Doc.owner buyer) → buyer.OwnerId = tx.BuyerId →
      st tx.SellerId = some (Doc.owner seller) → seller.OwnerId = tx.SellerId →
      st tx.AssetId = some (Doc.asset asset) → asset.Id = tx.AssetId →
      (approveTransaction E st fn [txId]).err = none ∧
      ∃ b s,
        (approveTransaction E st fn [txId]).store tx.BuyerId = some (Doc.owner b) ∧
        (approveTransaction E st fn [txId]).store tx.SellerId = some (Doc.owner s) ∧
        b.Balance + b.EscrowBalance + s.Balance + s.EscrowBalance =
          buyer.Balance + buyer.EscrowBalance + seller.Balance + seller.EscrowBalance ∧
        ∀ k o, st k = some (Doc.owner o) → k ≠ tx.BuyerId → k ≠ tx.SellerId →
          (approveTransaction E st fn [txId]).store k = st k) ∧
    (∀ fn txId tx buyer seller asset,
      st txId = some (Doc.transaction tx) → tx.Id = txId → tx.Status = "Pending" →
      tx.BuyerId ≠ tx.SellerId →
      st tx.BuyerId = some (Doc.owner buyer) → buyer.OwnerId = tx.BuyerId →
      st tx.SellerId = some (Doc.owner seller) →
      st tx.AssetId = some (Doc.asset asset) → asset.Id = tx.AssetId →
      (declineTransaction E st fn [txId]).err = none ∧
      ∃ b s,
        (declineTransaction E st fn [txId]).store tx.BuyerId = some (Doc.owner b) ∧
        (declineTransaction E st fn [txId]).store tx.SellerId = some (Doc.owner s) ∧
        b.Balance + b.EscrowBalance + s.Balance + s.EscrowBalance =
          buyer.Balance + buyer.EscrowBalance + seller.Balance + seller.EscrowBalance ∧
        ∀ k o, st k = some (Doc.owner o) → k ≠ tx.BuyerId → k ≠ tx.SellerId →
          (declineTransaction E st fn [txId]).store k = st k) := by
  refine ⟨?_, ?_, ?_⟩
  · intro fn assetId sellerId buyerId arg3 arg4 arg5 quantity price asset seller buyer ledger
      hq hp ha haid hs hsid hb hbid hl hne hid hsucc
    obtain ⟨_, hdocs, hother⟩ := transactAsset_stored_parties E st fn assetId sellerId
      buyerId arg3 arg4 arg5 quantity price asset seller buyer ledger hq hp ha haid hs hsid hb
      hbid hl hne hid hsucc
    have hframe : ∀ k o, st k = some (Doc.owner o) → k ≠ buyerId → k ≠ sellerId →
        (transactAsset E st fn [assetId, sellerId, buyerId, arg3, arg4, arg5]).store k =
          st k := by
      intro k o hk h1 h2
      exact hother k (key_ne_of_doc hk hl (by simp)) (key_ne_of_registry hk hreg (by simp))
        (key_ne_of_tx hk hid (by simp)) (key_ne_of_doc hk ha (by simp)) h2 h1
    rcases hdocs with ⟨hB, hS, _⟩ | ⟨hB, hS, _⟩
    · refine ⟨_, _, hB, hS, ?_, hframe⟩
      rw [directBuyer_Balance, directBuyer_EscrowBalance, directSeller_Balance,
        directSeller_EscrowBalance, hexact.1, hexact.2]
      ring
    · refine ⟨_, _, hB, hS, ?_, hframe⟩
      rw [escrowBuyer_Balance, escrowBuyer_EscrowBalance, hexact.1, hexact.2]
      simp only [Owner.addTransaction_Balance, Owner.addTransaction_EscrowBalance]
      ring
  · intro fn txId tx buyer seller asset htx htid hstat hne hb hbid hs hsid ha haid
    obtain ⟨herr, hstore, _⟩ := approveTransaction_store E st fn txId tx buyer seller
      asset htx htid hstat hb hbid hs hsid ha haid hreg
    have k3 : tx.SellerId ≠ PRIMARYKEY3 := key_ne_of_registry hs hreg (by simp)
    have k4 : tx.BuyerId ≠ PRIMARYKEY3 := key_ne_of_registry hb hreg (by simp)
    have k6 : tx.SellerId ≠ txId := key_ne_of_doc hs htx (by simp)
    have k7 : tx.BuyerId ≠ txId := key_ne_of_doc hb htx (by simp)
    have k8 : tx.SellerId ≠ tx.AssetId := key_ne_of_doc hs ha (by simp)
    have k9 : tx.BuyerId ≠ tx.AssetId := key_ne_of_doc hb ha (by simp)
    refine ⟨herr, buyer.approveBuyTransaction E tx.AssetId (E.mulFloat tx.Price (E.floatOfInt tx.Quantity)),
      seller.approveSellTransaction E asset (E.mulFloat tx.Price (E.floatOfInt tx.Quantity)) tx.Quantity,
      ?_, ?_, ?_, ?_⟩
    · rw [hstore _ k4]
      simp [k7, k9, hne]
    · rw [hstore _ k3]
      simp [k6, k8]
    · rw [Owner.approveBuyTransaction_Balance, Owner.approveBuyTransaction_EscrowBalance,
        Owner.approveSellTransaction_Balance, Owner.approveSellTransaction_EscrowBalance,
        hexact.1, hexact.2]
      ring
    · intro k o hk h1 h2
      rw [hstore k (key_ne_of_registry hk hreg (by simp))]
      simp [key_ne_of_doc hk htx (by simp), key_ne_of_doc hk ha (by simp), h1, h2]
  · intro fn txId tx buyer seller asset htx htid hstat hne hb hbid hs ha haid
    obtain ⟨herr, hstore⟩ := declineTransaction_store E st fn txId tx buyer asset htx htid
      hstat hb hbid ha haid
    have k3 : tx.SellerId ≠ PRIMARYKEY3 := key_ne_of_registry hs hreg (by simp)
    have k4 : tx.BuyerId ≠ PRIMARYKEY3 := key_ne_of_registry hb hreg (by simp)
    have k6 : tx.SellerId ≠ txId := key_ne_of_doc hs htx (by simp)
    have k7 : tx.BuyerId ≠ txId := key_ne_of_doc hb htx (by simp)
    have k8 : tx.SellerId ≠ tx.AssetId := key_ne_of_doc hs ha (by simp)
    have k9 : tx.BuyerId ≠ tx.AssetId := key_ne_of_doc hb ha (by simp)
    refine ⟨herr, buyer.rollbackBuyTransaction E (E.mulFloat tx.Price (E.floatOfInt tx.Quantity)), seller,
      ?_, ?_, ?_, ?_⟩
    · rw [hstore _ k4]
      simp [k7, k9]
    · rw [hstore _ k3]
      simp [k6, k8, Ne.symm hne, hs]
    · simp only [Owner.rollbackBuyTransaction, hexact.1, hexact.2]
      ring
    · intro k o hk h1 h2
      rw [hstore k (key_ne_of_registry hk hreg (by simp))]
      simp [key_ne_of_doc hk htx (by simp), key_ne_of_doc hk ha (by simp), h1]

theorem currency_conserved_witness :
    ∃ b s,
      (transactAsset contractEnv storeContract "transactAsset"
        ["GOLD", "ACME", "BOB", "10", "10.0", "FALSE"]).store "BOB" = some (Doc.owner b) ∧
      (transactAsset contractEnv storeContract "transactAsset"
        ["GOLD", "ACME", "BOB", "10", "10.0", "FALSE"]).store "ACME" = some (Doc.owner s) ∧
      b.Balance + b.EscrowBalance + s.Balance + s.EscrowBalance =
        bob.Balance + bob.EscrowBalance + acme.Balance + acme.EscrowBalance ∧
      ∀ k o, storeContract k = some (Doc.owner o) → k ≠ "BOB" → k ≠ "ACME" →
        (transactAsset contractEnv storeContract "transactAsset"
          ["GOLD", "ACME", "BOB", "10", "10.0", "FALSE"]).store k = storeContract k :=
  (currency_conserved contractEnv storeContract ⟨fun _ _ => rfl, fun _ _ => rfl⟩ (fun d hd => by
      rw [show storeContract PRIMARYKEY3 = some (Doc.strings []) from by
        with_unfolding_all rfl] at hd
      cases hd
      exact ⟨_, rfl⟩)).1 "transactAsset" "GOLD" "ACME" "BOB" "10" "10.0" "FALSE" 10 10
    goldContract acme bob [] (by decide) (by with_unfolding_all rfl) rfl rfl rfl rfl rfl rfl rfl
    (by decide)
    (fun d hd => by
      rw [show storeContract (newTransactionId contractEnv "GOLD" "ACME" "BOB" contractEnv.Now)
        = none from by with_unfolding_all rfl] at hd
      cases hd) (by with_unfolding_all rfl)

/-! ## A trade of an owner with itself -/

/-- C35 at Scenario A after the trade: `BOB`, with balance 400, escrow balance
0 and 10 units of `GOLD`, sells 5 units to `BOB` at 10.0 on the direct path.
The call succeeds with status `Validated`; the stored holder record of `BOB` is
still 10 units and the escrow balance still 0, but the stored balance is 450:
the credit of the seller copy is saved over the debit of the buyer copy. -/
theorem self_trade_creates_money :
    (transactAsset (scenarioEnv 1) storeATraded "transactAsset" selfArgs).err = none ∧
    (∃ t, storeSelfTraded (newTransactionId (scenarioEnv 1) "GOLD" "BOB" "BOB" 1) =
      some (Doc.transaction t) ∧ t.Status = "Validated" ∧ t.SellerId = "BOB" ∧
      t.BuyerId = "BOB" ∧ t.Quantity = 5) ∧
    (∃ o a, storeATraded "BOB" = some (Doc.owner o) ∧ storeATraded "GOLD" = some (Doc.asset a) ∧
      o.Balance = 400 ∧ o.EscrowBalance = 0 ∧ a.OwnedBy "BOB" = some ⟨"BOB", 10, 0⟩) ∧
    (∃ o a, storeSelfTraded "BOB" = some (Doc.owner o) ∧
      storeSelfTraded "GOLD" = some (Doc.asset a) ∧
      o.Balance = 450 ∧ o.EscrowBalance = 0 ∧ a.OwnedBy "BOB" = some ⟨"BOB", 10, 0⟩) :=
  ⟨by with_unfolding_all rfl,
    ⟨_, by with_unfolding_all rfl, by with_unfolding_all rfl, by with_unfolding_all rfl,
      by with_unfolding_all rfl, by with_unfolding_all rfl⟩,
    ⟨_, _, by with_unfolding_all rfl, by with_unfolding_all rfl, by with_unfolding_all rfl,
      by with_unfolding_all rfl, by with_unfolding_all rfl⟩,
    ⟨_, _, by with_unfolding_all rfl, by with_unfolding_all rfl, by with_unfolding_all rfl,
      by with_unfolding_all rfl, by with_unfolding_all rfl⟩⟩

/-! ## A decline that fails half-way -/

/-- C36 at the pending state of Scenario B without the asset document: the
transaction is `Pending` and `BOB` has balance 400 and escrow balance 100;
`declineTransaction` returns the error of `getAsset`, yet the store it leaves
holds `BOB` with balance 500 and escrow balance 0, the refund having been saved
before the asset was loaded, while the transaction is still `Pending` and still
in the pending registry. -/
theorem decline_refunds_before_failing :
    storeNoAsset "GOLD" = none ∧
    storeNoAsset scenarioTxId = some (Doc.transaction (scenarioTx "Pending")) ∧
    (∃ b, storeNoAsset "BOB" = some (Doc.owner b) ∧ b.Balance = 400 ∧
      b.EscrowBalance = 100) ∧
    (declineTransaction (scenarioEnv 0) storeNoAsset "declineTransaction" [scenarioTxId]).err =
      some (Err.stateMissing "GOLD" "getAsset") ∧
    (∃ b, (declineTransaction (scenarioEnv 0) storeNoAsset "declineTransaction"
        [scenarioTxId]).store "BOB" = some (Doc.owner b) ∧ b.Balance = 500 ∧
      b.EscrowBalance = 0) ∧
    (declineTransaction (scenarioEnv 0) storeNoAsset "declineTransaction"
      [scenarioTxId]).store scenarioTxId = some (Doc.transaction (scenarioTx "Pending")) ∧
    (declineTransaction (scenarioEnv 0) storeNoAsset "declineTransaction"
      [scenarioTxId]).store PRIMARYKEY3 = some (Doc.strings [scenarioTxId]) :=
  ⟨by with_unfolding_all rfl, by with_unfolding_all rfl,
    ⟨_, by with_unfolding_all rfl, by with_unfolding_all rfl, by with_unfolding_all rfl⟩,
    by with_unfolding_all rfl,
    ⟨_, by with_unfolding_all rfl, by with_unfolding_all rfl, by with_unfolding_all rfl⟩,
    by with_unfolding_all rfl, by with_unfolding_all rfl⟩

/-! ## What a creation writes -/

theorem createOwner_ok_inv (E : Env) (arg0 arg1 arg2 arg3 arg4 arg5 : String) (o : Owner)
    (h : createOwner E [arg0, arg1, arg2, arg3, arg4, arg5] = Except.ok o) :
    ∃ balance, E.ParseFloat arg2 = some balance ∧
      o = { OwnerId := arg0
            Name := arg1
            Information := { Description := arg3, Logo := arg4, Background := "" }
            Tag := arg5
            Balance := balance
            EscrowBalance := 0
            Assets := []
            Issued := []
            Validated := false
            Transactions := [] } := by
  unfold createOwner at h
  cases hb : E.ParseFloat arg2 with
  | none => simp [hb] at h
  | some balance =>
    simp only [hb, Except.ok.injEq] at h
    exact ⟨balance, rfl, h.symm⟩

/-- A successful `addOwner` read the registry, found the id absent, created the
owner and wrote the owner and then the registry. -/
theorem addOwner_ok_inv (E : Env) (st : Store) (fn : String)
    (ownerId arg1 arg2 arg3 arg4 arg5 : String)
    (h : (addOwner E st fn [ownerId, arg1, arg2, arg3, arg4, arg5]).err = none) :
    ∃ ledger newOwner, getDataArrayStrings E st PRIMARYKEY0 [] = Except.ok ledger ∧
      createOwner E [ownerId, arg1, arg2, arg3, arg4, arg5] = Except.ok newOwner ∧
      (addOwner E st fn [ownerId, arg1, arg2, arg3, arg4, arg5]).store =
        saveStringToDataArray (newOwner.save st) PRIMARYKEY0 ownerId ledger := by
  unfold addOwner at h ⊢
  cases hl : getDataArrayStrings E st PRIMARYKEY0 [] with
  | error e => simp [hl] at h
  | ok ledger =>
    by_cases hex : IsElementInSlice ledger ownerId = false
    · cases hc : createOwner E [ownerId, arg1, arg2, arg3, arg4, arg5] with
      | error e => simp [hl, hex, hc] at h
      | ok newOwner => exact ⟨ledger, newOwner, rfl, rfl, by simp [hex, hc]⟩
    · simp [hl, hex] at h

theorem createAsset_ok_inv (E : Env)
    (arg0 arg1 arg2 arg3 arg4 arg5 arg6 arg7 arg8 arg9 : String) (a : Asset)
    (h : createAsset E [arg0, arg1, arg2, arg3, arg4, arg5, arg6, arg7, arg8, arg9] =
      Except.ok a) :
    ∃ quantity, E.Atoi arg3 = some quantity ∧ a.Id = arg0 ∧ a.Quantity = quantity ∧
      a.IssuedQty = quantity ∧ a.Issuer = arg2 ∧ a.Owners = [arg2] ∧
      a.OwnedBy arg2 = some { OwnerId := arg2, Quantity := quantity, EscrowQty := 0 } ∧
      ∀ k, k ≠ arg2 → a.OwnedBy k = none := by
  unfold createAsset at h
  cases h3 : E.Atoi arg3 with
  | none => simp [h3] at h
  | some quantity =>
    cases h4 : E.ParseFloat arg4 with
    | none => simp [h3, h4] at h
    | some price =>
      cases h7 : E.ParseBool arg7 with
      | none => simp [h3, h4, h7] at h
      | some approval =>
        cases h8 : E.Atoi arg8 with
        | none => simp [h3, h4, h7, h8] at h
        | some approvalQty =>
          simp only [h3, h4, h7, h8, Except.ok.injEq] at h
          subst h
          refine ⟨quantity, rfl, rfl, rfl, rfl, rfl, rfl, by simp, ?_⟩
          intro k hk
          simp [hk]

/-- A successful `addAssetString` loaded a validated issuer, read the registry,
found the id absent, created the asset and wrote the asset, the registry and
then the issuer. -/
theorem addAssetString_ok_inv (E : Env) (st : Store) (fn : String)
    (assetId arg1 issuerId arg3 arg4 arg5 arg6 arg7 arg8 arg9 : String)
    (h : (addAssetString E st fn
      [assetId, arg1, issuerId, arg3, arg4, arg5, arg6, arg7, arg8, arg9]).err = none) :
    ∃ issuer ledger newAsset, getOwner E st [issuerId] = Except.ok issuer ∧
      issuer.Validated = true ∧
      getDataArrayStrings E st PRIMARYKEY1 [] = Except.ok ledger ∧
      createAsset E [assetId, arg1, issuerId, arg3, arg4, arg5, arg6, arg7, arg8, arg9] =
        Except.ok newAsset ∧
      (addAssetString E st fn
        [assetId, arg1, issuerId, arg3, arg4, arg5, arg6, arg7, arg8, arg9]).store =
        Owner.save
          { issuer with Assets := issuer.Assets ++ [assetId], Issued := issuer.Issued ++ [assetId] }
          (saveStringToDataArray (newAsset.save st) PRIMARYKEY1 assetId ledger) := by
  unfold addAssetString at h ⊢
  cases ho : getOwner E st [issuerId] with
  | error e => simp [ho] at h
  | ok issuer =>
    by_cases hv : issuer.Validated = false
    · simp [ho, hv] at h
    · cases hl : getDataArrayStrings E st PRIMARYKEY1 [] with
      | error e => simp [ho, hv, hl] at h
      | ok ledger =>
        by_cases hex : IsElementInSlice ledger assetId = false
        · cases hc : createAsset E
              [assetId, arg1, issuerId, arg3, arg4, arg5, arg6, arg7, arg8, arg9] with
          | error e => simp [ho, hv, hl, hex, hc] at h
          | ok newAsset =>
            refine ⟨issuer, ledger, newAsset, rfl, by simpa using hv, rfl, rfl, ?_⟩
            simp only [ho, hl, hex, hc, if_neg hv, if_true, assignAssetToOwner]
        · simp [ho, hv, hl, hex] at h

/-- C37, as stated, fails.  In Scenario A, `addAssetString` of an asset with id
`BOB` issued by `ACME` succeeds and the document stored under `BOB`, a key other
than the issuer's id, is afterwards the asset where it was the owner `BOB`;
`addAssetString` of an asset with id `ACME` issued by `ACME` succeeds and reading
`ACME` afterwards yields the owner, not the asset just created; and `addOwner`
of an owner with id `GOLD` succeeds and the document stored under `GOLD` is
afterwards the owner where it was the asset. -/
theorem creation_clobbers_other_kinds :
    storeA "BOB" = some (Doc.owner bob) ∧
    (addAssetString (scenarioEnv 0) storeA "addAssetString" clashArgs).err = none ∧
    (∃ a, (addAssetString (scenarioEnv 0) storeA "addAssetString" clashArgs).store "BOB" =
      some (Doc.asset a) ∧ a.Issuer = "ACME" ∧ a.Quantity = 50) ∧
    (addAssetString (scenarioEnv 0) storeA "addAssetString" issuerClashArgs).err = none ∧
    (∃ o, (addAssetString (scenarioEnv 0) storeA "addAssetString" issuerClashArgs).store
      "ACME" = some (Doc.owner o) ∧ o.Assets = ["GOLD", "ACME"]) ∧
    (∃ a, storeA "GOLD" = some (Doc.asset a)) ∧
    (addOwner (scenarioEnv 0) storeA "addOwner" ownerClashArgs).err = none ∧
    (∃ o, (addOwner (scenarioEnv 0) storeA "addOwner" ownerClashArgs).store "GOLD" =
      some (Doc.owner o) ∧ o.Name = "Goldman") :=
  ⟨rfl, by with_unfolding_all rfl,
    ⟨_, by with_unfolding_all rfl, by with_unfolding_all rfl, by with_unfolding_all rfl⟩,
    by with_unfolding_all rfl,
    ⟨_, by with_unfolding_all rfl, by with_unfolding_all rfl⟩,
    ⟨_, rfl⟩,
    by with_unfolding_all rfl,
    ⟨_, by with_unfolding_all rfl, by with_unfolding_all rfl⟩⟩

/-- C37 amended: a successful `addOwner` leaves every key other than the new id
and the `Owners` registry as it was, appends the id to the registry, and stores
the new owner under its id when the id is not `Owners`.  A successful
`addAssetString` leaves every key other than the new id, the `Assets` registry
and the issuer's id as it was, stores the issuer with the asset id appended to
`Assets` and `Issued`, and stores under the new id, when that id is neither
`Assets` nor the issuer's id, an asset with the given quantity held entirely by
the issuer.  Whatever was stored under the new id before is overwritten. -/
theorem creation_frame (E : Env) (st : Store) (fn : String) :
    (∀ ownerId arg1 arg2 arg3 arg4 arg5,
      (addOwner E st fn [ownerId, arg1, arg2, arg3, arg4, arg5]).err = none →
      ∃ ledger newOwner, getDataArrayStrings E st PRIMARYKEY0 [] = Except.ok ledger ∧
        createOwner E [ownerId, arg1, arg2, arg3, arg4, arg5] = Except.ok newOwner ∧
        (∀ k, k ≠ ownerId → k ≠ PRIMARYKEY0 →
          (addOwner E st fn [ownerId, arg1, arg2, arg3, arg4, arg5]).store k = st k) ∧
        (addOwner E st fn [ownerId, arg1, arg2, arg3, arg4, arg5]).store PRIMARYKEY0 =
          some (Doc.strings (ledger ++ [ownerId])) ∧
        (ownerId ≠ PRIMARYKEY0 →
          (addOwner E st fn [ownerId, arg1, arg2, arg3, arg4, arg5]).store ownerId =
            some (Doc.owner newOwner))) ∧
    (∀ assetId arg1 issuerId arg3 arg4 arg5 arg6 arg7 arg8 arg9,
      (addAssetString E st fn
        [assetId, arg1, issuerId, arg3, arg4, arg5, arg6, arg7, arg8, arg9]).err = none →
      ∃ issuer ledger newAsset quantity, getOwner E st [issuerId] = Except.ok issuer ∧
        getDataArrayStrings E st PRIMARYKEY1 [] = Except.ok ledger ∧
        createAsset E [assetId, arg1, issuerId, arg3, arg4, arg5, arg6, arg7, arg8, arg9] =
          Except.ok newAsset ∧
        E.Atoi arg3 = some quantity ∧ newAsset.Quantity = quantity ∧
        newAsset.Owners = [issuerId] ∧
        newAsset.OwnedBy issuerId =
          some { OwnerId := issuerId, Quantity := quantity, EscrowQty := 0 } ∧
        (∀ k, k ≠ issuerId → newAsset.OwnedBy k = none) ∧
        (∀ k, k ≠ assetId → k ≠ PRIMARYKEY1 → k ≠ issuer.OwnerId →
          (addAssetString E st fn
            [assetId, arg1, issuerId, arg3, arg4, arg5, arg6, arg7, arg8, arg9]).store k =
            st k) ∧
        (addAssetString E st fn
          [assetId, arg1, issuerId, arg3, arg4, arg5, arg6, arg7, arg8, arg9]).store
            issuer.OwnerId =
          some (Doc.owner { issuer with
            Assets := issuer.Assets ++ [assetId], Issued := issuer.Issued ++ [assetId] }) ∧
        (PRIMARYKEY1 ≠ issuer.OwnerId →
          (addAssetString E st fn
            [assetId, arg1, issuerId, arg3, arg4, arg5, arg6, arg7, arg8, arg9]).store
              PRIMARYKEY1 = some (Doc.strings (ledger ++ [assetId]))) ∧
        (assetId ≠ PRIMARYKEY1 → assetId ≠ issuer.OwnerId →
          (addAssetString E st fn
            [assetId, arg1, issuerId, arg3, arg4, arg5, arg6, arg7, arg8, arg9]).store
              assetId = some (Doc.asset newAsset))) := by
  refine ⟨?_, ?_⟩
  · intro ownerId arg1 arg2 arg3 arg4 arg5 hsucc
    obtain ⟨ledger, newOwner, hl, hc, hst⟩ :=
      addOwner_ok_inv E st fn ownerId arg1 arg2 arg3 arg4 arg5 hsucc
    obtain ⟨balance, _, ho⟩ := createOwner_ok_inv E ownerId arg1 arg2 arg3 arg4 arg5 newOwner hc
    have hoid : newOwner.OwnerId = ownerId := by rw [ho]
    refine ⟨ledger, newOwner, hl, hc, ?_, ?_, ?_⟩
    · intro k h1 h2
      rw [hst]
      simp [saveStringToDataArray_apply, Owner.save, PutState, hoid, h1, h2]
    · rw [hst]
      simp [saveStringToDataArray_apply]
    · intro hk
      rw [hst]
      simp [saveStringToDataArray_apply, Owner.save, PutState, hoid, hk]
  · intro assetId arg1 issuerId arg3 arg4 arg5 arg6 arg7 arg8 arg9 hsucc
    obtain ⟨issuer, ledger, newAsset, ho, _, hl, hc, hst⟩ := addAssetString_ok_inv E st fn
      assetId arg1 issuerId arg3 arg4 arg5 arg6 arg7 arg8 arg9 hsucc
    obtain ⟨quantity, h3, haid, hqty, _, _, hown, hrec, hnone⟩ := createAsset_ok_inv E
      assetId arg1 issuerId arg3 arg4 arg5 arg6 arg7 arg8 arg9 newAsset hc
    refine ⟨issuer, ledger, newAsset, quantity, ho, hl, hc, h3, hqty, hown, hrec, hnone,
      ?_, ?_, ?_, ?_⟩
    · intro k h1 h2 h4
      rw [hst]
      simp [saveStringToDataArray_apply, Owner.save, Asset.save, PutState, haid, h1, h2, h4]
    · rw [hst]
      simp [Owner.save, PutState]
    · intro hk
      rw [hst]
      simp [saveStringToDataArray_apply, Owner.save, PutState, hk]
    · intro h1 h2
      rw [hst]
      simp [saveStringToDataArray_apply, Owner.save, Asset.save, PutState, haid, h1, h2]

theorem creation_frame_witness :
    ∃ ledger newOwner,
      getDataArrayStrings (scenarioEnv 0) storeA PRIMARYKEY0 [] = Except.ok ledger ∧
      createOwner (scenarioEnv 0) ["CAROL", "Carol", "50", "", "", ""] = Except.ok newOwner ∧
      (∀ k, k ≠ "CAROL" → k ≠ PRIMARYKEY0 →
        (addOwner (scenarioEnv 0) storeA "addOwner"
          ["CAROL", "Carol", "50", "", "", ""]).store k = storeA k) ∧
      (addOwner (scenarioEnv 0) storeA "addOwner"
        ["CAROL", "Carol", "50", "", "", ""]).store PRIMARYKEY0 =
        some (Doc.strings (ledger ++ ["CAROL"])) ∧
      ("CAROL" ≠ PRIMARYKEY0 →
        (addOwner (scenarioEnv 0) storeA "addOwner"
          ["CAROL", "Carol", "50", "", "", ""]).store "CAROL" = some (Doc.owner newOwner)) :=
  (creation_frame (scenarioEnv 0) storeA "addOwner").1 "CAROL" "Carol" "50" "" "" ""
    (by with_unfolding_all rfl)

/-! ## A new owner -/

theorem transactAsset_err_of_unvalidated_seller (E : Env) (st : Store) (fn : String)
    (assetId sellerId buyerId arg3 arg4 arg5 : String) (o : Owner)
    (ho : getOwner E st [sellerId] = Except.ok o) (hv : o.Validated = false) :
    (transactAsset E st fn [assetId, sellerId, buyerId, arg3, arg4, arg5]).err ≠ none := by
  intro hsucc
  obtain ⟨q, p, a, s, b, tx0, l, tx, _, _, _, hs, _, hr, _⟩ :=
    transactAsset_ok_inv E st fn assetId sellerId buyerId arg3 arg4 arg5 hsucc
  rw [ho] at hs
  cases hs
  have h1 := ((tradingRequirements_eq_none_iff fn a o b sellerId q p (E.mulFloat p (E.floatOfInt q))).mp hr).1
  rw [hv] at h1
  cases h1

theorem transactAsset_err_of_unvalidated_buyer (E : Env) (st : Store) (fn : String)
    (assetId sellerId buyerId arg3 arg4 arg5 : String) (o : Owner)
    (ho : getOwner E st [buyerId] = Except.ok o) (hv : o.Validated = false) :
    (transactAsset E st fn [assetId, sellerId, buyerId, arg3, arg4, arg5]).err ≠ none := by
  intro hsucc
  obtain ⟨q, p, a, s, b, tx0, l, tx, _, _, _, _, hb, hr, _⟩ :=
    transactAsset_ok_inv E st fn assetId sellerId buyerId arg3 arg4 arg5 hsucc
  rw [ho] at hb
  cases hb
  have h2 := ((tradingRequirements_eq_none_iff fn a s o sellerId q p (E.mulFloat p (E.floatOfInt q))).mp hr).2.1
  rw [hv] at h2
  cases h2

theorem addAssetString_err_of_unvalidated (E : Env) (st : Store) (fn : String)
    (assetId arg1 issuerId arg3 arg4 arg5 arg6 arg7 arg8 arg9 : String) (o : Owner)
    (ho : getOwner E st [issuerId] = Except.ok o) (hv : o.Validated = false) :
    (addAssetString E st fn
      [assetId, arg1, issuerId, arg3, arg4, arg5, arg6, arg7, arg8, arg9]).err ≠ none := by
  intro hsucc
  obtain ⟨issuer, _, _, hi, hval, _⟩ := addAssetString_ok_inv E st fn
    assetId arg1 issuerId arg3 arg4 arg5 arg6 arg7 arg8 arg9 hsucc
  rw [ho] at hi
  cases hi
  rw [hv] at hval
  cases hval

/-- C38, new owners start unvalidated and empty: for a 6-argument list whose
balance parses, the owner a successful `addOwner` stores under its id has
`Validated = false`, `EscrowBalance = 0`, `Balance` equal to the parsed
argument and empty `Assets`, `Issued` and `Transactions`, and its id is appended
at the end of the `Owners` registry.  On the store so left, every
`transactAsset` naming it as seller or as buyer and every `addAssetString`
naming it as issuer returns an error and changes nothing, while
`changeOwnerValidationStatus` on it succeeds and stores it validated.  The id
is not the registry name `Owners`. -/
theorem new_owner_starts_unvalidated (E : Env) (st : Store) (fn : String)
    (ownerId arg1 arg2 arg3 arg4 arg5 : String) (balance : ℚ)
    (hbal : E.ParseFloat arg2 = some balance) (hkey : ownerId ≠ PRIMARYKEY0)
    (hsucc : (addOwner E st fn [ownerId, arg1, arg2, arg3, arg4, arg5]).err = none) :
    ∃ o ledger, getDataArrayStrings E st PRIMARYKEY0 [] = Except.ok ledger ∧
      (addOwner E st fn [ownerId, arg1, arg2, arg3, arg4, arg5]).store ownerId =
        some (Doc.owner o) ∧
      o.OwnerId = ownerId ∧ o.Validated = false ∧ o.EscrowBalance = 0 ∧ o.Balance = balance ∧
      o.Assets = [] ∧ o.Issued = [] ∧ o.Transactions = [] ∧
      (addOwner E st fn [ownerId, arg1, arg2, arg3, arg4, arg5]).store PRIMARYKEY0 =
        some (Doc.strings (ledger ++ [ownerId])) ∧
      (∀ (E2 : Env) (fn2 assetId other a3 a4 a5 : String),
        (transactAsset E2 (addOwner E st fn [ownerId, arg1, arg2, arg3, arg4, arg5]).store fn2
          [assetId, ownerId, other, a3, a4, a5]).err ≠ none ∧
        (transactAsset E2 (addOwner E st fn [ownerId, arg1, arg2, arg3, arg4, arg5]).store fn2
          [assetId, ownerId, other, a3, a4, a5]).store =
            (addOwner E st fn [ownerId, arg1, arg2, arg3, arg4, arg5]).store) ∧
      (∀ (E2 : Env) (fn2 assetId other a3 a4 a5 : String),
        (transactAsset E2 (addOwner E st fn [ownerId, arg1, arg2, arg3, arg4, arg5]).store fn2
          [assetId, other, ownerId, a3, a4, a5]).err ≠ none ∧
        (transactAsset E2 (addOwner E st fn [ownerId, arg1, arg2, arg3, arg4, arg5]).store fn2
          [assetId, other, ownerId, a3, a4, a5]).store =
            (addOwner E st fn [ownerId, arg1, arg2, arg3, arg4, arg5]).store) ∧
      (∀ (E2 : Env) (fn2 assetId a1 a3 a4 a5 a6 a7 a8 a9 : String),
        (addAssetString E2 (addOwner E st fn [ownerId, arg1, arg2, arg3, arg4, arg5]).store fn2
          [assetId, a1, ownerId, a3, a4, a5, a6, a7, a8, a9]).err ≠ none ∧
        (addAssetString E2 (addOwner E st fn [ownerId, arg1, arg2, arg3, arg4, arg5]).store fn2
          [assetId, a1, ownerId, a3, a4, a5, a6, a7, a8, a9]).store =
            (addOwner E st fn [ownerId, arg1, arg2, arg3, arg4, arg5]).store) ∧
      (∀ (E2 : Env) (fn2 : String),
        (changeOwnerValidationStatus E2
          (addOwner E st fn [ownerId, arg1, arg2, arg3, arg4, arg5]).store fn2
          [ownerId]).err = none ∧
        (changeOwnerValidationStatus E2
          (addOwner E st fn [ownerId, arg1, arg2, arg3, arg4, arg5]).store fn2
          [ownerId]).store ownerId = some (Doc.owner { o with Validated := true })) := by
  obtain ⟨ledger, newOwner, hl, hc, hst⟩ :=
    addOwner_ok_inv E st fn ownerId arg1 arg2 arg3 arg4 arg5 hsucc
  obtain ⟨balance2, hb2, ho⟩ := createOwner_ok_inv E ownerId arg1 arg2 arg3 arg4 arg5 newOwner hc
  rw [hbal] at hb2
  cases hb2
  have hoid : newOwner.OwnerId = ownerId := by rw [ho]
  have hval : newOwner.Validated = false := by rw [ho]
  have hdoc : (addOwner E st fn [ownerId, arg1, arg2, arg3, arg4, arg5]).store ownerId =
      some (Doc.owner newOwner) := by
    rw [hst]
    simp [saveStringToDataArray_apply, Owner.save, PutState, hoid, hkey]
  refine ⟨newOwner, ledger, hl, hdoc, hoid, hval, by rw [ho], by rw [ho], by rw [ho],
    by rw [ho], by rw [ho], ?_, ?_, ?_, ?_, ?_⟩
  · rw [hst]
    simp [saveStringToDataArray_apply]
  · intro E2 fn2 assetId other a3 a4 a5
    have herr := transactAsset_err_of_unvalidated_seller E2 _ fn2 assetId ownerId other a3 a4 a5
      newOwner (getOwner_of_doc E2 _ ownerId newOwner hdoc) hval
    exact ⟨herr, transactAsset_store_of_err E2 _ fn2 _ herr⟩
  · intro E2 fn2 assetId other a3 a4 a5
    have herr := transactAsset_err_of_unvalidated_buyer E2 _ fn2 assetId other ownerId a3 a4 a5
      newOwner (getOwner_of_doc E2 _ ownerId newOwner hdoc) hval
    exact ⟨herr, transactAsset_store_of_err E2 _ fn2 _ herr⟩
  · intro E2 fn2 assetId a1 a3 a4 a5 a6 a7 a8 a9
    have herr := addAssetString_err_of_unvalidated E2 _ fn2 assetId a1 ownerId a3 a4 a5 a6 a7
      a8 a9 newOwner (getOwner_of_doc E2 _ ownerId newOwner hdoc) hval
    exact ⟨herr, addAssetString_store_of_err E2 _ fn2 _ herr⟩
  · intro E2 fn2
    rw [changeOwnerValidationStatus_of_doc E2 _ fn2 ownerId newOwner hdoc,
      Owner.toggleValidation_eq]
    refine ⟨rfl, ?_⟩
    simp [Owner.save, PutState, hoid, hval]

theorem new_owner_starts_unvalidated_witness :
    ∃ o, storeCarol "CAROL" = some (Doc.owner o) ∧ o.Validated = false ∧
      o.EscrowBalance = 0 ∧ o.Balance = 50 ∧ o.Assets = [] ∧ o.Issued = [] ∧
      o.Transactions = [] ∧
      storeCarol PRIMARYKEY0 = some (Doc.strings (["ACME", "BOB"] ++ ["CAROL"])) ∧
      (transactAsset (scenarioEnv 1) storeCarol "transactAsset"
        ["GOLD", "ACME", "CAROL", "1", "10.0", "FALSE"]).err ≠ none := by
  obtain ⟨o, ledger, hl, hdoc, _, hv, hesc, hbal, h1, h2, h3, hreg, _, hbuy, _, _⟩ :=
    new_owner_starts_unvalidated (scenarioEnv 0) storeA "addOwner"
      "CAROL" "Carol" "50" "" "" "" 50 (by with_unfolding_all rfl) (by decide)
      (by with_unfolding_all rfl)
  have hledger : ledger = ["ACME", "BOB"] := by
    have h : getDataArrayStrings (scenarioEnv 0) storeA PRIMARYKEY0 [] =
        Except.ok ["ACME", "BOB"] := rfl
    rw [h] at hl
    cases hl
    rfl
  subst hledger
  exact ⟨o, hdoc, hv, hesc, hbal, h1, h2, h3, hreg,
    (hbuy (scenarioEnv 1) "transactAsset" "GOLD" "ACME" "1" "10.0" "FALSE").1⟩

/-! ## The asset methods in 64-bit arithmetic -/

/-- A sum or difference inside the 64-bit range is held as it is. -/
theorem int64_of_fits (x : Int) (h : InInt64 x) : int64 x = x := by
  unfold InInt64 at h
  unfold int64
  omega

/-- What a 64-bit `int` holds is a value of the 64-bit range. -/
theorem int64_InInt64 (x : Int) : InInt64 (int64 x) := by
  unfold InInt64 int64
  omega

@[simp] theorem Asset.addOwner64_Id (a : Asset) (k : String) (q : Int) :
    (a.addOwner64 k q).Id = a.Id := by
  unfold Asset.addOwner64; split <;> rfl

@[simp] theorem Asset.addOwner64_Quantity (a : Asset) (k : String) (q : Int) :
    (a.addOwner64 k q).Quantity = a.Quantity := by
  unfold Asset.addOwner64; split <;> rfl

theorem Asset.addOwner64_OwnedBy_other (a : Asset) (k k2 : String) (q : Int) (h : k2 ≠ k) :
    (a.addOwner64 k q).OwnedBy k2 = a.OwnedBy k2 := by
  unfold Asset.addOwner64
  split <;> simp [Asset.setOwnedBy, h]

theorem Asset.addOwner64_ownedBy_other (a : Asset) (k k2 : String) (q : Int) (h : k2 ≠ k) :
    (a.addOwner64 k q).ownedBy k2 = a.ownedBy k2 := by
  simp [Asset.ownedBy, Asset.addOwner64_OwnedBy_other a k k2 q h]

/-- The record `addOwner64` leaves for the new holder: the machine's sum of the
old live quantity and the quantity for an id in `Owners`, the quantity itself
for a new id. -/
theorem Asset.addOwner64_ownedBy_Quantity (a : Asset) (k : String) (q : Int) :
    ((a.addOwner64 k q).ownedBy k).Quantity =
      if k ∈ a.Owners then int64 ((a.ownedBy k).Quantity + q) else q := by
  unfold Asset.addOwner64
  by_cases h : k ∈ a.Owners
  · simp [h, IsElementInSlice]
  · simp [h, IsElementInSlice]

theorem Asset.addOwner64_OwnedBy_isSome (a : Asset) (k : String) (q : Int) :
    ((a.addOwner64 k q).OwnedBy k).isSome = true := by
  unfold Asset.addOwner64
  split <;> simp

@[simp] theorem Asset.subtractOwner64_Id (a : Asset) (k : String) (q : Int) (p : Bool) :
    (a.subtractOwner64 k q p).Id = a.Id := by
  unfold Asset.subtractOwner64; simp only []; split <;> rfl

@[simp] theorem Asset.subtractOwner64_Quantity (a : Asset) (k : String) (q : Int) (p : Bool) :
    (a.subtractOwner64 k q p).Quantity = a.Quantity := by
  unfold Asset.subtractOwner64; simp only []; split <;> rfl

theorem Asset.subtractOwner64_OwnedBy_other (a : Asset) (k k2 : String) (q : Int) (p : Bool)
    (h : k2 ≠ k) : (a.subtractOwner64 k q p).OwnedBy k2 = a.OwnedBy k2 := by
  unfold Asset.subtractOwner64
  simp only []
  split <;> simp [Asset.setOwnedBy, h]

@[simp] theorem Asset.removeOwner64_Id (a : Asset) (k : String) (q : Int) (p : Bool) :
    (a.removeOwner64 k q p).Id = a.Id := by
  unfold Asset.removeOwner64; simp only []; split <;> split <;> simp

@[simp] theorem Asset.removeOwner64_Quantity (a : Asset) (k : String) (q : Int) (p : Bool) :
    (a.removeOwner64 k q p).Quantity = a.Quantity := by
  unfold Asset.removeOwner64; simp only []; split <;> split <;> simp

theorem Asset.removeOwner64_OwnedBy_other (a : Asset) (k k2 : String) (q : Int) (p : Bool)
    (h : k2 ≠ k) : (a.removeOwner64 k q p).OwnedBy k2 = a.OwnedBy k2 := by
  unfold Asset.removeOwner64
  simp only []
  split <;> split <;>
    first
      | exact Asset.deleteOwner_OwnedBy_other a k k2 h
      | exact Asset.subtractOwner64_OwnedBy_other a k k2 q _ h

theorem Asset.removeOwner64_ownedBy_other (a : Asset) (k k2 : String) (q : Int) (p : Bool)
    (h : k2 ≠ k) : (a.removeOwner64 k q p).ownedBy k2 = a.ownedBy k2 := by
  simp [Asset.ownedBy, Asset.removeOwner64_OwnedBy_other a k k2 q p h]

theorem Asset.removeOwner64_live_delete (a : Asset) (k : String) (q : Int)
    (h : (a.ownedBy k).Quantity = q ∧ (a.ownedBy k).EscrowQty = 0) :
    (a.removeOwner64 k q false).OwnedBy k = none ∧ k ∉ (a.removeOwner64 k q false).Owners := by
  unfold Asset.removeOwner64
  simp [h, Asset.deleteOwner, DeleteElementFromSlice]

theorem Asset.removeOwner64_live_keep (a : Asset) (k : String) (q : Int)
    (h : ¬ ((a.ownedBy k).Quantity = q ∧ (a.ownedBy k).EscrowQty = 0)) :
    (a.removeOwner64 k q false).OwnedBy k =
      some { a.ownedBy k with Quantity := int64 ((a.ownedBy k).Quantity - q) } := by
  unfold Asset.removeOwner64
  simp only [Bool.false_eq_true, if_false, if_neg h]
  simp [Asset.subtractOwner64]

@[simp] theorem Asset.escrowOwner64_Id (a : Asset) (k : String) (q : Int) :
    (a.escrowOwner64 k q).Id = a.Id := rfl

@[simp] theorem Asset.escrowOwner64_Quantity (a : Asset) (k : String) (q : Int) :
    (a.escrowOwner64 k q).Quantity = a.Quantity := rfl

theorem Asset.escrowOwner64_OwnedBy_same (a : Asset) (k : String) (q : Int) :
    (a.escrowOwner64 k q).OwnedBy k =
      some { a.ownedBy k with
        Quantity := int64 ((a.ownedBy k).Quantity - q)
        EscrowQty := int64 ((a.ownedBy k).EscrowQty + q) } := by
  simp [Asset.escrowOwner64]

theorem Asset.escrowOwner64_OwnedBy_other (a : Asset) (k k2 : String) (q : Int) (h : k2 ≠ k) :
    (a.escrowOwner64 k q).OwnedBy k2 = a.OwnedBy k2 := by
  simp [Asset.escrowOwner64, Asset.setOwnedBy, h]

/-- The two versions of `addOwner` agree when the sum is in the 64-bit range. -/
theorem Asset.addOwner64_of_fits (a : Asset) (k : String) (q : Int)
    (h : InInt64 ((a.ownedBy k).Quantity + q)) : a.addOwner64 k q = a.addOwner k q := by
  unfold Asset.addOwner64 Asset.addOwner
  simp only [int64_of_fits _ h]

/-- The two versions of `subtractOwner` agree when the differences are in the
64-bit range. -/
theorem Asset.subtractOwner64_of_fits (a : Asset) (k : String) (q : Int) (p : Bool)
    (h1 : InInt64 ((a.ownedBy k).Quantity - q)) (h2 : InInt64 ((a.ownedBy k).EscrowQty - q)) :
    a.subtractOwner64 k q p = a.subtractOwner k q p := by
  unfold Asset.subtractOwner64 Asset.subtractOwner
  simp only [int64_of_fits _ h1, int64_of_fits _ h2]

/-- The two versions of `removeOwner` agree when the differences are in the
64-bit range. -/
theorem Asset.removeOwner64_of_fits (a : Asset) (k : String) (q : Int) (p : Bool)
    (h1 : InInt64 ((a.ownedBy k).Quantity - q)) (h2 : InInt64 ((a.ownedBy k).EscrowQty - q)) :
    a.removeOwner64 k q p = a.removeOwner k q p := by
  unfold Asset.removeOwner64 Asset.removeOwner
  rw [Asset.subtractOwner64_of_fits a k q p h1 h2]

/-- The two versions of `escrowOwner` agree when the difference and the sum are
in the 64-bit range. -/
theorem Asset.escrowOwner64_of_fits (a : Asset) (k : String) (q : Int)
    (h1 : InInt64 ((a.ownedBy k).Quantity - q)) (h2 : InInt64 ((a.ownedBy k).EscrowQty + q)) :
    a.escrowOwner64 k q = a.escrowOwner k q := by
  unfold Asset.escrowOwner64 Asset.escrowOwner
  simp only [int64_of_fits _ h1, int64_of_fits _ h2]

/-! ## The in-memory assets of a trade in 64-bit arithmetic -/

@[simp] theorem tradedAsset64_Id (asset : Asset) (sellerId : String) (quantity : Int) :
    (tradedAsset64 asset sellerId quantity).Id = asset.Id := by
  unfold tradedAsset64; split <;> rfl

@[simp] theorem tradedAsset64_Owners (asset : Asset) (sellerId : String) (quantity : Int) :
    (tradedAsset64 asset sellerId quantity).Owners = asset.Owners := by
  unfold tradedAsset64; split <;> rfl

@[simp] theorem tradedAsset64_OwnedBy (asset : Asset) (sellerId : String) (quantity : Int) :
    (tradedAsset64 asset sellerId quantity).OwnedBy = asset.OwnedBy := by
  unfold tradedAsset64; split <;> rfl

@[simp] theorem tradedAsset64_ownedBy (asset : Asset) (sellerId : String) (quantity : Int)
    (k : String) : (tradedAsset64 asset sellerId quantity).ownedBy k = asset.ownedBy k := by
  simp [Asset.ownedBy]

theorem tradedAsset64_Quantity (asset : Asset) (sellerId : String) (quantity : Int) :
    (tradedAsset64 asset sellerId quantity).Quantity =
      if sellerId = asset.Issuer then int64 (asset.Quantity - quantity) else asset.Quantity := by
  unfold tradedAsset64; split <;> rfl

/-- The seller document does not depend on how the unsold supply was updated:
`removeAsset` reads the holder record and the id only. -/
theorem Owner.removeAsset_tradedAsset64 (o : Owner) (asset : Asset) (sellerId : String)
    (quantity q : Int) :
    o.removeAsset (tradedAsset64 asset sellerId quantity) q =
      o.removeAsset (tradedAsset asset sellerId quantity) q := by
  simp [Owner.removeAsset]

@[simp] theorem directAsset64_Id (asset : Asset) (s b : String) (q : Int) :
    (directAsset64 asset s b q).Id = asset.Id := by
  simp [directAsset64]

theorem directAsset64_Quantity (asset : Asset) (s b : String) (q : Int) :
    (directAsset64 asset s b q).Quantity =
      if s = asset.Issuer then int64 (asset.Quantity - q) else asset.Quantity := by
  simp [directAsset64, tradedAsset64_Quantity]

theorem directAsset64_buyer (asset : Asset) (s b : String) (q : Int) (hne : b ≠ s) :
    ((directAsset64 asset s b q).ownedBy b).Quantity =
      if b ∈ asset.Owners then int64 ((asset.ownedBy b).Quantity + q) else q := by
  unfold directAsset64
  rw [Asset.removeOwner64_ownedBy_other _ s b q false hne, Asset.addOwner64_ownedBy_Quantity]
  simp

theorem directAsset64_buyer_isSome (asset : Asset) (s b : String) (q : Int) (hne : b ≠ s) :
    ((directAsset64 asset s b q).OwnedBy b).isSome = true := by
  unfold directAsset64
  rw [Asset.removeOwner64_OwnedBy_other _ s b q false hne]
  exact Asset.addOwner64_OwnedBy_isSome _ b q

theorem directAsset64_seller_delete (asset : Asset) (s b : String) (q : Int) (hne : b ≠ s)
    (h : (asset.ownedBy s).Quantity = q ∧ (asset.ownedBy s).EscrowQty = 0) :
    (directAsset64 asset s b q).OwnedBy s = none ∧ s ∉ (directAsset64 asset s b q).Owners := by
  unfold directAsset64
  apply Asset.removeOwner64_live_delete
  rw [Asset.addOwner64_ownedBy_other _ b s q (Ne.symm hne)]
  simpa using h

theorem directAsset64_seller_keep (asset : Asset) (s b : String) (q : Int) (hne : b ≠ s)
    (h : ¬ ((asset.ownedBy s).Quantity = q ∧ (asset.ownedBy s).EscrowQty = 0)) :
    (directAsset64 asset s b q).OwnedBy s =
      some { asset.ownedBy s with Quantity := int64 ((asset.ownedBy s).Quantity - q) } := by
  unfold directAsset64
  have hs : ((tradedAsset64 asset s q).addOwner64 b q).ownedBy s = asset.ownedBy s := by
    rw [Asset.addOwner64_ownedBy_other _ b s q (Ne.symm hne)]
    simp
  rw [Asset.removeOwner64_live_keep _ s q (by rw [hs]; exact h), hs]

@[simp] theorem escrowAsset64_Id (asset : Asset) (s : String) (q : Int) :
    (escrowAsset64 asset s q).Id = asset.Id := by
  simp [escrowAsset64]

theorem escrowAsset64_Quantity (asset : Asset) (s : String) (q : Int) :
    (escrowAsset64 asset s q).Quantity =
      if s = asset.Issuer then int64 (asset.Quantity - q) else asset.Quantity := by
  simp [escrowAsset64, tradedAsset64_Quantity]

theorem escrowAsset64_seller (asset : Asset) (s : String) (q : Int) :
    (escrowAsset64 asset s q).OwnedBy s =
      some { asset.ownedBy s with
        Quantity := int64 ((asset.ownedBy s).Quantity - q)
        EscrowQty := int64 ((asset.ownedBy s).EscrowQty + q) } := by
  unfold escrowAsset64
  rw [Asset.escrowOwner64_OwnedBy_same]
  simp

theorem escrowAsset64_other (asset : Asset) (s k : String) (q : Int) (h : k ≠ s) :
    (escrowAsset64 asset s q).OwnedBy k = asset.OwnedBy k := by
  unfold escrowAsset64
  rw [Asset.escrowOwner64_OwnedBy_other _ s k q h]
  simp

/-! ## The trade in 64-bit arithmetic -/

/-- The settlement on the direct path, in 64-bit arithmetic: the owner documents
are those of `settleTrade`. -/
theorem settleTrade64_direct (E : Env) (st : Store) (asset : Asset) (seller buyer : Owner)
    (transaction : Transaction) (transactionsLedger : List String)
    (assetId sellerId buyerId : String) (quantity : Int) (forAmount : ℚ)
    (approvalRequired : String) (hA : approvalRequired ≠ "TRUE") :
    settleTrade64 E st asset seller buyer transaction transactionsLedger
        assetId sellerId buyerId quantity forAmount approvalRequired =
      persistTrade st (directBuyer E buyer transaction.Id assetId forAmount)
        (directSeller E seller asset transaction.Id sellerId quantity forAmount)
        (directAsset64 asset sellerId buyerId quantity)
        { transaction with Status := "Validated" } transactionsLedger := by
  have hS := Owner.removeAsset_tradedAsset64 (seller.addTransaction transaction.Id) asset
    sellerId quantity quantity
  unfold settleTrade64
  simp only [if_neg hA]
  unfold directSeller
  simp only [← hS]
  rfl

/-- The settlement on the escrow path, in 64-bit arithmetic. -/
theorem settleTrade64_escrow (E : Env) (st : Store) (asset : Asset) (seller buyer : Owner)
    (transaction : Transaction) (transactionsLedger pending : List String)
    (assetId sellerId buyerId : String) (quantity : Int) (forAmount : ℚ)
    (approvalRequired : String) (hA : approvalRequired = "TRUE")
    (hpend : getDataArrayStrings E st PRIMARYKEY3 [] = Except.ok pending) :
    settleTrade64 E st asset seller buyer transaction transactionsLedger
        assetId sellerId buyerId quantity forAmount approvalRequired =
      persistTrade (saveStringToDataArray st PRIMARYKEY3 transaction.Id pending)
        (escrowBuyer E buyer transaction.Id forAmount)
        (seller.addTransaction transaction.Id)
        (escrowAsset64 asset sellerId quantity)
        { transaction with Status := "Pending" } transactionsLedger := by
  unfold settleTrade64
  simp only [if_pos hA, hpend]
  rfl

/-- The escrow path fails when the pending registry cannot be read. -/
theorem settleTrade64_escrow_err (E : Env) (st : Store) (asset : Asset) (seller buyer : Owner)
    (transaction : Transaction) (transactionsLedger : List String)
    (assetId sellerId buyerId : String) (quantity : Int) (forAmount : ℚ)
    (approvalRequired : String) (e : Err) (hA : approvalRequired = "TRUE")
    (hpend : getDataArrayStrings E st PRIMARYKEY3 [] = Except.error e) :
    settleTrade64 E st asset seller buyer transaction transactionsLedger
        assetId sellerId buyerId quantity forAmount approvalRequired = ⟨some e, st⟩ := by
  unfold settleTrade64
  simp only [if_pos hA, hpend]

/-- The settlement returns the same error in both arithmetics. -/
theorem settleTrade64_err (E : Env) (st : Store) (asset : Asset) (seller buyer : Owner)
    (transaction : Transaction) (transactionsLedger : List String)
    (assetId sellerId buyerId : String) (quantity : Int) (forAmount : ℚ)
    (approvalRequired : String) :
    (settleTrade64 E st asset seller buyer transaction transactionsLedger
        assetId sellerId buyerId quantity forAmount approvalRequired).err =
      (settleTrade E st asset seller buyer transaction transactionsLedger
        assetId sellerId buyerId quantity forAmount approvalRequired).err := by
  by_cases hA : approvalRequired = "TRUE"
  · cases hpend : getDataArrayStrings E st PRIMARYKEY3 [] with
    | error e =>
      rw [settleTrade64_escrow_err _ _ _ _ _ _ _ _ _ _ _ _ _ e hA hpend,
        settleTrade_escrow_err _ _ _ _ _ _ _ _ _ _ _ _ _ e hA hpend]
    | ok pending =>
      rw [settleTrade64_escrow _ _ _ _ _ _ _ pending _ _ _ _ _ _ hA hpend,
        settleTrade_escrow _ _ _ _ _ _ _ pending _ _ _ _ _ _ hA hpend]
      rfl
  · rw [settleTrade64_direct _ _ _ _ _ _ _ _ _ _ _ _ _ hA,
      settleTrade_direct _ _ _ _ _ _ _ _ _ _ _ _ _ hA]
    rfl

/-- The run of `transactAsset64` once the arguments parse, the three entities
load and some requirement fails. -/
theorem transactAsset64_of_failed_requirement (E : Env) (st : Store) (fn : String)
    (assetId sellerId buyerId arg3 arg4 arg5 : String) (quantity : Int) (price : ℚ)
    (asset : Asset) (seller buyer : Owner) (e : Err)
    (hq : E.Atoi arg3 = some quantity) (hp : E.ParseFloat arg4 = some price)
    (ha : getAsset E st [assetId] = Except.ok asset)
    (hs : getOwner E st [sellerId] = Except.ok seller)
    (hb : getOwner E st [buyerId] = Except.ok buyer)
    (hr : tradingRequirements fn asset seller buyer sellerId quantity price
      (E.mulFloat price (E.floatOfInt quantity)) = some e) :
    transactAsset64 E st fn [assetId, sellerId, buyerId, arg3, arg4, arg5] = ⟨some e, st⟩ := by
  unfold transactAsset64
  simp only [hq, hp, ha, hs, hb, hr]

/-- The run of `transactAsset64` once the arguments parse, the three entities
load, the requirements pass, and the registry read and the fixing block
succeed: the call is the settlement. -/
theorem transactAsset64_of_passed (E : Env) (st : Store) (fn : String)
    (assetId sellerId buyerId arg3 arg4 arg5 : String) (quantity : Int) (price : ℚ)
    (asset : Asset) (seller buyer : Owner) (tx0 tx : Transaction) (ledger : List String)
    (hq : E.Atoi arg3 = some quantity) (hp : E.ParseFloat arg4 = some price)
    (ha : getAsset E st [assetId] = Except.ok asset)
    (hs : getOwner E st [sellerId] = Except.ok seller)
    (hb : getOwner E st [buyerId] = Except.ok buyer)
    (hr : tradingRequirements fn asset seller buyer sellerId quantity price
      (E.mulFloat price (E.floatOfInt quantity)) = none)
    (hc : createTransaction E quantity price [assetId, sellerId, buyerId] = Except.ok tx0)
    (hl : getDataArrayStrings E st PRIMARYKEY2 [] = Except.ok ledger)
    (hf : apiFixing E asset tx0 price = Except.ok tx) :
    transactAsset64 E st fn [assetId, sellerId, buyerId, arg3, arg4, arg5] =
      settleTrade64 E st asset seller buyer tx ledger assetId sellerId buyerId quantity
        (E.mulFloat price (E.floatOfInt quantity))
        (if asset.Triggers.Approval = true ∧ quantity > asset.Triggers.ApprovalQty then "TRUE"
          else arg5) := by
  unfold transactAsset64
  simp only [hq, hp, ha, hs, hb, hr, hc, hl, hf]

/-- A successful `transactAsset64` went through every step: the arguments
parsed, the entities loaded, the requirements passed, the registry was read, the
fixing block succeeded and the call is the settlement. -/
theorem transactAsset64_ok_inv (E : Env) (st : Store) (fn : String)
    (assetId sellerId buyerId arg3 arg4 arg5 : String)
    (h : (transactAsset64 E st fn [assetId, sellerId, buyerId, arg3, arg4, arg5]).err = none) :
    ∃ quantity price asset seller buyer tx0 ledger tx,
      E.Atoi arg3 = some quantity ∧ E.ParseFloat arg4 = some price ∧
      getAsset E st [assetId] = Except.ok asset ∧
      getOwner E st [sellerId] = Except.ok seller ∧
      getOwner E st [buyerId] = Except.ok buyer ∧
      tradingRequirements fn asset seller buyer sellerId quantity price
        (E.mulFloat price (E.floatOfInt quantity)) = none ∧
      createTransaction E quantity price [assetId, sellerId, buyerId] = Except.ok tx0 ∧
      getDataArrayStrings E st PRIMARYKEY2 [] = Except.ok ledger ∧
      apiFixing E asset tx0 price = Except.ok tx ∧
      transactAsset64 E st fn [assetId, sellerId, buyerId, arg3, arg4, arg5] =
        settleTrade64 E st asset seller buyer tx ledger assetId sellerId buyerId quantity
          (E.mulFloat price (E.floatOfInt quantity))
          (if asset.Triggers.Approval = true ∧ quantity > asset.Triggers.ApprovalQty then "TRUE"
            else arg5) := by
  cases hq : E.Atoi arg3 with
  | none => simp [transactAsset64, hq] at h
  | some quantity =>
  cases hp : E.ParseFloat arg4 with
  | none => simp [transactAsset64, hq, hp] at h
  | some price =>
  cases ha : getAsset E st [assetId] with
  | error e => simp [transactAsset64, hq, hp, ha] at h
  | ok asset =>
  cases hs : getOwner E st [sellerId] with
  | error e => simp [transactAsset64, hq, hp, ha, hs] at h
  | ok seller =>
  cases hb : getOwner E st [buyerId] with
  | error e => simp [transactAsset64, hq, hp, ha, hs, hb] at h
  | ok buyer =>
  cases hr : tradingRequirements fn asset seller buyer sellerId quantity price
      (E.mulFloat price (E.floatOfInt quantity)) with
  | some e =>
    rw [transactAsset64_of_failed_requirement E st fn assetId sellerId buyerId arg3 arg4 arg5
      quantity price asset seller buyer e hq hp ha hs hb hr] at h
    simp at h
  | none =>
  obtain ⟨tx0, hc⟩ : ∃ tx0, createTransaction E quantity price [assetId, sellerId, buyerId] =
      Except.ok tx0 := ⟨_, createTransaction_ok E quantity price assetId sellerId buyerId⟩
  cases hl : getDataArrayStrings E st PRIMARYKEY2 [] with
  | error e =>
    unfold transactAsset64 at h
    simp only [hq, hp, ha, hs, hb, hr, hc, hl] at h
    simp at h
  | ok ledger =>
  cases hf : apiFixing E asset tx0 price with
  | error e =>
    unfold transactAsset64 at h
    simp only [hq, hp, ha, hs, hb, hr, hc, hl, hf] at h
    simp at h
  | ok tx =>
    refine ⟨quantity, price, asset, seller, buyer, tx0, ledger, tx, ?_, ?_, ?_, ?_, ?_, ?_, hc,
      ?_, hf, transactAsset64_of_passed E st fn assetId sellerId buyerId arg3 arg4 arg5
        quantity price asset seller buyer tx0 tx ledger hq hp ha hs hb hr hc hl hf⟩
    all_goals first | rfl | assumption

/-- Both arithmetics return the same error: the checks of a trade do not depend
on how the stored quantities are computed. -/
theorem transactAsset64_err (E : Env) (st : Store) (fn : String) (args : List String) :
    (transactAsset64 E st fn args).err = (transactAsset E st fn args).err := by
  unfold transactAsset64 transactAsset
  split
  · rename_i assetId sellerId buyerId arg3 arg4 arg5
    cases hq : E.Atoi arg3 with
    | none => rfl
    | some quantity =>
    cases hp : E.ParseFloat arg4 with
    | none => rfl
    | some price =>
    cases ha : getAsset E st [assetId] with
    | error e => rfl
    | ok asset =>
    cases hs : getOwner E st [sellerId] with
    | error e => rfl
    | ok seller =>
    cases hb : getOwner E st [buyerId] with
    | error e => rfl
    | ok buyer =>
    cases hr : tradingRequirements fn asset seller buyer sellerId quantity price
        (E.mulFloat price (E.floatOfInt quantity)) with
    | some e => simp [hr]
    | none =>
    cases hc : createTransaction E quantity price [assetId, sellerId, buyerId] with
    | error e => simp [hr, hc]
    | ok transaction =>
    cases hl : getDataArrayStrings E st PRIMARYKEY2 [] with
    | error e => simp [hr, hc, hl]
    | ok transactionsLedger =>
    cases hf : apiFixing E asset transaction price with
    | error e => simp [hr, hc, hl, hf]
    | ok transaction2 =>
    simp only [hr, hc, hl, hf]
    exact settleTrade64_err _ _ _ _ _ _ _ _ _ _ _ _ _
  · rfl

/-! ## Direct settlement in 64-bit arithmetic -/

/-- C4, direct settlement postcondition: after a successful trade on the direct
path with `buyer != seller` and no contract URL, with `total = price*quantity`
(the `float64` product of the price and the converted quantity), the store holds
`buyer.Balance = old - total` and `seller.Balance = old + total` (the `float64`
difference and sum), the asset id in `buyer.Assets`,
`asset.OwnedBy[buyer].Quantity` equal to the old live quantity plus `quantity`
as the 64-bit `int` holds the sum (`quantity` itself when the buyer was not
among the owners), the seller's live quantity reduced by `quantity` as the
64-bit `int` holds the difference (or the seller's holder record deleted when
its live quantity equalled `quantity` and its escrow was 0), `asset.Quantity`
reduced by `quantity` exactly when the seller is the issuer, the transaction
with status `Validated`, and its id appended to the `Transactions` registry.
The documents sit under their own ids, and the key of the transaction id is
unused or holds a transaction. -/
theorem transactAsset_direct_settlement (E : Env) (st : Store) (fn : String)
    (assetId sellerId buyerId arg3 arg4 arg5 : String) (quantity : Int) (price : ℚ)
    (asset : Asset) (seller buyer : Owner) (ledger : List String)
    (hq : E.Atoi arg3 = some quantity) (hp : E.ParseFloat arg4 = some price)
    (ha : st assetId = some (Doc.asset asset)) (haid : asset.Id = assetId)
    (hs : st sellerId = some (Doc.owner seller)) (hsid : seller.OwnerId = sellerId)
    (hb : st buyerId = some (Doc.owner buyer)) (hbid : buyer.OwnerId = buyerId)
    (hl : st PRIMARYKEY2 = some (Doc.strings ledger))
    (hne : buyerId ≠ sellerId)
    (hurl : asset.Contract.URL = "")
    (hdirect : ¬ (arg5 = "TRUE" ∨
      (asset.Triggers.Approval = true ∧ quantity > asset.Triggers.ApprovalQty)))
    (hid : ∀ d, st (newTransactionId E assetId sellerId buyerId E.Now) = some d →
      ∃ t, d = Doc.transaction t)
    (hsucc :
      (transactAsset64 E st fn [assetId, sellerId, buyerId, arg3, arg4, arg5]).err = none) :
    (∃ b, (transactAsset64 E st fn [assetId, sellerId, buyerId, arg3, arg4, arg5]).store buyerId =
        some (Doc.owner b) ∧
      b.Balance = E.subFloat buyer.Balance (E.mulFloat price (E.floatOfInt quantity)) ∧
      assetId ∈ b.Assets) ∧
    (∃ s, (transactAsset64 E st fn [assetId, sellerId, buyerId, arg3, arg4, arg5]).store
          sellerId = some (Doc.owner s) ∧
      s.Balance = E.addFloat seller.Balance (E.mulFloat price (E.floatOfInt quantity))) ∧
    (∃ a, (transactAsset64 E st fn [assetId, sellerId, buyerId, arg3, arg4, arg5]).store assetId =
        some (Doc.asset a) ∧
      (a.OwnedBy buyerId).isSome = true ∧
      (a.ownedBy buyerId).Quantity =
        (if buyerId ∈ asset.Owners then int64 ((asset.ownedBy buyerId).Quantity + quantity)
          else quantity) ∧
      (((asset.ownedBy sellerId).Quantity = quantity ∧ (asset.ownedBy sellerId).EscrowQty = 0) →
        a.OwnedBy sellerId = none ∧ sellerId ∉ a.Owners) ∧
      (¬ ((asset.ownedBy sellerId).Quantity = quantity ∧ (asset.ownedBy sellerId).EscrowQty = 0) →
        a.OwnedBy sellerId =
          some { asset.ownedBy sellerId with
            Quantity := int64 ((asset.ownedBy sellerId).Quantity - quantity) }) ∧
      a.Quantity = (if sellerId = asset.Issuer then int64 (asset.Quantity - quantity)
        else asset.Quantity)) ∧
    (∃ t, (transactAsset64 E st fn [assetId, sellerId, buyerId, arg3, arg4, arg5]).store
          (newTransactionId E assetId sellerId buyerId E.Now) = some (Doc.transaction t) ∧
      t.Status = "Validated" ∧ t.AssetId = assetId ∧ t.SellerId = sellerId ∧
      t.BuyerId = buyerId ∧ t.Quantity = quantity ∧ t.Price = price) ∧
    (transactAsset64 E st fn [assetId, sellerId, buyerId, arg3, arg4, arg5]).store PRIMARYKEY2 =
      some (Doc.strings (ledger ++ [newTransactionId E assetId sellerId buyerId E.Now])) := by
  obtain ⟨q2, p2, a2, s2, b2, tx0, l2, tx, hq2, hp2, ha2, hs2, hb2, _, hc, hl2, hf, heq⟩ :=
    transactAsset64_ok_inv E st fn assetId sellerId buyerId arg3 arg4 arg5 hsucc
  rw [hq] at hq2; cases hq2
  rw [hp] at hp2; cases hp2
  rw [getAsset_of_doc E st assetId asset ha] at ha2; cases ha2
  rw [getOwner_of_doc E st sellerId seller hs] at hs2; cases hs2
  rw [getOwner_of_doc E st buyerId buyer hb] at hb2; cases hb2
  rw [getDataArrayStrings_of_doc E st PRIMARYKEY2 ledger hl] at hl2; cases hl2
  rw [apiFixing_no_url E asset tx0 price hurl] at hf; cases hf
  rw [createTransaction_ok] at hc; cases hc
  have hA : ¬ (if asset.Triggers.Approval = true ∧ quantity > asset.Triggers.ApprovalQty
      then "TRUE" else arg5) = "TRUE" :=
    fun h => hdirect ((approvalRequired_iff asset quantity arg5).mp h)
  have k1 : buyerId ≠ PRIMARYKEY2 := key_ne_of_doc hb hl (by simp)
  have k2 : sellerId ≠ PRIMARYKEY2 := key_ne_of_doc hs hl (by simp)
  have k3 : assetId ≠ PRIMARYKEY2 := key_ne_of_doc ha hl (by simp)
  have k4 : buyerId ≠ newTransactionId E assetId sellerId buyerId E.Now :=
    key_ne_of_tx hb hid (by simp)
  have k5 : sellerId ≠ newTransactionId E assetId sellerId buyerId E.Now :=
    key_ne_of_tx hs hid (by simp)
  have k6 : assetId ≠ newTransactionId E assetId sellerId buyerId E.Now :=
    key_ne_of_tx ha hid (by simp)
  have k7 : buyerId ≠ assetId := key_ne_of_doc hb ha (by simp)
  have k8 : sellerId ≠ assetId := key_ne_of_doc hs ha (by simp)
  have k9 : newTransactionId E assetId sellerId buyerId E.Now ≠ PRIMARYKEY2 :=
    (key_ne_of_tx hl hid (by simp)).symm
  rw [heq, settleTrade64_direct _ _ _ _ _ _ _ _ _ _ _ _ _ hA]
  simp only [persistTrade_store]
  refine ⟨⟨directBuyer E buyer (newTransactionId E assetId sellerId buyerId E.Now) assetId
        (E.mulFloat price (E.floatOfInt quantity)), ?_, directBuyer_Balance _ _ _ _ _,
        directBuyer_Assets _ _ _ _ _⟩,
    ⟨directSeller E seller asset (newTransactionId E assetId sellerId buyerId E.Now) sellerId
        quantity (E.mulFloat price (E.floatOfInt quantity)), ?_,
        directSeller_Balance _ _ _ _ _ _ _⟩,
    ⟨directAsset64 asset sellerId buyerId quantity, ?_,
      directAsset64_buyer_isSome _ _ _ _ hne, directAsset64_buyer _ _ _ _ hne,
      directAsset64_seller_delete _ _ _ _ hne, directAsset64_seller_keep _ _ _ _ hne,
      directAsset64_Quantity _ _ _ _⟩,
    ⟨{ Id := newTransactionId E assetId sellerId buyerId E.Now, AssetId := assetId,
        SellerId := sellerId, BuyerId := buyerId, Quantity := quantity, Price := price,
        Discount := 0, Created := E.Now, Status := "Validated", APIFixing := "" },
      ?_, rfl, rfl, rfl, rfl, rfl, rfl⟩, ?_⟩
  · simp [k1, k4, k7, hne, haid, hsid, hbid]
  · simp [k2, k5, k8, haid, hsid]
  · simp [k3, k6, haid]
  · simp [k9]
  · simp

theorem transactAsset_direct_settlement_witness :
    (transactAsset64 (scenarioEnv 0) storeA "transactAsset" scenarioArgs).err = none ∧
    (∃ b, (transactAsset64 (scenarioEnv 0) storeA "transactAsset" scenarioArgs).store "BOB" =
        some (Doc.owner b) ∧ b.Balance = 400 ∧ "GOLD" ∈ b.Assets) ∧
    (∃ a, (transactAsset64 (scenarioEnv 0) storeA "transactAsset" scenarioArgs).store "GOLD" =
        some (Doc.asset a) ∧ (a.ownedBy "BOB").Quantity = 10 ∧
        a.OwnedBy "ACME" = some ⟨"ACME", 90, 0⟩) := by
  have h : (transactAsset64 (scenarioEnv 0) storeA "transactAsset" scenarioArgs).err = none := by
    with_unfolding_all rfl
  obtain ⟨⟨b, hb, hbal, hmem⟩, _, ⟨a, ha, _, hbq, _, hkeep, _⟩, _, _⟩ :=
    transactAsset_direct_settlement (scenarioEnv 0) storeA "transactAsset"
      "GOLD" "ACME" "BOB" "10" "10.0" "FALSE" 10 10 (gold ⟨false, 0⟩) acme bob []
      (by decide) (by with_unfolding_all rfl) rfl rfl rfl rfl rfl rfl rfl (by decide) rfl
      (by decide)
      (fun d hd => by
        rw [show storeA (newTransactionId (scenarioEnv 0) "GOLD" "ACME" "BOB" (scenarioEnv 0).Now)
          = none from by with_unfolding_all rfl] at hd
        cases hd) h
  refine ⟨h, ⟨b, hb, ?_, hmem⟩, ⟨a, ha, ?_, ?_⟩⟩
  · rw [hbal]
    simp [bob, scenarioEnv]
    norm_num
  · rw [hbq]
    simp [gold]
  · rw [hkeep (by simp [gold, Asset.ownedBy])]
    simp [gold, Asset.ownedBy, int64]

/-! ## Escrow settlement in 64-bit arithmetic -/

/-- C5, escrow settlement postcondition: after a successful trade on the escrow
path with `buyer != seller` and no contract URL, with `total = price*quantity`
(the `float64` product of the price and the converted quantity), the store holds
`buyer.Balance = old - total` and `buyer.EscrowBalance = old + total` (the
`float64` difference and sum), `seller.Balance` unchanged, the seller's holder
record changed to `(Quantity - quantity, EscrowQty + quantity)` as the 64-bit
`int` holds the difference and the sum, the buyer's holding of the asset and
`buyer.Assets` unchanged, `asset.Quantity` reduced by `quantity` exactly when the
seller is the issuer, the transaction with status `Pending`, and its id appended
to both the `PendingTransactions` and the `Transactions` registries.  The
documents sit under their own ids, and the key of the transaction id is unused
or holds a transaction. -/
theorem transactAsset_escrow_settlement (E : Env) (st : Store) (fn : String)
    (assetId sellerId buyerId arg3 arg4 arg5 : String) (quantity : Int) (price : ℚ)
    (asset : Asset) (seller buyer : Owner) (ledger pending : List String)
    (hq : E.Atoi arg3 = some quantity) (hp : E.ParseFloat arg4 = some price)
    (ha : st assetId = some (Doc.asset asset)) (haid : asset.Id = assetId)
    (hs : st sellerId = some (Doc.owner seller)) (hsid : seller.OwnerId = sellerId)
    (hb : st buyerId = some (Doc.owner buyer)) (hbid : buyer.OwnerId = buyerId)
    (hl : st PRIMARYKEY2 = some (Doc.strings ledger))
    (hpend : st PRIMARYKEY3 = some (Doc.strings pending))
    (hne : buyerId ≠ sellerId)
    (hurl : asset.Contract.URL = "")
    (hescrow : arg5 = "TRUE" ∨
      (asset.Triggers.Approval = true ∧ quantity > asset.Triggers.ApprovalQty))
    (hid : ∀ d, st (newTransactionId E assetId sellerId buyerId E.Now) = some d →
      ∃ t, d = Doc.transaction t)
    (hsucc :
      (transactAsset64 E st fn [assetId, sellerId, buyerId, arg3, arg4, arg5]).err = none) :
    (∃ b, (transactAsset64 E st fn [assetId, sellerId, buyerId, arg3, arg4, arg5]).store buyerId =
        some (Doc.owner b) ∧
      b.Balance = E.subFloat buyer.Balance (E.mulFloat price (E.floatOfInt quantity)) ∧
      b.EscrowBalance =
        E.addFloat buyer.EscrowBalance (E.mulFloat price (E.floatOfInt quantity)) ∧
      b.Assets = buyer.Assets) ∧
    (∃ s, (transactAsset64 E st fn [assetId, sellerId, buyerId, arg3, arg4, arg5]).store
          sellerId = some (Doc.owner s) ∧
      s.Balance = seller.Balance) ∧
    (∃ a, (transactAsset64 E st fn [assetId, sellerId, buyerId, arg3, arg4, arg5]).store assetId =
        some (Doc.asset a) ∧
      a.OwnedBy sellerId =
        some { asset.ownedBy sellerId with
          Quantity := int64 ((asset.ownedBy sellerId).Quantity - quantity)
          EscrowQty := int64 ((asset.ownedBy sellerId).EscrowQty + quantity) } ∧
      a.OwnedBy buyerId = asset.OwnedBy buyerId ∧
      a.Quantity = (if sellerId = asset.Issuer then int64 (asset.Quantity - quantity)
        else asset.Quantity)) ∧
    (∃ t, (transactAsset64 E st fn [assetId, sellerId, buyerId, arg3, arg4, arg5]).store
          (newTransactionId E assetId sellerId buyerId E.Now) = some (Doc.transaction t) ∧
      t.Status = "Pending" ∧ t.AssetId = assetId ∧ t.SellerId = sellerId ∧
      t.BuyerId = buyerId ∧ t.Quantity = quantity ∧ t.Price = price) ∧
    (transactAsset64 E st fn [assetId, sellerId, buyerId, arg3, arg4, arg5]).store PRIMARYKEY3 =
      some (Doc.strings (pending ++ [newTransactionId E assetId sellerId buyerId E.Now])) ∧
    (transactAsset64 E st fn [assetId, sellerId, buyerId, arg3, arg4, arg5]).store PRIMARYKEY2 =
      some (Doc.strings (ledger ++ [newTransactionId E assetId sellerId buyerId E.Now])) := by
  obtain ⟨q2, p2, a2, s2, b2, tx0, l2, tx, hq2, hp2, ha2, hs2, hb2, _, hc, hl2, hf, heq⟩ :=
    transactAsset64_ok_inv E st fn assetId sellerId buyerId arg3 arg4 arg5 hsucc
  rw [hq] at hq2; cases hq2
  rw [hp] at hp2; cases hp2
  rw [getAsset_of_doc E st assetId asset ha] at ha2; cases ha2
  rw [getOwner_of_doc E st sellerId seller hs] at hs2; cases hs2
  rw [getOwner_of_doc E st buyerId buyer hb] at hb2; cases hb2
  rw [getDataArrayStrings_of_doc E st PRIMARYKEY2 ledger hl] at hl2; cases hl2
  rw [apiFixing_no_url E asset tx0 price hurl] at hf; cases hf
  rw [createTransaction_ok] at hc; cases hc
  have hA : (if asset.Triggers.Approval = true ∧ quantity > asset.Triggers.ApprovalQty
      then "TRUE" else arg5) = "TRUE" := (approvalRequired_iff asset quantity arg5).mpr hescrow
  have k1 : buyerId ≠ PRIMARYKEY2 := key_ne_of_doc hb hl (by simp)
  have k2 : sellerId ≠ PRIMARYKEY2 := key_ne_of_doc hs hl (by simp)
  have k3 : assetId ≠ PRIMARYKEY2 := key_ne_of_doc ha hl (by simp)
  have k4 : buyerId ≠ newTransactionId E assetId sellerId buyerId E.Now :=
    key_ne_of_tx hb hid (by simp)
  have k5 : sellerId ≠ newTransactionId E assetId sellerId buyerId E.Now :=
    key_ne_of_tx hs hid (by simp)
  have k6 : assetId ≠ newTransactionId E assetId sellerId buyerId E.Now :=
    key_ne_of_tx ha hid (by simp)
  have k7 : buyerId ≠ assetId := key_ne_of_doc hb ha (by simp)
  have k8 : sellerId ≠ assetId := key_ne_of_doc hs ha (by simp)
  have k9 : newTransactionId E assetId sellerId buyerId E.Now ≠ PRIMARYKEY2 :=
    (key_ne_of_tx hl hid (by simp)).symm
  have k10 : PRIMARYKEY3 ≠ newTransactionId E assetId sellerId buyerId E.Now :=
    key_ne_of_tx hpend hid (by simp)
  have k11 : PRIMARYKEY3 ≠ assetId := key_ne_of_doc hpend ha (by simp)
  have k12 : PRIMARYKEY3 ≠ sellerId := key_ne_of_doc hpend hs (by simp)
  have k13 : PRIMARYKEY3 ≠ buyerId := key_ne_of_doc hpend hb (by simp)
  rw [heq, settleTrade64_escrow _ _ _ _ _ _ _ pending _ _ _ _ _ _ hA
    (getDataArrayStrings_of_doc E st PRIMARYKEY3 pending hpend)]
  simp only [persistTrade_store]
  refine ⟨⟨escrowBuyer E buyer (newTransactionId E assetId sellerId buyerId E.Now)
        (E.mulFloat price (E.floatOfInt quantity)), ?_, rfl, rfl, rfl⟩,
    ⟨seller.addTransaction (newTransactionId E assetId sellerId buyerId E.Now), ?_, rfl⟩,
    ⟨escrowAsset64 asset sellerId quantity, ?_, escrowAsset64_seller _ _ _,
      escrowAsset64_other _ _ _ _ hne, escrowAsset64_Quantity _ _ _⟩,
    ⟨{ Id := newTransactionId E assetId sellerId buyerId E.Now, AssetId := assetId,
        SellerId := sellerId, BuyerId := buyerId, Quantity := quantity, Price := price,
        Discount := 0, Created := E.Now, Status := "Pending", APIFixing := "" },
      ?_, rfl, rfl, rfl, rfl, rfl, rfl⟩, ?_, ?_⟩
  · simp [k1, k4, k7, hne, haid, hsid, hbid]
  · simp [k2, k5, k8, haid, hsid]
  · simp [k3, k6, haid]
  · simp [k9]
  · simp [PRIMARYKEY3_ne_PRIMARYKEY2, k10, k11, k12, k13, haid, hsid, hbid,
      saveStringToDataArray_apply]
  · simp

theorem transactAsset_escrow_settlement_witness :
    (transactAsset64 (scenarioEnv 0) storeB "transactAsset" scenarioArgs).err = none ∧
    (∃ b, (transactAsset64 (scenarioEnv 0) storeB "transactAsset" scenarioArgs).store "BOB" =
        some (Doc.owner b) ∧ b.EscrowBalance = 100) ∧
    (∃ a, (transactAsset64 (scenarioEnv 0) storeB "transactAsset" scenarioArgs).store "GOLD" =
        some (Doc.asset a) ∧ a.OwnedBy "ACME" = some ⟨"ACME", 90, 10⟩) := by
  have h : (transactAsset64 (scenarioEnv 0) storeB "transactAsset" scenarioArgs).err = none := by
    with_unfolding_all rfl
  obtain ⟨⟨b, hb, _, hesc, _⟩, _, ⟨a, ha, hrec, _, _⟩, _, _, _⟩ :=
    transactAsset_escrow_settlement (scenarioEnv 0) storeB "transactAsset"
      "GOLD" "ACME" "BOB" "10" "10.0" "FALSE" 10 10 (gold ⟨true, 5⟩) acme bob [] []
      (by decide) (by with_unfolding_all rfl) rfl rfl rfl rfl rfl rfl rfl rfl (by decide) rfl
      (Or.inr (by decide))
      (fun d hd => by
        rw [show storeB (newTransactionId (scenarioEnv 0) "GOLD" "ACME" "BOB" (scenarioEnv 0).Now)
          = none from by with_unfolding_all rfl] at hd
        cases hd) h
  refine ⟨h, ⟨b, hb, ?_⟩, ⟨a, ha, ?_⟩⟩
  · rw [hesc]
    simp [bob, scenarioEnv]
    norm_num
  · rw [hrec]
    simp [gold, Asset.ownedBy, int64]

/-! ## Approval in 64-bit arithmetic -/

@[simp] theorem approvedAsset64_Id (asset : Asset) (s b : String) (q : Int) :
    (approvedAsset64 asset s b q).Id = asset.Id := by
  simp [approvedAsset64]

theorem Asset.Int64Records_ownedBy (a : Asset) (h : a.Int64Records) (k : String) :
    InInt64 (a.ownedBy k).Quantity ∧ InInt64 (a.ownedBy k).EscrowQty := by
  unfold Asset.ownedBy
  cases hr : a.OwnedBy k with
  | none => simp [InInt64]
  | some r => simpa using h k r hr

theorem Asset.addOwner64_NonNegative (a : Asset) (b : String) (q : Int) (h : a.NonNegative)
    (hq : 0 ≤ q) (hfit : b ∈ a.Owners → (a.ownedBy b).Quantity + q ≤ 9223372036854775807) :
    (a.addOwner64 b q).NonNegative := by
  have hb := Asset.NonNegative_ownedBy a h b
  unfold Asset.addOwner64
  split
  · rename_i hmem
    have hm : b ∈ a.Owners := by simpa [IsElementInSlice] using hmem
    have hf := hfit hm
    apply Asset.setOwnedBy_NonNegative a b _ h
    refine ⟨?_, hb.2⟩
    show 0 ≤ int64 ((a.ownedBy b).Quantity + q)
    rw [int64_of_fits _ ⟨by omega, by omega⟩]
    omega
  · apply Asset.setOwnedBy_NonNegative _ b _ (fun k r hr => h k r hr)
    exact ⟨hq, le_refl 0⟩

theorem Asset.removeOwner64_live_NonNegative (a : Asset) (s : String) (q : Int)
    (h : a.NonNegative) (hq0 : 0 ≤ q) (hq : q ≤ (a.ownedBy s).Quantity)
    (hmax : (a.ownedBy s).Quantity ≤ 9223372036854775807) :
    (a.removeOwner64 s q false).NonNegative := by
  have hs := Asset.NonNegative_ownedBy a h s
  unfold Asset.removeOwner64
  simp only [Bool.false_eq_true, if_false]
  split
  · exact Asset.deleteOwner_NonNegative a s h
  · unfold Asset.subtractOwner64
    simp only [Bool.false_eq_true, if_false]
    apply Asset.setOwnedBy_NonNegative a s _ h
    refine ⟨?_, hs.2⟩
    show 0 ≤ int64 ((a.ownedBy s).Quantity - q)
    rw [int64_of_fits _ ⟨by omega, by omega⟩]
    omega

theorem Asset.escrowOwner64_NonNegative (a : Asset) (s : String) (q : Int)
    (h : a.NonNegative) (hq0 : 0 ≤ q) (hq : q ≤ (a.ownedBy s).Quantity)
    (hmax : (a.ownedBy s).Quantity ≤ 9223372036854775807)
    (hfit : (a.ownedBy s).EscrowQty + q ≤ 9223372036854775807) :
    (a.escrowOwner64 s q).NonNegative := by
  have hs := Asset.NonNegative_ownedBy a h s
  unfold Asset.escrowOwner64
  apply Asset.setOwnedBy_NonNegative a s _ h
  refine ⟨?_, ?_⟩
  · show 0 ≤ int64 ((a.ownedBy s).Quantity - q)
    rw [int64_of_fits _ ⟨by omega, by omega⟩]
    omega
  · show 0 ≤ int64 ((a.ownedBy s).EscrowQty + q)
    rw [int64_of_fits _ ⟨by omega, by omega⟩]
    omega

theorem tradedAsset64_NonNegative (asset : Asset) (s : String) (q : Int)
    (h : asset.NonNegative) : (tradedAsset64 asset s q).NonNegative := by
  intro k r hr
  rw [tradedAsset64_OwnedBy] at hr
  exact h k r hr

theorem directAsset64_NonNegative (asset : Asset) (s b : String) (q : Int) (hne : b ≠ s)
    (h : asset.NonNegative) (hq0 : 0 ≤ q) (hq : q ≤ (asset.ownedBy s).Quantity)
    (hmax : (asset.ownedBy s).Quantity ≤ 9223372036854775807)
    (hfit : b ∈ asset.Owners → (asset.ownedBy b).Quantity + q ≤ 9223372036854775807) :
    (directAsset64 asset s b q).NonNegative := by
  have hs : ((tradedAsset64 asset s q).addOwner64 b q).ownedBy s = asset.ownedBy s := by
    rw [Asset.addOwner64_ownedBy_other _ b s q (Ne.symm hne)]
    simp
  unfold directAsset64
  apply Asset.removeOwner64_live_NonNegative _ _ _ _ hq0
  · rw [hs]
    exact hq
  · rw [hs]
    exact hmax
  · apply Asset.addOwner64_NonNegative _ b q (tradedAsset64_NonNegative asset s q h) hq0
    simpa using hfit

theorem escrowAsset64_NonNegative (asset : Asset) (s : String) (q : Int)
    (h : asset.NonNegative) (hq0 : 0 ≤ q) (hq : q ≤ (asset.ownedBy s).Quantity)
    (hmax : (asset.ownedBy s).Quantity ≤ 9223372036854775807)
    (hfit : (asset.ownedBy s).EscrowQty + q ≤ 9223372036854775807) :
    (escrowAsset64 asset s q).NonNegative := by
  unfold escrowAsset64
  apply Asset.escrowOwner64_NonNegative _ s q (tradedAsset64_NonNegative asset s q h) hq0
  · simpa using hq
  · simpa using hmax
  · simpa using hfit

theorem gold_Int64Records (triggers : Trigger) : (gold triggers).Int64Records := by
  intro k r hr
  by_cases hk : k = "ACME"
  · subst hk
    simp [gold] at hr
    subst hr
    simp [InInt64]
  · simp [gold, hk] at hr

theorem goldFull_NonNegative : goldFull.NonNegative := by
  intro k r hr
  by_cases hk : k = "ACME"
  · subst hk
    simp [goldFull] at hr
    subst hr
    simp
  · by_cases hk2 : k = "BOB"
    · subst hk2
      simp [goldFull] at hr
      subst hr
      simp
    · simp [goldFull, hk, hk2] at hr

/-- The buyer and asset documents a successful trade between distinct parties
stores in 64-bit arithmetic, with the path taken, and what the passed
requirements say.  The documents sit under their own ids, and the key of the
transaction id is unused or holds a transaction. -/
theorem transactAsset64_stored_parties (E : Env) (st : Store) (fn : String)
    (assetId sellerId buyerId arg3 arg4 arg5 : String) (quantity : Int) (price : ℚ)
    (asset : Asset) (seller buyer : Owner) (ledger : List String)
    (hq : E.Atoi arg3 = some quantity) (hp : E.ParseFloat arg4 = some price)
    (ha : st assetId = some (Doc.asset asset)) (haid : asset.Id = assetId)
    (hs : st sellerId = some (Doc.owner seller)) (hsid : seller.OwnerId = sellerId)
    (hb : st buyerId = some (Doc.owner buyer)) (hbid : buyer.OwnerId = buyerId)
    (hl : st PRIMARYKEY2 = some (Doc.strings ledger))
    (hne : buyerId ≠ sellerId)
    (hid : ∀ d, st (newTransactionId E assetId sellerId buyerId E.Now) = some d →
      ∃ t, d = Doc.transaction t)
    (hsucc :
      (transactAsset64 E st fn [assetId, sellerId, buyerId, arg3, arg4, arg5]).err = none) :
    (buyer.Balance ≥ E.mulFloat price (E.floatOfInt quantity) ∧
      (asset.ownedBy sellerId).Quantity ≥ quantity) ∧
    ((¬ (arg5 = "TRUE" ∨
          (asset.Triggers.Approval = true ∧ quantity > asset.Triggers.ApprovalQty)) ∧
      (transactAsset64 E st fn [assetId, sellerId, buyerId, arg3, arg4, arg5]).store buyerId =
        some (Doc.owner (directBuyer E buyer (newTransactionId E assetId sellerId buyerId E.Now)
          assetId (E.mulFloat price (E.floatOfInt quantity)))) ∧
      (transactAsset64 E st fn [assetId, sellerId, buyerId, arg3, arg4, arg5]).store assetId =
        some (Doc.asset (directAsset64 asset sellerId buyerId quantity))) ∨
     ((arg5 = "TRUE" ∨
          (asset.Triggers.Approval = true ∧ quantity > asset.Triggers.ApprovalQty)) ∧
      (transactAsset64 E st fn [assetId, sellerId, buyerId, arg3, arg4, arg5]).store buyerId =
        some (Doc.owner (escrowBuyer E buyer (newTransactionId E assetId sellerId buyerId E.Now)
          (E.mulFloat price (E.floatOfInt quantity)))) ∧
      (transactAsset64 E st fn [assetId, sellerId, buyerId, arg3, arg4, arg5]).store assetId =
        some (Doc.asset (escrowAsset64 asset sellerId quantity)))) := by
  obtain ⟨q2, p2, a2, s2, b2, tx0, l2, tx, hq2, hp2, ha2, hs2, hb2, hr, hc, hl2, hf, heq⟩ :=
    transactAsset64_ok_inv E st fn assetId sellerId buyerId arg3 arg4 arg5 hsucc
  rw [hq] at hq2; cases hq2
  rw [hp] at hp2; cases hp2
  rw [getAsset_of_doc E st assetId asset ha] at ha2; cases ha2
  rw [getOwner_of_doc E st sellerId seller hs] at hs2; cases hs2
  rw [getOwner_of_doc E st buyerId buyer hb] at hb2; cases hb2
  rw [getDataArrayStrings_of_doc E st PRIMARYKEY2 ledger hl] at hl2; cases hl2
  obtain ⟨htid, _⟩ := trade_transaction_fields E asset quantity price assetId sellerId buyerId
    tx0 tx hc hf
  obtain ⟨_, _, _, _, h5, h6, _⟩ := (tradingRequirements_eq_none_iff fn asset seller buyer
    sellerId quantity price (E.mulFloat price (E.floatOfInt quantity))).mp hr
  have k1 : buyerId ≠ PRIMARYKEY2 := key_ne_of_doc hb hl (by simp)
  have k3 : assetId ≠ PRIMARYKEY2 := key_ne_of_doc ha hl (by simp)
  have k4 : buyerId ≠ newTransactionId E assetId sellerId buyerId E.Now :=
    key_ne_of_tx hb hid (by simp)
  have k6 : assetId ≠ newTransactionId E assetId sellerId buyerId E.Now :=
    key_ne_of_tx ha hid (by simp)
  have k7 : buyerId ≠ assetId := key_ne_of_doc hb ha (by simp)
  refine ⟨⟨h5, h6⟩, ?_⟩
  by_cases hA : (if asset.Triggers.Approval = true ∧ quantity > asset.Triggers.ApprovalQty
      then "TRUE" else arg5) = "TRUE"
  · cases hpend : getDataArrayStrings E st PRIMARYKEY3 [] with
    | error e =>
      rw [heq, settleTrade64_escrow_err E st asset seller buyer tx ledger assetId sellerId
        buyerId quantity _ _ e hA hpend] at hsucc
      simp at hsucc
    | ok pending =>
      rw [heq, settleTrade64_escrow E st asset seller buyer tx ledger pending assetId sellerId
        buyerId quantity _ _ hA hpend]
      simp only [persistTrade_store]
      refine Or.inr ⟨(approvalRequired_iff asset quantity arg5).mp hA, ?_, ?_⟩
      · simp [k1, k4, k7, hne, haid, hbid, htid, hsid]
      · simp [k3, k6, haid, htid]
  · rw [heq, settleTrade64_direct _ _ _ _ _ _ _ _ _ _ _ _ _ hA]
    simp only [persistTrade_store]
    refine Or.inl ⟨fun h => hA ((approvalRequired_iff asset quantity arg5).mpr h), ?_, ?_⟩
    · simp [k1, k4, k7, hne, haid, hbid, htid, hsid]
    · simp [k3, k6, haid, htid]

/-- C32, as stated, fails: in the ledger of Scenario A with `BOB` already
holding 9223372036854775807 units of `GOLD` (every holder record
non-negative), the trade of one unit from `ACME` to `BOB` succeeds and the
stored holder record of `BOB` has quantity -9223372036854775808: the sum in
`addOwner` leaves the range of the 64-bit `int`. -/
theorem trade_overflows_holding :
    (scenarioEnv 0).Atoi "1" = some 1 ∧ (1 : Int) > 0 ∧ "BOB" ≠ "ACME" ∧
    storeFull "GOLD" = some (Doc.asset goldFull) ∧ goldFull.NonNegative ∧
    (transactAsset64 (scenarioEnv 0) storeFull "transactAsset" oneUnitArgs).err = none ∧
    ∃ a, (transactAsset64 (scenarioEnv 0) storeFull "transactAsset" oneUnitArgs).store "GOLD" =
        some (Doc.asset a) ∧
      a.OwnedBy "BOB" = some ⟨"BOB", -9223372036854775808, 0⟩ ∧ ¬ a.NonNegative :=
  ⟨by with_unfolding_all rfl, by decide, by decide, rfl, goldFull_NonNegative,
    by with_unfolding_all rfl,
    _, by with_unfolding_all rfl, by with_unfolding_all rfl,
    fun h => absurd (h "BOB" ⟨"BOB", -9223372036854775808, 0⟩ (by with_unfolding_all rfl)).1
      (by decide)⟩

/-- C32, amended: sufficiency is validated before the unchecked subtractions,
and nothing checks the sums.  After a successful trade with `quantity > 0` and
`buyer != seller` on an asset whose holder records are all non-negative values
of a 64-bit `int`, where on the direct path the live quantity of a buyer among
the owners plus `quantity`, and on the escrow path the seller's escrowed
quantity plus `quantity`, does not exceed 9223372036854775807, every holder
record of the stored asset has `Quantity >= 0` and `EscrowQty >= 0`, the
seller's record is deleted or has live quantity `old - quantity >= 0`, and the
stored buyer has `Balance >= 0`.  The documents sit under their own ids, and the
key of the transaction id is unused or holds a transaction. -/
theorem trade_keeps_records_nonnegative (E : Env) (st : Store) (fn : String)
    (assetId sellerId buyerId arg3 arg4 arg5 : String) (quantity : Int) (price : ℚ)
    (asset : Asset) (seller buyer : Owner) (ledger : List String)
    (hq : E.Atoi arg3 = some quantity) (hp : E.ParseFloat arg4 = some price)
    (ha : st assetId = some (Doc.asset asset)) (haid : asset.Id = assetId)
    (hs : st sellerId = some (Doc.owner seller)) (hsid : seller.OwnerId = sellerId)
    (hb : st buyerId = some (Doc.owner buyer)) (hbid : buyer.OwnerId = buyerId)
    (hl : st PRIMARYKEY2 = some (Doc.strings ledger))
    (hne : buyerId ≠ sellerId) (hpos : quantity > 0) (hnn : asset.NonNegative)
    (h64 : asset.Int64Records)
    (hfitB : ¬ (arg5 = "TRUE" ∨
        (asset.Triggers.Approval = true ∧ quantity > asset.Triggers.ApprovalQty)) →
      buyerId ∈ asset.Owners →
      (asset.ownedBy buyerId).Quantity + quantity ≤ 9223372036854775807)
    (hfitE : (arg5 = "TRUE" ∨
        (asset.Triggers.Approval = true ∧ quantity > asset.Triggers.ApprovalQty)) →
      (asset.ownedBy sellerId).EscrowQty + quantity ≤ 9223372036854775807)
    (hid : ∀ d, st (newTransactionId E assetId sellerId buyerId E.Now) = some d →
      ∃ t, d = Doc.transaction t)
    (hsucc :
      (transactAsset64 E st fn [assetId, sellerId, buyerId, arg3, arg4, arg5]).err = none) :
    ∃ a b,
      (transactAsset64 E st fn [assetId, sellerId, buyerId, arg3, arg4, arg5]).store assetId =
        some (Doc.asset a) ∧
      (transactAsset64 E st fn [assetId, sellerId, buyerId, arg3, arg4, arg5]).store buyerId =
        some (Doc.owner b) ∧
      a.NonNegative ∧
      (a.OwnedBy sellerId = none ∨
        ((a.ownedBy sellerId).Quantity = (asset.ownedBy sellerId).Quantity - quantity ∧
          0 ≤ (a.ownedBy sellerId).Quantity)) ∧
      0 ≤ b.Balance := by
  obtain ⟨⟨hbal, hhold⟩, hdocs⟩ := transactAsset64_stored_parties E st fn assetId sellerId
    buyerId arg3 arg4 arg5 quantity price asset seller buyer ledger hq hp ha haid hs hsid hb
    hbid hl hne hid hsucc
  have hq0 : 0 ≤ quantity := le_of_lt hpos
  have hS := (Asset.Int64Records_ownedBy asset h64 sellerId).1
  have hSnn := (Asset.NonNegative_ownedBy asset hnn sellerId).1
  have hmax : (asset.ownedBy sellerId).Quantity ≤ 9223372036854775807 := hS.2
  have hdiff : int64 ((asset.ownedBy sellerId).Quantity - quantity) =
      (asset.ownedBy sellerId).Quantity - quantity :=
    int64_of_fits _ ⟨by omega, by omega⟩
  rcases hdocs with ⟨hdir, hB, hA⟩ | ⟨hesc, hB, hA⟩
  · refine ⟨_, _, hA, hB, directAsset64_NonNegative asset sellerId buyerId quantity hne hnn hq0
      hhold hmax (hfitB hdir), ?_, ?_⟩
    · by_cases hc : (asset.ownedBy sellerId).Quantity = quantity ∧
          (asset.ownedBy sellerId).EscrowQty = 0
      · exact Or.inl (directAsset64_seller_delete asset sellerId buyerId quantity hne hc).1
      · right
        have hk := directAsset64_seller_keep asset sellerId buyerId quantity hne hc
        have hv : ((directAsset64 asset sellerId buyerId quantity).ownedBy sellerId).Quantity =
            (asset.ownedBy sellerId).Quantity - quantity := by
          have hd := hdiff
          unfold Asset.ownedBy at hd
          simp [Asset.ownedBy, hk, hd]
        rw [hv]
        exact ⟨rfl, by omega⟩
    · rw [directBuyer_Balance]
      exact E.subFloat_nonneg _ _ hbal
  · refine ⟨_, _, hA, hB, escrowAsset64_NonNegative asset sellerId quantity hnn hq0 hhold hmax
      (hfitE hesc), ?_, ?_⟩
    · right
      have hk := escrowAsset64_seller asset sellerId quantity
      have hv : ((escrowAsset64 asset sellerId quantity).ownedBy sellerId).Quantity =
          (asset.ownedBy sellerId).Quantity - quantity := by
        have hd := hdiff
        unfold Asset.ownedBy at hd
        simp [Asset.ownedBy, hk, hd]
      rw [hv]
      exact ⟨rfl, by omega⟩
    · rw [escrowBuyer_Balance]
      exact E.subFloat_nonneg _ _ hbal

theorem trade_keeps_records_nonnegative_witness :
    ∃ a b,
      (transactAsset64 (scenarioEnv 0) storeB "transactAsset"
        ["GOLD", "ACME", "BOB", "10", "10.0", "FALSE"]).store "GOLD" = some (Doc.asset a) ∧
      (transactAsset64 (scenarioEnv 0) storeB "transactAsset"
        ["GOLD", "ACME", "BOB", "10", "10.0", "FALSE"]).store "BOB" = some (Doc.owner b) ∧
      a.NonNegative ∧
      (a.OwnedBy "ACME" = none ∨
        ((a.ownedBy "ACME").Quantity = ((gold ⟨true, 5⟩).ownedBy "ACME").Quantity - 10 ∧
          0 ≤ (a.ownedBy "ACME").Quantity)) ∧
      0 ≤ b.Balance :=
  trade_keeps_records_nonnegative (scenarioEnv 0) storeB "transactAsset"
    "GOLD" "ACME" "BOB" "10" "10.0" "FALSE" 10 10 (gold ⟨true, 5⟩) acme bob []
    (by decide) (by with_unfolding_all rfl) rfl rfl rfl rfl rfl rfl rfl (by decide) (by decide)
    (gold_NonNegative _) (gold_Int64Records _)
    (fun h => absurd (Or.inr (by decide)) h)
    (fun _ => by with_unfolding_all decide)
    (fun d hd => by
      rw [show storeB (newTransactionId (scenarioEnv 0) "GOLD" "ACME" "BOB" (scenarioEnv 0).Now)
        = none from by with_unfolding_all rfl] at hd
      cases hd) (by with_unfolding_all rfl)

end Marketplace
